import Mathlib

/-!
Azure ResourceManager exporter: scrape cycle, result aggregation, start-up.

A shallow embedding of `src/main.go` and `src/metrics_azurerm.go`.

* Gauge vectors are maps from label sets to values; a deferred metric mutation
  (a Go `func()` sent on `callbackChannel`) is the list of `Set` operations its
  body performs, in order.
* A collector function is a pure function from the API answers it receives to
  what it sends on the channels, what it logs, and whether it returns or panics.
* One call of `runMetricsCollectionAzureRm` is a transition system over
  `CycleState`, driven by a schedule that names the goroutine moving next.
* A panic is recovered nowhere in the program. A task that panics makes two moves: its
  deferred `wg.Done()` runs, which the other goroutines see while the process is alive;
  then the runtime ends the process, after which nothing moves any more.
* A result iterator is the sequence of values its loop visits, together with the error of
  `Next()` where that call fails.
* `main` is a function from the start-up outcomes to the trace of start-up events.
* The loop of `startMetricsCollectionAzureRm` runs on a clock: starting a cycle takes no
  time, `time.Sleep` takes its argument.
* `portrangeRegexp` is the syntax tree of its pattern, run by a backtracking matcher with
  capture groups.
-/

set_option autoImplicit false
set_option maxRecDepth 100000

namespace AzureRM

/-! ## Metric families and metric state -/

/-- The gauge vectors declared in the `var` block of `metrics_azurerm.go`. -/
inductive Family where
  | prometheusSubscription
  | prometheusResourceGroup
  | prometheusVm
  | prometheusVmOs
  | prometheusPublicIp
  | prometheusApiQuota
  | prometheusQuota
  | prometheusQuotaCurrent
  | prometheusQuotaLimit
  | prometheusContainerRegistry
  | prometheusContainerRegistryQuotaCurrent
  | prometheusContainerRegistryQuotaLimit
  | prometheusSecuritycenterCompliance
  | prometheusAdvisorRecommendations
  deriving DecidableEq, Repr

/-- The families handed to `prometheus.MustRegister` by `initMetricsAzureRm`, in source order. -/
def registeredFamilies : List Family :=
  [ .prometheusSubscription, .prometheusResourceGroup, .prometheusVm, .prometheusVmOs,
    .prometheusPublicIp, .prometheusApiQuota, .prometheusQuota, .prometheusQuotaCurrent,
    .prometheusQuotaLimit, .prometheusContainerRegistry,
    .prometheusContainerRegistryQuotaCurrent, .prometheusContainerRegistryQuotaLimit,
    .prometheusSecuritycenterCompliance, .prometheusAdvisorRecommendations ]

/-- A `prometheus.Labels` map literal, written as its key/value pairs in source order.
The label sets of one family are built by the same literal (followed by the same calls of
`addAzureResourceTags`) wherever the code sets that family, so two of them are the same
map exactly when they are the same list. -/
abbrev Labels := List (String × String)

/-- A gauge value. The exporter only stores and forwards `float64` values, it never
computes with them, so the carrier is kept exact. -/
abbrev GaugeValue := Int

/-- One `family.With(labels).Set(value)` statement. -/
structure SetOp where
  family : Family
  labels : Labels
  value : GaugeValue
  deriving DecidableEq, Repr

/-- A deferred metric mutation: the `Set` statements of one callback, in order. -/
abbrev Mutation := List SetOp

/-- The label/value pairs currently held by every family. -/
abbrev MetricState := Family → Labels → Option GaugeValue

/-- The state in which no family holds a pair. -/
def MetricState.empty : MetricState := fun _ _ => none

/-- `family.Reset()`: drops every pair of that family and leaves the others alone. -/
def MetricState.reset (st : MetricState) (f : Family) : MetricState :=
  fun g l => if g = f then none else st g l

/-- `family.With(labels).Set(value)`. -/
def MetricState.set (st : MetricState) (op : SetOp) : MetricState :=
  fun g l => if g = op.family ∧ l = op.labels then some op.value else st g l

/-- Running one callback. -/
def MetricState.run (st : MetricState) (m : Mutation) : MetricState :=
  m.foldl MetricState.set st

/-- The loop `for _, callback := range callbackList { callback() }`. -/
def MetricState.replay (st : MetricState) (callbackList : List Mutation) : MetricState :=
  callbackList.foldl MetricState.run st

/-- The fourteen `Reset()` statements of the aggregator goroutine, in source order
(lines 319 to 332 of `metrics_azurerm.go`). -/
def aggregatorResets : List Family :=
  [ .prometheusSubscription, .prometheusResourceGroup, .prometheusVm, .prometheusVmOs,
    .prometheusPublicIp, .prometheusApiQuota, .prometheusQuota, .prometheusQuotaCurrent,
    .prometheusQuotaLimit, .prometheusContainerRegistry,
    .prometheusContainerRegistryQuotaCurrent, .prometheusContainerRegistryQuotaLimit,
    .prometheusSecuritycenterCompliance, .prometheusAdvisorRecommendations ]

/-- The body of the aggregator goroutine after its receive loop: the resets, then the replay. -/
def aggregate (prior : MetricState) (callbackList : List Mutation) : MetricState :=
  (aggregatorResets.foldl MetricState.reset prior).replay callbackList

/-- The family and label set a `Set` statement addresses. -/
def SetOp.key (op : SetOp) : Family × Labels := (op.family, op.labels)

/-- Mutations keyed by distinct label sets within each family: no two `Set` statements of
the list address the same family with the same label set. -/
def DistinctKeys (l : List Mutation) : Prop := (l.flatten.map SetOp.key).Nodup

/-- Distinctness of keys can be checked. -/
instance DistinctKeys.decidable (l : List Mutation) : Decidable (DistinctKeys l) :=
  inferInstanceAs (Decidable (l.flatten.map SetOp.key).Nodup)

/-! ## Configuration, helpers defined outside the two source files, API answers -/

/-- The fields of `opts` read by the code under study. -/
structure Opts where
  AzureLocation : List String
  AzureResourceTags : List String
  Portscan : Bool
  PortscanPortRange : List String

/-- Names the two source files use and the repository defines in files that are not part
of the sources at hand; they are taken as given. `parseFloat` stands for
`strconv.ParseFloat(val, 64)`. -/
structure Deps where
  AZURE_RESOURCE_TAG_PREFIX : String
  extractResourceGroupFromAzureId : String → String
  boolToString : Bool → String
  parseFloat : String → Except String GaugeValue

/-- A resource's `Tags` map; present tags carry a value. -/
abbrev Tags := List (String × String)

/-- The assignment `labels[k] = v` on a label map. -/
def Labels.put : Labels → String → String → Labels
  | [], k, v => [(k, v)]
  | (k', v') :: rest, k, v =>
    if k' = k then (k, v) :: rest else (k', v') :: Labels.put rest k v

/-- Source function `addAzureResourceTags`; the fold is its loop over
`opts.AzureResourceTags`. -/
def addAzureResourceTags (d : Deps) (opts : Opts) (tags : Tags) (labels : Labels) : Labels :=
  opts.AzureResourceTags.foldl
    (fun labels rgTag =>
      let rgTabLabel := d.AZURE_RESOURCE_TAG_PREFIX ++ rgTag
      match tags.lookup rgTag with
      | some v => Labels.put labels rgTabLabel v
      | none => Labels.put labels rgTabLabel "")
    labels

/-- Answer of `subscriptionClient.Get`. `Header name` is `sub.Response.Header.Get(name)`,
the empty string when the header is absent. -/
structure Subscription where
  ID : String
  SubscriptionID : String
  DisplayName : String
  SpendingLimit : String
  QuotaID : String
  LocationPlacementID : String
  Header : String → String

/-- An item of the resource group listing. -/
structure ResourceGroup where
  ID : String
  Name : String
  Location : String
  Tags : Tags

/-- An item of the public IP listing; `IPAddress` is `none` for a nil pointer. -/
structure PublicIPAddress where
  ID : String
  Location : String
  IPAddress : Option String
  PublicIPAllocationMethod : String
  PublicIPAddressVersion : String
  Tags : Tags

/-- An item of a compute, network or storage usage listing. -/
structure Usage where
  Value : String
  LocalizedValue : String
  CurrentValue : GaugeValue
  Limit : GaugeValue

/-- An item of the virtual machine listing. -/
structure VirtualMachine where
  ID : String
  Location : String
  VMID : String
  Name : String
  VmType : String
  VMSize : String
  ProvisioningState : String
  Tags : Tags
  Publisher : String
  Sku : String
  Offer : String
  Version : String

/-- The `Sku` of a container registry. -/
structure RegistrySku where
  Name : String
  Tier : String

/-- An item of the container registry listing. -/
structure Registry where
  ID : String
  Location : String
  Name : String
  AdminUserEnabled : Bool
  Sku : Option RegistrySku
  Tags : Tags

/-- An item of a registry usage listing. -/
structure RegistryUsage where
  Unit : String
  Name : String
  CurrentValue : GaugeValue
  Limit : GaugeValue

/-- An item of `complienceResult.AssessmentResult`. -/
structure ComplianceSegment where
  SegmentType : Option String
  Percentage : GaugeValue

/-- Answer of `complianceClient.Get`. -/
structure Compliance where
  AssessmentResult : Option (List ComplianceSegment)

/-- An item of the advisor recommendation listing. -/
structure Recommendation where
  ID : String
  Category : String
  ImpactedField : String
  ImpactedValue : String
  Impact : String
  Risk : String

/-- A result iterator (`ListAllComplete`, `ListComplete`) as a `for list.NotDone()` loop
sees it. `done`: `NotDone()` is false. `value val next`: `Value()` is `val` and the call
of `Next()` succeeds and leads to `next`. `failing val err`: `Value()` is `val` and the
call of `Next()`, which has to fetch the next page, returns `err`. -/
inductive Iterator (α : Type) where
  | done
  | value (val : α) (next : Iterator α)
  | failing (val : α) (err : String)

/-- The values of an iterator up to its end or to the first call of `Next()` that fails. -/
def Iterator.visited {α : Type} : Iterator α → List α
  | .done => []
  | .value val next => val :: next.visited
  | .failing val _ => [val]

/-- The iterator over a complete listing: every call of `Next()` succeeds. -/
def Iterator.ofList {α : Type} : List α → Iterator α
  | [] => .done
  | x :: xs => .value x (Iterator.ofList xs)

/-- What the management API answers during one cycle. `Except.error err` is a call
returning `err != nil`. A listing is the sequence of items the code iterates over; the
two listings the code walks with `NotDone()`, `Value()` and `Next()` are iterators.
`registriesListUsages` returns both `arcUsage.Value` and the error, as the Go call does.
In the records above a pointer field that the code dereferences without a nil check is
taken as present; a field it checks (`IPAddress`, `Sku`, `SegmentType`,
`AssessmentResult`, `arcUsage.Value`) is an `Option`. -/
structure Api where
  subscriptionsGet : String → Except String Subscription
  groupsListComplete : String → Except String (List ResourceGroup)
  publicIPAddressesListAll : String → Except String (List PublicIPAddress)
  computeUsageList : String → String → Except String (List Usage)
  networkUsagesList : String → String → Except String (List Usage)
  storageUsageList : String → String → Except String (List Usage)
  virtualMachinesListAllComplete : String → Except String (Iterator VirtualMachine)
  registriesListComplete : String → Except String (Iterator Registry)
  registriesListUsages : String → String → String → Option (List RegistryUsage) × Option String
  compliancesGet : String → String → Except String Compliance
  recommendationsListComplete : String → Except String (List Recommendation)

/-! ## Collector functions -/

/-- How a collector function ends. A panic is not recovered anywhere in the program. -/
inductive Outcome where
  | returned
  | panicked (err : String)
  deriving DecidableEq, Repr

/-- One `ErrorLogger.Error(message, err)` call. -/
structure LogEntry where
  message : String
  err : String
  deriving DecidableEq, Repr

/-- What a collector function does: the callbacks it sends on the callback channel in
order, the errors it logs, and how it ends. -/
structure Collected where
  sent : List Mutation
  logged : List LogEntry
  outcome : Outcome
  deriving DecidableEq, Repr

/-- A collector that does nothing and returns. -/
def Collected.skip : Collected := ⟨[], [], .returned⟩

/-- The statement `callback <- func() { ... }`. -/
def Collected.send (m : Mutation) : Collected := ⟨[m], [], .returned⟩

/-- The statement `ErrorLogger.Error(message, err)`. -/
def Collected.log (message err : String) : Collected := ⟨[], [⟨message, err⟩], .returned⟩

/-- The statement `panic(err)`. -/
def Collected.panic (err : String) : Collected := ⟨[], [], .panicked err⟩

/-- Sequential composition: the second part runs only when the first returned. -/
def Collected.andThen (a b : Collected) : Collected :=
  match a.outcome with
  | .returned => ⟨a.sent ++ b.sent, a.logged ++ b.logged, b.outcome⟩
  | .panicked _ => a

/-- A `for _, x := range xs { body }` loop. -/
def Collected.forEach {α : Type} : List α → (α → Collected) → Collected
  | [], _ => Collected.skip
  | x :: xs, body => (body x).andThen (Collected.forEach xs body)

/-- A loop `for list.NotDone() { val := list.Value(); body; if list.Next() != nil { break } }`:
an error of `Next()` ends the loop like the end of the listing does. -/
def Collected.forIterator {α : Type} : Iterator α → (α → Collected) → Collected
  | .done, _ => Collected.skip
  | .value val next, body => (body val).andThen (Collected.forIterator next body)
  | .failing val _, body => body val

/-- Source function `probeProcessHeader`. -/
def probeProcessHeader (d : Deps) (header : String → String) (name : String)
    (labels : Labels) : Collected :=
  let val := header name
  if val ≠ "" then
    match d.parseFloat val with
    | .ok valFloat => Collected.send [⟨.prometheusApiQuota, labels, valFloat⟩]
    | .error err => Collected.log ("Failed to parse value '" ++ val ++ "':") err
  else
    Collected.skip

/-- Source function `collectAzureSubscription`. -/
def collectAzureSubscription (d : Deps) (api : Api) (subscriptionId : String) : Collected :=
  match api.subscriptionsGet subscriptionId with
  | .error err => Collected.panic err
  | .ok sub =>
    (Collected.send [⟨.prometheusSubscription,
        [("resourceID", sub.ID), ("subscriptionID", sub.SubscriptionID),
         ("subscriptionName", sub.DisplayName), ("spendingLimit", sub.SpendingLimit),
         ("quotaID", sub.QuotaID), ("locationPlacementID", sub.LocationPlacementID)], 1⟩]).andThen <|
    (probeProcessHeader d sub.Header "x-ms-ratelimit-remaining-subscription-reads"
        [("subscriptionID", subscriptionId), ("scope", "subscription"), ("type", "read")]).andThen <|
    (probeProcessHeader d sub.Header "x-ms-ratelimit-remaining-subscription-resource-requests"
        [("subscriptionID", subscriptionId), ("scope", "subscription"),
         ("type", "resource-requests")]).andThen <|
    (probeProcessHeader d sub.Header "x-ms-ratelimit-remaining-subscription-resource-entities-read"
        [("subscriptionID", subscriptionId), ("scope", "subscription"),
         ("type", "resource-entities-read")]).andThen <|
    (probeProcessHeader d sub.Header "x-ms-ratelimit-remaining-tenant-reads"
        [("subscriptionID", subscriptionId), ("scope", "tenant"), ("type", "read")]).andThen <|
    (probeProcessHeader d sub.Header "x-ms-ratelimit-remaining-tenant-resource-requests"
        [("subscriptionID", subscriptionId), ("scope", "tenant"),
         ("type", "resource-requests")]).andThen <|
    probeProcessHeader d sub.Header "x-ms-ratelimit-remaining-tenant-resource-entities-read"
        [("subscriptionID", subscriptionId), ("scope", "tenant"),
         ("type", "resource-entities-read")]

/-- Source function `collectAzureResourceGroup`. -/
def collectAzureResourceGroup (d : Deps) (opts : Opts) (api : Api)
    (subscriptionId : String) : Collected :=
  match api.groupsListComplete subscriptionId with
  | .error err => Collected.panic err
  | .ok items =>
    Collected.forEach items fun item =>
      let infoLabels := addAzureResourceTags d opts item.Tags
        [("resourceID", item.ID), ("subscriptionID", subscriptionId),
         ("resourceGroup", item.Name), ("location", item.Location)]
      Collected.send [⟨.prometheusResourceGroup, infoLabels, 1⟩]

/-- Source function `collectAzurePublicIp`: what it does on the callback channel, and the
`ipAddressList` it returns (meaningful when it returns). The fold is the `for` loop, its
accumulator the pair of what was sent so far and `ipAddressList`. -/
def collectAzurePublicIp (d : Deps) (opts : Opts) (api : Api)
    (subscriptionId : String) : Collected × List String :=
  match api.publicIPAddressesListAll subscriptionId with
  | .error err => (Collected.panic err, [])
  | .ok list =>
    list.foldl
      (fun (acc : Collected × List String) val =>
        let ipAddressList := acc.2
        let location := val.Location
        let ipAllocationMethod := val.PublicIPAllocationMethod
        let ipAdressVersion := val.PublicIPAddressVersion
        let infoLabels := fun (ipAddress : String) =>
          addAzureResourceTags d opts val.Tags
            [("resourceID", val.ID), ("subscriptionID", subscriptionId),
             ("resourceGroup", d.extractResourceGroupFromAzureId val.ID),
             ("location", location), ("ipAddress", ipAddress),
             ("ipAllocationMethod", ipAllocationMethod), ("ipAdressVersion", ipAdressVersion)]
        match val.IPAddress with
        | some ipAddress =>
          (acc.1.andThen (Collected.send [⟨.prometheusPublicIp, infoLabels ipAddress, 1⟩]),
           ipAddressList ++ [ipAddress])
        | none =>
          (acc.1.andThen (Collected.send [⟨.prometheusPublicIp, infoLabels "not allocated", 0⟩]),
           ipAddressList))
      (Collected.skip, [])

/-- Source function `collectAzureComputeUsage`. -/
def collectAzureComputeUsage (opts : Opts) (api : Api) (subscriptionId : String) : Collected :=
  Collected.forEach opts.AzureLocation fun location =>
    match api.computeUsageList subscriptionId location with
    | .error err => Collected.panic err
    | .ok list =>
      Collected.forEach list fun val =>
        let labels : Labels :=
          [("subscriptionID", subscriptionId), ("location", location), ("scope", "compute"),
           ("quota", val.Value)]
        let infoLabels : Labels :=
          [("subscriptionID", subscriptionId), ("location", location), ("scope", "compute"),
           ("quota", val.Value), ("quotaName", val.LocalizedValue)]
        Collected.send
          [⟨.prometheusQuota, infoLabels, 1⟩,
           ⟨.prometheusQuotaCurrent, labels, val.CurrentValue⟩,
           ⟨.prometheusQuotaLimit, labels, val.Limit⟩]

/-- Source function `collectAzureNetworkUsage` (its only call is commented out). -/
def collectAzureNetworkUsage (opts : Opts) (api : Api) (subscriptionId : String) : Collected :=
  Collected.forEach opts.AzureLocation fun location =>
    match api.networkUsagesList subscriptionId location with
    | .error err => Collected.panic err
    | .ok list =>
      Collected.forEach list fun val =>
        let labels : Labels :=
          [("subscriptionID", subscriptionId), ("location", location), ("scope", "storage"),
           ("quota", val.Value)]
        let infoLabels : Labels :=
          [("subscriptionID", subscriptionId), ("location", location), ("scope", "storage"),
           ("quota", val.Value), ("quotaName", val.LocalizedValue)]
        Collected.send
          [⟨.prometheusQuota, infoLabels, 1⟩,
           ⟨.prometheusQuotaCurrent, labels, val.CurrentValue⟩,
           ⟨.prometheusQuotaLimit, labels, val.Limit⟩]

/-- Source function `collectAzureStorageUsage`. The listing call takes no location; the
answer of the call made in the iteration for `location` is `storageUsageList _ location`. -/
def collectAzureStorageUsage (opts : Opts) (api : Api) (subscriptionId : String) : Collected :=
  Collected.forEach opts.AzureLocation fun location =>
    match api.storageUsageList subscriptionId location with
    | .error err => Collected.panic err
    | .ok list =>
      Collected.forEach list fun val =>
        let labels : Labels :=
          [("subscriptionID", subscriptionId), ("location", location), ("scope", "storage"),
           ("quota", val.Value)]
        let infoLabels : Labels :=
          [("subscriptionID", subscriptionId), ("location", location), ("scope", "storage"),
           ("quota", val.Value), ("quotaName", val.LocalizedValue)]
        Collected.send
          [⟨.prometheusQuota, infoLabels, 1⟩,
           ⟨.prometheusQuotaCurrent, labels, val.CurrentValue⟩,
           ⟨.prometheusQuotaLimit, labels, val.Limit⟩]

/-- Source function `collectAzureVm`. -/
def collectAzureVm (d : Deps) (opts : Opts) (api : Api) (subscriptionId : String) : Collected :=
  match api.virtualMachinesListAllComplete subscriptionId with
  | .error err => Collected.panic err
  | .ok list =>
    Collected.forIterator list fun val =>
      let infoLabels := addAzureResourceTags d opts val.Tags
        [("resourceID", val.ID), ("subscriptionID", subscriptionId),
         ("location", val.Location),
         ("resourceGroup", d.extractResourceGroupFromAzureId val.ID),
         ("vmID", val.VMID), ("vmName", val.Name), ("vmType", val.VmType),
         ("vmSize", val.VMSize), ("vmProvisioningState", val.ProvisioningState)]
      let osLabels : Labels :=
        [("vmID", val.VMID), ("imagePublisher", val.Publisher), ("imageSku", val.Sku),
         ("imageOffer", val.Offer), ("imageVersion", val.Version)]
      Collected.send [⟨.prometheusVm, infoLabels, 1⟩, ⟨.prometheusVmOs, osLabels, 1⟩]

/-- Source function `collectAzureContainerRegistries`. -/
def collectAzureContainerRegistries (d : Deps) (opts : Opts) (api : Api)
    (subscriptionId : String) : Collected :=
  match api.registriesListComplete subscriptionId with
  | .error err => Collected.panic err
  | .ok list =>
    Collected.forIterator list fun val =>
      let arcUsage :=
        api.registriesListUsages subscriptionId (d.extractResourceGroupFromAzureId val.ID) val.Name
      let logging :=
        match arcUsage.2 with
        | some err =>
          Collected.log
            ("subscription[" ++ subscriptionId ++ "]: unable to fetch ACR usage for " ++ val.Name)
            err
        | none => Collected.skip
      let skuName := match val.Sku with
        | some sku => sku.Name
        | none => ""
      let skuTier := match val.Sku with
        | some sku => sku.Tier
        | none => ""
      let infoLabels := addAzureResourceTags d opts val.Tags
        [("resourceID", val.ID), ("subscriptionID", subscriptionId),
         ("location", val.Location), ("registryName", val.Name),
         ("resourceGroup", d.extractResourceGroupFromAzureId val.ID),
         ("adminUserEnabled", d.boolToString val.AdminUserEnabled),
         ("skuName", skuName), ("skuTier", skuTier)]
      logging.andThen <| Collected.send <|
        ⟨.prometheusContainerRegistry, infoLabels, 1⟩ ::
          match arcUsage.1 with
          | some usages =>
            usages.flatMap fun usage =>
              let quotaLabels : Labels :=
                [("subscriptionID", subscriptionId), ("registryName", val.Name),
                 ("quotaUnit", usage.Unit), ("quotaName", usage.Name)]
              [⟨.prometheusContainerRegistryQuotaCurrent, quotaLabels, usage.CurrentValue⟩,
               ⟨.prometheusContainerRegistryQuotaLimit, quotaLabels, usage.Limit⟩]
          | none => []

/-- Source function `collectAzureSecurityCompliance`. -/
def collectAzureSecurityCompliance (api : Api) (subscriptionId location : String) : Collected :=
  match api.compliancesGet subscriptionId location with
  | .error err => Collected.log ("subscription[" ++ subscriptionId ++ "]") err
  | .ok complienceResult =>
    match complienceResult.AssessmentResult with
    | some results =>
      Collected.forEach results fun result =>
        let segmentType := match result.SegmentType with
          | some s => s
          | none => ""
        let infoLabels : Labels :=
          [("subscriptionID", subscriptionId), ("assessmentType", segmentType)]
        let infoValue := result.Percentage
        Collected.send [⟨.prometheusSecuritycenterCompliance, infoLabels, infoValue⟩]
    | none => Collected.skip

/-- Source function `collectAzureAdvisorRecommendations`. -/
def collectAzureAdvisorRecommendations (d : Deps) (api : Api)
    (subscriptionId : String) : Collected :=
  match api.recommendationsListComplete subscriptionId with
  | .error err => Collected.panic err
  | .ok items =>
    Collected.forEach items fun item =>
      let infoLabels : Labels :=
        [("subscriptionID", subscriptionId), ("category", item.Category),
         ("resourceType", item.ImpactedField), ("resourceName", item.ImpactedValue),
         ("resourceGroup", d.extractResourceGroupFromAzureId item.ID),
         ("impact", item.Impact), ("risk", item.Risk)]
      Collected.send [⟨.prometheusAdvisorRecommendations, infoLabels, 1⟩]

/-! ## One call of `runMetricsCollectionAzureRm` -/

/-- The goroutines started for one subscription, named by what they collect. -/
inductive TaskKind where
  | subscription
  | resourceGroup
  | vm
  | publicIp
  | computeUsage
  | networkUsage
  | storageUsage
  | containerRegistries
  | securityCompliance (location : String)
  | advisorRecommendations
  deriving DecidableEq, Repr

/-- What a task goroutine does that other goroutines can see. -/
inductive Action where
  | send (m : Mutation)
  | sendIps (ipAddressList : List String)
  | panic (err : String)
  deriving DecidableEq, Repr

/-- The channel sends of a collector, followed by its panic if it ends in one. -/
def Collected.actions (c : Collected) : List Action :=
  c.sent.map Action.send ++
    match c.outcome with
    | .returned => []
    | .panicked err => [Action.panic err]

/-- The body of the goroutine of each kind, before its deferred `wg.Done()`. The public IP
goroutine sends the returned list on `publicIpChannel` once the collector has returned;
the network usage goroutine only logs. -/
def taskBody (d : Deps) (opts : Opts) (api : Api) (subscriptionId : String) :
    TaskKind → List Action
  | .subscription => (collectAzureSubscription d api subscriptionId).actions
  | .resourceGroup => (collectAzureResourceGroup d opts api subscriptionId).actions
  | .vm => (collectAzureVm d opts api subscriptionId).actions
  | .publicIp =>
    let r := collectAzurePublicIp d opts api subscriptionId
    r.1.actions ++
      match r.1.outcome with
      | .returned => [Action.sendIps r.2]
      | .panicked _ => []
  | .computeUsage => (collectAzureComputeUsage opts api subscriptionId).actions
  | .networkUsage => []
  | .storageUsage => (collectAzureStorageUsage opts api subscriptionId).actions
  | .containerRegistries => (collectAzureContainerRegistries d opts api subscriptionId).actions
  | .securityCompliance location =>
    (collectAzureSecurityCompliance api subscriptionId location).actions
  | .advisorRecommendations => (collectAzureAdvisorRecommendations d api subscriptionId).actions

/-- A task goroutine: what it still has to do, and how often its deferred `wg.Done()` ran. -/
structure Task where
  subscriptionId : String
  kind : TaskKind
  todo : List Action
  signals : Nat

/-- The `go func` statements of one iteration of the subscription loop, in source order. -/
def spawnedKinds (opts : Opts) : List TaskKind :=
  [.subscription, .resourceGroup, .vm, .publicIp, .computeUsage, .networkUsage,
   .storageUsage, .containerRegistries] ++
  opts.AzureLocation.map TaskKind.securityCompliance ++
  [.advisorRecommendations]

/-- The goroutines the loop `for _, subscription := range AzureSubscriptions` starts. -/
def spawnList (d : Deps) (opts : Opts) (api : Api) (AzureSubscriptions : List String) :
    List Task :=
  AzureSubscriptions.flatMap fun subscriptionId =>
    (spawnedKinds opts).map fun kind =>
      ⟨subscriptionId, kind, taskBody d opts api subscriptionId kind, 0⟩

/-- The number of tasks one cycle spawns (the source has nine fixed `go func` statements
per subscription and one more per configured location). -/
def spawnCount (opts : Opts) (AzureSubscriptions : List String) : Nat :=
  AzureSubscriptions.length * (9 + opts.AzureLocation.length)

/-- A call on the port scanner. -/
inductive ScannerCmd where
  | SetIps (ips : List String)
  | Cleanup
  | Enable
  deriving DecidableEq, Repr

/-- Where the goroutine running `runMetricsCollectionAzureRm` stands. -/
inductive MainPc where
  | spawn
  | goBridge
  | goAggregator
  | wait
  | closePublicIp
  | closeCallback
  | returned
  deriving DecidableEq, Repr

/-- Where the goroutine of lines 297 to 310 stands. -/
inductive BridgePc where
  | notStarted
  | receiving
  | setIps
  | cleanup
  | enable
  | finished
  deriving DecidableEq, Repr

/-- Where the goroutine of lines 313 to 338 stands. -/
inductive AggregatorPc where
  | notStarted
  | receiving
  | finished
  deriving DecidableEq, Repr

/-- The state of one cycle. `commands` lists the calls made on `portscanner`, oldest
first; `crashed` says the runtime has ended the process after a panic. -/
structure CycleState where
  portscanner : Bool
  unspawned : List Task
  tasks : List Task
  wg : Nat
  main : MainPc
  publicIpClosed : Bool
  callbackClosed : Bool
  bridge : BridgePc
  publicIpList : List String
  commands : List ScannerCmd
  aggregator : AggregatorPc
  callbackList : List Mutation
  metrics : MetricState
  crashed : Bool

/-- The goroutine that moves next. -/
inductive Goroutine where
  | main
  | task (i : Nat)
  | bridge
  | aggregator
  deriving DecidableEq, Repr

/-- The state on entry: nothing spawned, both channels open, `portscanner != nil` as given. -/
def CycleState.init (portscanner : Bool) (prior : MetricState) (toSpawn : List Task) :
    CycleState :=
  { portscanner := portscanner, unspawned := toSpawn, tasks := [], wg := 0, main := .spawn,
    publicIpClosed := false, callbackClosed := false, bridge := .notStarted,
    publicIpList := [], commands := [], aggregator := .notStarted, callbackList := [],
    metrics := prior, crashed := false }

/-- Whether a task goroutine can move. A send on an open unbuffered channel needs the
receiver in its loop; a send on a closed channel panics; a panicking task moves until the
process has ended; with nothing left to do the deferred `wg.Done()` runs once. -/
def Task.enabled (s : CycleState) (t : Task) : Bool :=
  match t.todo with
  | [] => t.signals == 0
  | .send _ :: _ => s.callbackClosed || s.aggregator == .receiving
  | .sendIps _ :: _ => s.publicIpClosed || s.bridge == .receiving
  | .panic _ :: _ => true

/-- Whether the named goroutine can move. Nothing moves once the process has ended. -/
def enabled (s : CycleState) (g : Goroutine) : Bool :=
  !s.crashed &&
    match g with
    | .main =>
      (match s.main with
       | .wait => s.wg == 0
       | .returned => false
       | _ => true)
    | .task i =>
      (match s.tasks[i]? with
       | some t => t.enabled s
       | none => false)
    | .bridge =>
      (match s.bridge with
       | .notStarted => false
       | .receiving => s.publicIpClosed
       | .finished => false
       | _ => true)
    | .aggregator =>
      (match s.aggregator with
       | .receiving => s.callbackClosed
       | _ => false)

/-- One move of a task that is panicking (at a `panic(err)` statement, or at a send on a
closed channel); no function of the program calls `recover`. In its first move the
deferred `wg.Done()` of the goroutine runs: the process is alive, and the other goroutines
go on, so that `wg.Wait()` can return, the channels can be closed and the consumers can
finish. In its second move the runtime ends the process. The task stays at its panic. -/
def firePanic (s : CycleState) (i : Nat) (t : Task) : CycleState :=
  if t.signals == 0 then
    { s with tasks := s.tasks.set i { t with signals := t.signals + 1 }, wg := s.wg - 1 }
  else
    { s with crashed := true }

/-- One move of task `i`, when it is enabled: its deferred `wg.Done()` when nothing is
left to do; a send, which hands the value to the receiving consumer in the same move (the
channels are unbuffered), `callbackList = append(callbackList, callback)` for a callback
and `publicIpList = append(publicIpList, ipAddressList...)` for an address list; or a move
of its panic. -/
def fireTask (s : CycleState) (i : Nat) (t : Task) : CycleState :=
  match t.todo with
  | [] =>
    { s with tasks := s.tasks.set i { t with signals := t.signals + 1 }, wg := s.wg - 1 }
  | .send m :: rest =>
    if s.callbackClosed then firePanic s i t
    else
      { s with tasks := s.tasks.set i { t with todo := rest },
               callbackList := s.callbackList ++ [m] }
  | .sendIps ipAddressList :: rest =>
    if s.publicIpClosed then firePanic s i t
    else
      { s with tasks := s.tasks.set i { t with todo := rest },
               publicIpList := s.publicIpList ++ ipAddressList }
  | .panic _ :: _ => firePanic s i t

/-- One move of the named goroutine, when it is enabled. The main goroutine runs lines 204
to 343: the spawn loop (`wg.Add(1)` and `go func` for each task), the two `go func`
statements of the consumers, `wg.Wait()`, and the two `close` statements. The bridge leaves
its receive loop on the closed channel and, with a port scanner present, makes its three
calls. The aggregator leaves its receive loop on the closed channel and runs the resets and
the replay. -/
def fire (s : CycleState) : Goroutine → CycleState
  | .main =>
    (match s.main with
     | .spawn =>
       (match s.unspawned with
        | t :: rest => { s with wg := s.wg + 1, tasks := s.tasks ++ [t], unspawned := rest }
        | [] => { s with main := .goBridge })
     | .goBridge => { s with bridge := .receiving, main := .goAggregator }
     | .goAggregator => { s with aggregator := .receiving, main := .wait }
     | .wait => { s with main := .closePublicIp }
     | .closePublicIp => { s with publicIpClosed := true, main := .closeCallback }
     | .closeCallback => { s with callbackClosed := true, main := .returned }
     | .returned => s)
  | .task i =>
    (match s.tasks[i]? with
     | some t => fireTask s i t
     | none => s)
  | .bridge =>
    (match s.bridge with
     | .receiving => { s with bridge := if s.portscanner then .setIps else .finished }
     | .setIps =>
       { s with commands := s.commands ++ [.SetIps s.publicIpList], bridge := .cleanup }
     | .cleanup => { s with commands := s.commands ++ [.Cleanup], bridge := .enable }
     | .enable => { s with commands := s.commands ++ [.Enable], bridge := .finished }
     | _ => s)
  | .aggregator =>
    (match s.aggregator with
     | .receiving => { s with metrics := aggregate s.metrics s.callbackList,
                              aggregator := .finished }
     | _ => s)

/-- One scheduling decision: the named goroutine moves if it can, otherwise nothing happens. -/
def step (s : CycleState) (g : Goroutine) : CycleState :=
  if enabled s g then fire s g else s

/-- A run under a schedule. -/
def exec (s : CycleState) (schedule : List Goroutine) : CycleState :=
  schedule.foldl step s

/-- Source function `runMetricsCollectionAzureRm`: the state it starts in. -/
def runMetricsCollectionAzureRm (d : Deps) (opts : Opts) (api : Api)
    (AzureSubscriptions : List String) (portscanner : Bool) (prior : MetricState) :
    CycleState :=
  CycleState.init portscanner prior (spawnList d opts api AzureSubscriptions)

/-- The goroutines of a state: main, every spawned task, the two consumers. -/
def goroutines (s : CycleState) : List Goroutine :=
  .main :: .bridge :: .aggregator :: (List.range s.tasks.length).map Goroutine.task

/-- No goroutine can move. -/
def atRest (s : CycleState) : Bool :=
  (goroutines s).all fun g => !enabled s g

/-- Where the bridge stands when its calls on the port scanner are left out of account. -/
def BridgePc.withoutScanner : BridgePc → BridgePc
  | .notStarted => .notStarted
  | .receiving => .receiving
  | _ => .finished

/-- A state of a cycle with everything that concerns the port scanner left out of account:
what remains is the spawning, the two channels, the collected lists and the metric state. -/
def CycleState.withoutScanner (s : CycleState) : CycleState :=
  { s with portscanner := false, commands := [], bridge := s.bridge.withoutScanner }

/-! ## What the tasks of a cycle send -/

/-- The callback an action puts on the callback channel, if any. -/
def Action.sends : Action → List Mutation
  | .send m => [m]
  | _ => []

/-- The addresses an action puts on the public IP channel, if any. -/
def Action.ips : Action → List String
  | .sendIps l => l
  | _ => []

/-- The callbacks the given tasks still have to send. -/
def pendingSends (ts : List Task) : List Mutation :=
  ts.flatMap fun t => t.todo.flatMap Action.sends

/-- The addresses the given tasks still have to send. -/
def pendingIps (ts : List Task) : List String :=
  ts.flatMap fun t => t.todo.flatMap Action.ips

/-- The callbacks the goroutine of each kind sends on the callback channel. -/
def sentBy (d : Deps) (opts : Opts) (api : Api) (subscriptionId : String) :
    TaskKind → List Mutation
  | .subscription => (collectAzureSubscription d api subscriptionId).sent
  | .resourceGroup => (collectAzureResourceGroup d opts api subscriptionId).sent
  | .vm => (collectAzureVm d opts api subscriptionId).sent
  | .publicIp => (collectAzurePublicIp d opts api subscriptionId).1.sent
  | .computeUsage => (collectAzureComputeUsage opts api subscriptionId).sent
  | .networkUsage => []
  | .storageUsage => (collectAzureStorageUsage opts api subscriptionId).sent
  | .containerRegistries => (collectAzureContainerRegistries d opts api subscriptionId).sent
  | .securityCompliance location =>
    (collectAzureSecurityCompliance api subscriptionId location).sent
  | .advisorRecommendations => (collectAzureAdvisorRecommendations d api subscriptionId).sent

/-- The mutations emitted by the tasks of one cycle, task by task in spawn order. -/
def emittedMutations (d : Deps) (opts : Opts) (api : Api) (AzureSubscriptions : List String) :
    List Mutation :=
  AzureSubscriptions.flatMap fun subscriptionId =>
    (spawnedKinds opts).flatMap (sentBy d opts api subscriptionId)

/-- The allocated addresses among the public IP resources the API reports for a
subscription, in API order; none when the listing fails. -/
def reportedAddresses (api : Api) (subscriptionId : String) : List String :=
  match api.publicIPAddressesListAll subscriptionId with
  | .ok list => list.filterMap PublicIPAddress.IPAddress
  | .error _ => []

/-- The mutation for one public IP resource in the words of the specification: the
public IP family, the resource's address as label `ipAddress` with value 1 when the
address is allocated, the label `not allocated` with value 0 when it is not. -/
def publicIpMutation (d : Deps) (opts : Opts) (subscriptionId : String)
    (val : PublicIPAddress) : Mutation :=
  [⟨.prometheusPublicIp,
    addAzureResourceTags d opts val.Tags
      [("resourceID", val.ID), ("subscriptionID", subscriptionId),
       ("resourceGroup", d.extractResourceGroupFromAzureId val.ID),
       ("location", val.Location),
       ("ipAddress", match val.IPAddress with
          | some ipAddress => ipAddress
          | none => "not allocated"),
       ("ipAllocationMethod", val.PublicIPAllocationMethod),
       ("ipAdressVersion", val.PublicIPAddressVersion)],
    match val.IPAddress with
    | some _ => 1
    | none => 0⟩]

/-- The callback `collectAzureContainerRegistries` sends for one registry: the `Set` on the
registry family, then the quota pairs of the usages the usage call returned, if any. -/
def registryMutation (d : Deps) (opts : Opts) (api : Api) (subscriptionId : String)
    (val : Registry) : Mutation :=
  ⟨.prometheusContainerRegistry,
    addAzureResourceTags d opts val.Tags
      [("resourceID", val.ID), ("subscriptionID", subscriptionId),
       ("location", val.Location), ("registryName", val.Name),
       ("resourceGroup", d.extractResourceGroupFromAzureId val.ID),
       ("adminUserEnabled", d.boolToString val.AdminUserEnabled),
       ("skuName", match val.Sku with
          | some sku => sku.Name
          | none => ""),
       ("skuTier", match val.Sku with
          | some sku => sku.Tier
          | none => "")], 1⟩ ::
    match (api.registriesListUsages subscriptionId
        (d.extractResourceGroupFromAzureId val.ID) val.Name).1 with
    | some usages =>
      usages.flatMap fun usage =>
        [⟨.prometheusContainerRegistryQuotaCurrent,
            [("subscriptionID", subscriptionId), ("registryName", val.Name),
             ("quotaUnit", usage.Unit), ("quotaName", usage.Name)], usage.CurrentValue⟩,
         ⟨.prometheusContainerRegistryQuotaLimit,
            [("subscriptionID", subscriptionId), ("registryName", val.Name),
             ("quotaUnit", usage.Unit), ("quotaName", usage.Name)], usage.Limit⟩]
    | none => []

/-- What `collectAzureContainerRegistries` logs for one registry: the error of the usage
call, if it failed. -/
def registryUsageLog (d : Deps) (api : Api) (subscriptionId : String) (val : Registry) :
    List LogEntry :=
  match (api.registriesListUsages subscriptionId
      (d.extractResourceGroupFromAzureId val.ID) val.Name).2 with
  | some err =>
    [⟨"subscription[" ++ subscriptionId ++ "]: unable to fetch ACR usage for " ++ val.Name,
      err⟩]
  | none => []

/-- The six rate limit headers `collectAzureSubscription` reads, in source order, each with
the `scope` and `type` labels of its metric. -/
def rateLimitHeaders : List (String × String × String) :=
  [("x-ms-ratelimit-remaining-subscription-reads", "subscription", "read"),
   ("x-ms-ratelimit-remaining-subscription-resource-requests", "subscription",
     "resource-requests"),
   ("x-ms-ratelimit-remaining-subscription-resource-entities-read", "subscription",
     "resource-entities-read"),
   ("x-ms-ratelimit-remaining-tenant-reads", "tenant", "read"),
   ("x-ms-ratelimit-remaining-tenant-resource-requests", "tenant", "resource-requests"),
   ("x-ms-ratelimit-remaining-tenant-resource-entities-read", "tenant",
     "resource-entities-read")]

/-! ## Facts about every reachable state -/

/-- The completion signals (`wg.Done()` calls) made so far. -/
def signalsObserved (s : CycleState) : Nat := (s.tasks.map Task.signals).sum

/-- What the bridge has called on the port scanner, as a function of where it stands. -/
def bridgeCommands (s : CycleState) : List ScannerCmd :=
  match s.bridge with
  | .notStarted => []
  | .receiving => []
  | .setIps => []
  | .cleanup => [.SetIps s.publicIpList]
  | .enable => [.SetIps s.publicIpList, .Cleanup]
  | .finished =>
    if s.portscanner then [.SetIps s.publicIpList, .Cleanup, .Enable] else []

/-- Nothing follows a panic in what a goroutine has to do. -/
def panicLast : List Action → Bool
  | [] => true
  | .panic _ :: rest => rest.isEmpty
  | _ :: rest => panicLast rest

/-- The facts every reachable state of a cycle satisfies. -/
structure Inv (portscanner : Bool) (prior : MetricState) (toSpawn : List Task)
    (s : CycleState) : Prop where
  portscanner_eq : s.portscanner = portscanner
  total : s.tasks.length + s.unspawned.length = toSpawn.length
  wg_eq : s.wg + signalsObserved s = s.tasks.length
  signals_le : ∀ t ∈ s.tasks, t.signals ≤ 1
  unspawned_fresh : ∀ t ∈ s.unspawned, t.signals = 0
  done_todo : ∀ t ∈ s.tasks, t.signals = 1 → t.todo = [] ∨ ∃ err, t.todo = [.panic err]
  spawned_all : s.main ≠ .spawn → s.unspawned = []
  joined : s.main = .closePublicIp ∨ s.main = .closeCallback ∨ s.main = .returned →
    s.wg = 0
  ip_closed : s.publicIpClosed = true ↔ (s.main = .closeCallback ∨ s.main = .returned)
  cb_closed : s.callbackClosed = true ↔ s.main = .returned
  bridge_started : s.bridge = .notStarted ↔ (s.main = .spawn ∨ s.main = .goBridge)
  agg_started : s.aggregator = .notStarted ↔
    (s.main = .spawn ∨ s.main = .goBridge ∨ s.main = .goAggregator)
  bridge_after : s.bridge ≠ .notStarted → s.bridge ≠ .receiving → s.publicIpClosed = true
  agg_after : s.aggregator = .finished → s.callbackClosed = true
  commands_eq : s.commands = bridgeCommands s
  panic_last : ∀ t ∈ s.tasks ++ s.unspawned, panicLast t.todo = true
  sends : (s.callbackList ++ pendingSends (s.tasks ++ s.unspawned)).Perm (pendingSends toSpawn)
  ips : (s.publicIpList ++ pendingIps (s.tasks ++ s.unspawned)).Perm (pendingIps toSpawn)
  metrics_eq : s.metrics =
    if s.aggregator = .finished then aggregate prior s.callbackList else prior
  scanner_on : s.bridge = .setIps ∨ s.bridge = .cleanup ∨ s.bridge = .enable →
    s.portscanner = true

/-- The process has not ended and no task goroutine has a panic ahead of it. -/
def NoPanic (s : CycleState) : Prop :=
  s.crashed = false ∧ ∀ t ∈ s.tasks ++ s.unspawned, ∀ err, Action.panic err ∉ t.todo

/-- Some task goroutine, spawned or yet to be spawned, has a panic ahead of it. -/
def HasPanic (s : CycleState) : Prop :=
  ∃ t ∈ s.tasks ++ s.unspawned, ∃ err, Action.panic err ∈ t.todo

/-! ## Running a cycle to rest -/

/-- A weight for the main goroutine that drops with each of its moves, by more than the
weight of a consumer rises when that consumer is started. -/
def MainPc.rank : MainPc → Nat
  | .spawn => 11
  | .goBridge => 10
  | .goAggregator => 5
  | .wait => 3
  | .closePublicIp => 2
  | .closeCallback => 1
  | .returned => 0

/-- Steps the bridge goroutine still has to take. -/
def BridgePc.rank : BridgePc → Nat
  | .notStarted => 4
  | .receiving => 4
  | .setIps => 3
  | .cleanup => 2
  | .enable => 1
  | .finished => 0

/-- Steps the aggregator goroutine still has to take. -/
def AggregatorPc.rank : AggregatorPc → Nat
  | .notStarted => 1
  | .receiving => 1
  | .finished => 0

/-- Steps a task goroutine still has to take. -/
def Task.rank (t : Task) : Nat := t.todo.length + (1 - t.signals)

/-- A bound on the number of moves left in a state. -/
def fuel (s : CycleState) : Nat :=
  if s.crashed then 0
  else 1 + s.unspawned.length + s.main.rank + s.bridge.rank + s.aggregator.rank +
    ((s.tasks ++ s.unspawned).map Task.rank).sum

/-- The first goroutine that can move, if any. -/
def nextEnabled (s : CycleState) : Option Goroutine :=
  (goroutines s).find? (enabled s)

/-- The schedule that always lets the first goroutine that can move do so. -/
def firstEnabledSchedule : Nat → CycleState → List Goroutine
  | 0, _ => []
  | n + 1, s =>
    match nextEnabled s with
    | some g => g :: firstEnabledSchedule n (step s g)
    | none => []

/-! ## The scrape loop -/

/-- A cycle started by the scrape loop: which iteration started it, when it was started,
and when its work ends. -/
structure StartedCycle where
  index : Nat
  start : Int
  finish : Int
  deriving DecidableEq, Repr

/-- The goroutine of `startMetricsCollectionAzureRm` on a clock: the present time, and the
cycles it has started so far, oldest first. -/
structure ScrapeLoop where
  now : Int
  cycles : List StartedCycle
  deriving DecidableEq, Repr

/-- One iteration of the `for` loop of `startMetricsCollectionAzureRm`:
`go func() { runMetricsCollectionAzureRm() }()` starts a cycle at the present time, in no
time; `time.Sleep(opts.ScrapeTime)` then lets the scrape time pass (no time for a duration
that is not positive). `duration k` is the time the work of the cycle of iteration `k`
takes; the loop consults neither it nor the cycles started before. -/
def scrapeIteration (ScrapeTime : Int) (duration : Nat → Int) (l : ScrapeLoop) : ScrapeLoop :=
  { now := l.now + max ScrapeTime 0,
    cycles := l.cycles ++ [⟨l.cycles.length, l.now, l.now + duration l.cycles.length⟩] }

/-- Source function `startMetricsCollectionAzureRm`: the loop goroutine, started at time
`t₀`, after `n` iterations of its endless loop. -/
def startMetricsCollectionAzureRm (ScrapeTime : Int) (duration : Nat → Int) (t₀ : Int) :
    Nat → ScrapeLoop
  | 0 => ⟨t₀, []⟩
  | n + 1 => scrapeIteration ScrapeTime duration
      (startMetricsCollectionAzureRm ScrapeTime duration t₀ n)

/-! ## Start-up (`main.go`) -/

/-- Source type `Portrange`. -/
structure Portrange where
  FirstPort : Int
  LastPort : Int
  deriving DecidableEq, Repr

/-- The outcome of `argparser.Parse()`: no error, the help request `flags.ErrHelp`, or
any other error. -/
inductive FlagsResult where
  | ok
  | help
  | failed (err : String)
  deriving DecidableEq, Repr

/-- What start-up does that can be observed from outside, in order. `logMessage` carries
the format string of a `Logger.Messsage` call. -/
inductive StartupEvent where
  | stdout (text : String)
  | stderr (text : String)
  | writeHelp
  | exit (status : Nat)
  | createLoggers
  | logMessage (format : String)
  | initAzureConnection
  | panic (err : String)
  | initMetricsAzureRm
  | initMetricsPortscanner
  | startHttpServer
  deriving DecidableEq, Repr

/-- The circumstances of a start: how flag parsing ends, the options it fills in, and the
parts of the repository that are not among the sources at hand, taken as given:
`argparserParsePortrange` (its returned error for the configured strings, `none` for
`nil`), the constant `LoggerLogPrefixError`, and whether building the Azure connection
panics. -/
structure Startup where
  flags : FlagsResult
  opts : Opts
  argparserParsePortrange : List String → Option String
  LoggerLogPrefixError : String
  azureConnection : Option String

/-- Source function `initArgparser`: its events, and whether it returns (it does not after
`os.Exit`). -/
def initArgparser (st : Startup) : List StartupEvent × Bool :=
  match st.flags with
  | .help => ([.exit 0], false)
  | .failed err => ([.stdout err, .stdout "", .writeHelp, .exit 1], false)
  | .ok =>
    if st.opts.Portscan then
      match st.argparserParsePortrange st.opts.PortscanPortRange with
      | some err =>
        ([.stderr (st.LoggerLogPrefixError ++ err ++ "\n"), .stdout "", .writeHelp, .exit 1],
          false)
      | none => ([], true)
    else ([], true)

/-- Source function `initMetrics`. -/
def initMetrics (st : Startup) : List StartupEvent :=
  [.initMetricsAzureRm] ++ if st.opts.Portscan then [.initMetricsPortscanner] else []

/-- Source function `main`, as the events of a start in order. -/
def main (st : Startup) : List StartupEvent :=
  let parsed := initArgparser st
  if parsed.2 then
    parsed.1 ++
      [.createLoggers,
       .logMessage "Init Azure ResourceManager exporter v%s (written by %v)",
       .logMessage "Init Azure connection", .initAzureConnection] ++
      match st.azureConnection with
      | some err => [.panic err]
      | none =>
        [.logMessage "Starting metrics collection", .logMessage "  scape time: %v"] ++
        initMetrics st ++
        [.logMessage "Starting http server on %s", .startHttpServer]
  else parsed.1

/-- Modelled from the spec: the variable `portscanner` and the function
`initMetricsPortscanner` that creates the Port Scanner Engine are not among the sources at
hand. The engine is created at process start when port scanning is enabled, so
`portscanner != nil` holds in the cycles of a process exactly when its start has called
`initMetricsPortscanner`. -/
def portscannerPresent (st : Startup) : Bool :=
  decide (StartupEvent.initMetricsPortscanner ∈ main st)

/-! ## The port range pattern -/

/-- The part of Go's regular expression syntax that `portrangeRegexp` uses. -/
inductive Regex where
  | beginText
  | endText
  | literal (c : Char)
  | range (lo hi : Char)
  | plus (r : Regex)
  | opt (r : Regex)
  | group (index : Nat) (name : String) (r : Regex)
  | cat (r₁ r₂ : Regex)
  deriving Repr

/-- A point of a match attempt: the input still ahead, and the groups captured so far
(number and text, the latest first). -/
structure MatchState where
  rest : List Char
  caps : List (Nat × List Char)
  deriving DecidableEq, Repr

/-- Greedy repetition of `body`, at most `n` more times, then the continuation; fewer
repetitions are tried when more do not lead to a match. -/
def Regex.iterate (body : MatchState → (MatchState → Option MatchState) → Option MatchState) :
    Nat → MatchState → (MatchState → Option MatchState) → Option MatchState
  | 0, p, k => k p
  | n + 1, p, k => (body p fun p' => Regex.iterate body n p' k).orElse fun _ => k p

/-- Backtracking matcher with leftmost-first preference, as Go's `regexp` has for patterns
built with `MustCompile`: `run text r p k` matches `r` at `p` and goes on with `k`. `^`
and `$` match at the two ends of `text` only (no multi-line flag). A repetition is given as
many rounds as there are characters ahead, which is enough when each round consumes one. -/
def Regex.run (text : List Char) :
    Regex → MatchState → (MatchState → Option MatchState) → Option MatchState
  | .beginText, p, k => if p.rest.length = text.length then k p else none
  | .endText, p, k => if p.rest = [] then k p else none
  | .literal c, p, k =>
    match p.rest with
    | x :: xs => if x = c then k { p with rest := xs } else none
    | [] => none
  | .range lo hi, p, k =>
    match p.rest with
    | x :: xs => if lo ≤ x ∧ x ≤ hi then k { p with rest := xs } else none
    | [] => none
  | .plus r, p, k => r.run text p fun p' => Regex.iterate (r.run text) p'.rest.length p' k
  | .opt r, p, k => (r.run text p k).orElse fun _ => k p
  | .group index _ r, p, k =>
    r.run text p fun p' =>
      k { p' with caps := (index, p.rest.take (p.rest.length - p'.rest.length)) :: p'.caps }
  | .cat r₁ r₂, p, k => r₁.run text p fun p' => r₂.run text p' k

/-- The leftmost match that starts at one of the given offsets, tried in order. -/
def Regex.findFrom (r : Regex) (text : List Char) : List Char → Option MatchState
  | [] => r.run text ⟨[], []⟩ some
  | x :: xs => (r.run text ⟨x :: xs, []⟩ some).orElse fun _ => r.findFrom text xs

/-- The text of the group with the given number, `none` when it took no part in the match. -/
def MatchState.submatch (m : MatchState) (index : Nat) : Option String :=
  (m.caps.lookup index).map String.mk

/-- Source variable `portrangeRegexp`, the pattern
`^(?P<first>[0-9]+)(-(?P<last>[0-9]+))?$`. -/
def portrangeRegexp : Regex :=
  .cat .beginText <|
  .cat (.group 1 "first" (.plus (.range '0' '9'))) <|
  .cat (.opt (.group 2 "" (.cat (.literal '-') (.group 3 "last" (.plus (.range '0' '9')))))) <|
  .endText

/-- The groups `first` and `last` of a match of `portrangeRegexp`. -/
structure PortrangeMatch where
  first : Option String
  last : Option String
  deriving DecidableEq, Repr

/-- The call `portrangeRegexp.FindStringSubmatch(s)` read through the group names: `none`
when the pattern does not match. -/
def portrangeSubmatch (s : String) : Option PortrangeMatch :=
  (portrangeRegexp.findFrom s.data s.data).map fun m => ⟨m.submatch 1, m.submatch 3⟩

/-- The accepted form in the words of the specification: the whole string is a non-empty
run of decimal digits `first`, optionally followed by one `-` and another non-empty run of
decimal digits `last`. -/
def PortrangeForm (s : List Char) (first : List Char) (last : Option (List Char)) : Prop :=
  first ≠ [] ∧ (∀ c ∈ first, c.isDigit = true) ∧
    match last with
    | none => s = first
    | some l => l ≠ [] ∧ (∀ c ∈ l, c.isDigit = true) ∧ s = first ++ '-' :: l

/-- The input ahead does not start with a decimal digit. -/
def NoDigitAhead (l : List Char) : Prop := ∀ c t, l = c :: t → c.isDigit = false

/-- A continuation that fails wherever the input ahead starts with a decimal digit. -/
def FailsOnDigit (k : MatchState → Option MatchState) : Prop :=
  ∀ c t caps, c.isDigit = true → k ⟨c :: t, caps⟩ = none

/-! ## Example cycles and starts -/

/-- Helper answers for the examples: tags are prefixed with `tag_`, every value parses. -/
def exampleDeps : Deps :=
  { AZURE_RESOURCE_TAG_PREFIX := "tag_"
    extractResourceGroupFromAzureId := fun _ => "rg"
    boolToString := fun b => if b then "true" else "false"
    parseFloat := fun _ => .ok 7 }

/-- API answers for the examples: one subscription record, two public IP resources of which
one has an address, one compliance segment per location, and nothing else. -/
def exampleApi : Api :=
  { subscriptionsGet := fun _ => .ok ⟨"id", "sub", "name", "On", "quota", "placement", fun _ => ""⟩
    groupsListComplete := fun _ => .ok []
    publicIPAddressesListAll := fun _ =>
      .ok [⟨"ip1", "westeurope", some "1.2.3.4", "Static", "IPv4", []⟩,
           ⟨"ip2", "westeurope", none, "Dynamic", "IPv4", []⟩]
    computeUsageList := fun _ _ => .ok []
    networkUsagesList := fun _ _ => .ok []
    storageUsageList := fun _ _ => .ok []
    virtualMachinesListAllComplete := fun _ => .ok .done
    registriesListComplete := fun _ => .ok .done
    registriesListUsages := fun _ _ _ => (none, none)
    compliancesGet := fun _ location =>
      if location = "westeurope" then .ok ⟨some [⟨some "x", 10⟩]⟩ else .ok ⟨some [⟨some "x", 20⟩]⟩
    recommendationsListComplete := fun _ => .ok [] }

/-- Options for the examples: two locations, no tag labels, port scanning on. -/
def exampleOpts : Opts :=
  { AzureLocation := ["westeurope", "northeurope"], AzureResourceTags := [],
    Portscan := true, PortscanPortRange := ["1-65535"] }

/-- The example helpers with a parser that accepts runs of decimal digits only. -/
def integerDeps : Deps :=
  { exampleDeps with
    parseFloat := fun val =>
      if val.data.all Char.isDigit && !val.data.isEmpty then
        .ok (val.data.foldl (fun n c => 10 * n + ((c.toNat : Int) - 48)) 0)
      else .error "invalid syntax" }

/-- A schedule for the example cycle: main spawns the eleven tasks and starts both consumers,
each task runs to completion in spawn order, main closes both channels, the consumers finish. -/
def exampleSchedule : List Goroutine :=
  List.replicate 14 .main ++
  [.task 0, .task 0, .task 1, .task 2, .task 3, .task 3, .task 3, .task 3, .task 4, .task 5,
   .task 6, .task 7, .task 8, .task 8, .task 9, .task 9, .task 10] ++
  [.main, .main, .main, .bridge, .bridge, .bridge, .bridge, .aggregator]

/-- The example schedule with the two compliance tasks sending in the other order. -/
def exampleScheduleSwapped : List Goroutine :=
  List.replicate 14 .main ++
  [.task 0, .task 0, .task 1, .task 2, .task 3, .task 3, .task 3, .task 3, .task 4, .task 5,
   .task 6, .task 7, .task 9, .task 9, .task 8, .task 8, .task 10] ++
  [.main, .main, .main, .bridge, .bridge, .bridge, .bridge, .aggregator]

/-- The example cycle. -/
def exampleCycle (prior : MetricState) : CycleState :=
  runMetricsCollectionAzureRm exampleDeps exampleOpts exampleApi ["sub"] true prior

/-- The example API with the compliance call failing. -/
def degradedApi : Api :=
  { exampleApi with compliancesGet := fun _ _ => .error "unavailable" }

/-- The example options with a single location, so that each subscription has one
compliance task. -/
def singleLocationOpts : Opts :=
  { exampleOpts with AzureLocation := ["westeurope"] }

/-- A state before the cycle in which the compliance family holds one pair. -/
def stalePrior : MetricState :=
  MetricState.empty.set
    ⟨.prometheusSecuritycenterCompliance,
      [("subscriptionID", "sub"), ("assessmentType", "x")], 50⟩

/-- A schedule that runs the ten tasks of the single-location cycle in spawn order. -/
def degradedSchedule : List Goroutine :=
  List.replicate 13 .main ++
  [.task 0, .task 0, .task 1, .task 2, .task 3, .task 3, .task 3, .task 3, .task 4, .task 5,
   .task 6, .task 7, .task 8, .task 9] ++
  [.main, .main, .main, .bridge, .bridge, .bridge, .bridge, .aggregator]

/-- The end of the cycle in which the compliance task fails and every other task succeeds. -/
def degradedCycleEnd : CycleState :=
  exec (runMetricsCollectionAzureRm exampleDeps singleLocationOpts degradedApi ["sub"] true
    stalePrior) degradedSchedule

/-- The example API with the virtual machine listing failing. -/
def vmFailingApi : Api :=
  { exampleApi with virtualMachinesListAllComplete := fun _ => .error "boom" }

/-- A schedule of the example cycle over `vmFailingApi`: main spawns and starts the
consumers, the subscription and resource group tasks complete, the VM task panics: its
deferred `wg.Done()` runs and the runtime ends the process at once. -/
def vmFailingSchedule : List Goroutine :=
  List.replicate 14 .main ++ [.task 0, .task 0, .task 1, .task 2, .task 2]

/-- The state the example cycle over `vmFailingApi` reaches under `vmFailingSchedule`. -/
def vmFailingCycleEnd : CycleState :=
  exec (runMetricsCollectionAzureRm exampleDeps exampleOpts vmFailingApi ["sub"] true
    MetricState.empty) vmFailingSchedule

/-- A schedule of the example cycle over `vmFailingApi` in which the process outlives the
deferred `wg.Done()` of the panicking VM task for a while: the other tasks complete, main
passes the barrier and closes both channels, the bridge calls `SetIps`, and only then the
runtime ends the process. -/
def vmFailingLateSchedule : List Goroutine :=
  List.replicate 14 .main ++
  [.task 0, .task 0, .task 1, .task 2, .task 3, .task 3, .task 3, .task 3, .task 4, .task 5,
   .task 6, .task 7, .task 8, .task 8, .task 9, .task 9, .task 10] ++
  [.main, .main, .main, .bridge, .bridge, .task 2]

/-- The state the example cycle over `vmFailingApi` reaches under `vmFailingLateSchedule`. -/
def vmFailingLateEnd : CycleState :=
  exec (runMetricsCollectionAzureRm exampleDeps exampleOpts vmFailingApi ["sub"] true
    MetricState.empty) vmFailingLateSchedule

/-- A virtual machine for the examples. -/
def exampleVm : VirtualMachine :=
  ⟨"vm1", "westeurope", "id1", "one", "vm", "small", "Succeeded", [], "pub", "sku", "offer",
    "1.0"⟩

/-- The example API with a virtual machine listing whose first value is followed by a call
of `Next()` that fails. -/
def nextFailingApi : Api :=
  { exampleApi with
    virtualMachinesListAllComplete := fun _ => .ok (.failing exampleVm "page unavailable") }

/-- A start with port scanning on and a port range that does not parse. -/
def exampleStartup : Startup :=
  { flags := .ok
    opts := { exampleOpts with PortscanPortRange := ["abc"] }
    argparserParsePortrange := fun _ => some "invalid portrange"
    LoggerLogPrefixError := "[ERROR] "
    azureConnection := none }

/-! # Proofs -/

/-! ## Lists -/

theorem sum_map_set {α : Type} (f : α → Nat) :
    ∀ (l : List α) (i : Nat) (t t' : α), l[i]? = some t →
      ((l.set i t').map f).sum + f t = (l.map f).sum + f t'
  | [], i, t, t', h => by simp at h
  | x :: l, 0, t, t', h => by
    simp at h; subst h; simp; omega
  | x :: l, i + 1, t, t', h => by
    simp at h
    have := sum_map_set f l i t t' h
    simp only [List.set_cons_succ, List.map_cons, List.sum_cons]; omega

theorem flatMap_set_perm {α β : Type} (f : α → List β) (a : List β) :
    ∀ (l : List α) (i : Nat) (t t' : α), l[i]? = some t → f t = a ++ f t' →
      (l.flatMap f).Perm (a ++ (l.set i t').flatMap f)
  | [], i, t, t', h, _ => by simp at h
  | x :: l, 0, t, t', h, hf => by
    simp at h; subst h; simp [hf]
  | x :: l, i + 1, t, t', h, hf => by
    simp at h
    have := flatMap_set_perm f a l i t t' h hf
    simp only [List.set_cons_succ, List.flatMap_cons]
    exact (this.append_left (f x)).trans (List.perm_append_comm_assoc _ _ _)

theorem sum_le_length {α : Type} (f : α → Nat) :
    ∀ l : List α, (∀ t ∈ l, f t ≤ 1) → (l.map f).sum ≤ l.length
  | [], _ => by simp
  | x :: l, h => by
    have h1 := h x (by simp)
    have h2 := sum_le_length f l (fun t ht => h t (by simp [ht]))
    simp only [List.map_cons, List.sum_cons, List.length_cons]; omega

theorem eq_one_of_sum_eq_length {α : Type} (f : α → Nat) :
    ∀ l : List α, (∀ t ∈ l, f t ≤ 1) → (l.map f).sum = l.length → ∀ t ∈ l, f t = 1
  | [], _, _ => by simp
  | x :: l, h, hs => by
    have h1 := h x (by simp)
    have h2 := sum_le_length f l (fun t ht => h t (by simp [ht]))
    simp only [List.map_cons, List.sum_cons, List.length_cons] at hs
    have h3 := eq_one_of_sum_eq_length f l (fun t ht => h t (by simp [ht])) (by omega)
    intro t ht
    rcases List.mem_cons.1 ht with rfl | ht
    · omega
    · exact h3 t ht

theorem sum_eq_length_of_eq_one {α : Type} (f : α → Nat) :
    ∀ l : List α, (∀ t ∈ l, f t = 1) → (l.map f).sum = l.length
  | [], _ => by simp
  | x :: l, h => by
    have h1 := h x (by simp)
    have h2 := sum_eq_length_of_eq_one f l (fun t ht => h t (by simp [ht]))
    simp only [List.map_cons, List.sum_cons, List.length_cons]; omega

theorem orElse_none {α : Type} (x : Option α) : (x.orElse fun _ => none) = x := by
  cases x <;> rfl

theorem lookup_cons (k a b : String) (rest : List (String × String)) :
    List.lookup k ((a, b) :: rest) = if k = a then some b else List.lookup k rest := by
  by_cases h : k = a
  · subst h
    simp [List.lookup]
  · have hb : (k == a) = false := beq_eq_false_iff_ne.2 h
    simp [List.lookup, hb, h]

theorem string_append_left_cancel (p a b : String) (h : p ++ a = p ++ b) : a = b := by
  have := congrArg String.data h
  simp only [String.data_append] at this
  exact String.ext (List.append_cancel_left this)

/-! ## The invariant holds in every reachable state -/

theorem inv_init (portscanner : Bool) (prior : MetricState) (toSpawn : List Task)
    (h : ∀ t ∈ toSpawn, t.signals = 0) (hpl : ∀ t ∈ toSpawn, panicLast t.todo = true) :
    Inv portscanner prior toSpawn (CycleState.init portscanner prior toSpawn) := by
  constructor <;> simp [CycleState.init, signalsObserved, bridgeCommands]
  · exact h
  · exact hpl

theorem inv_main {p : Bool} {prior : MetricState} {toSpawn : List Task} {s : CycleState}
    (h : Inv p prior toSpawn s) (he : enabled s .main = true) :
    Inv p prior toSpawn (fire s .main) := by
  obtain ⟨h1, h2, h3, h4, h5, h6, h7, h8, h9, h10, h11, h12, h13, h14, h15, h16, h17, h18,
    h19, h20⟩ := h
  simp only [enabled] at he
  cases hm : s.main <;> simp only [fire, hm] <;> simp [hm] at he
  · -- the spawn loop
    cases hu : s.unspawned with
    | nil =>
      exact ⟨h1, by simpa [hu] using h2, h3, h4, by simp [hu], h6, by simp [hu],
        by simp, by simpa [hm] using h9, by simpa [hm] using h10, by simpa [hm] using h11,
        by simpa [hm] using h12, h13, h14, h15, by simpa [hu] using h16,
        by simpa [hu] using h17, by simpa [hu] using h18, h19, h20⟩
    | cons t rest =>
      have ht : t.signals = 0 := h5 t (by simp [hu])
      refine ⟨h1, ?_, ?_, ?_, ?_, ?_, by simp [hm], by simp [hm], by simpa [hm] using h9,
        by simpa [hm] using h10, by simpa [hm] using h11, by simpa [hm] using h12, h13, h14,
        h15, by simpa [hu] using h16, by simpa [hu] using h17, by simpa [hu] using h18, h19,
        h20⟩
      · simp [hu] at h2 ⊢; omega
      · simp [signalsObserved] at h3 ⊢; omega
      · intro t' ht'
        rcases List.mem_append.1 ht' with h' | h'
        · exact h4 t' h'
        · simp at h'; subst h'; omega
      · intro t' ht'
        exact h5 t' (by simp [hu, ht'])
      · intro t' ht' hs
        rcases List.mem_append.1 ht' with h' | h'
        · exact h6 t' h' hs
        · simp at h'; subst h'; omega
  · -- `go func()` of the bridge
    have hb : s.bridge = .notStarted := h11.2 (by simp [hm])
    exact ⟨h1, h2, h3, h4, h5, h6, fun _ => h7 (by simp [hm]), by simp,
      by simpa [hm] using h9, by simpa [hm] using h10, by simp, by simpa [hm] using h12,
      by simp, h14, by simpa [bridgeCommands, hb] using h15, h16, h17, h18, h19, by simp⟩
  · -- `go func()` of the aggregator
    have ha : s.aggregator = .notStarted := h12.2 (by simp [hm])
    exact ⟨h1, h2, h3, h4, h5, h6, fun _ => h7 (by simp [hm]), by simp,
      by simpa [hm] using h9, by simpa [hm] using h10, by simpa [hm] using h11, by simp,
      h13, by simp, h15, h16, h17, h18, by simpa [ha] using h19, h20⟩
  · -- `wg.Wait()` returns
    exact ⟨h1, h2, h3, h4, h5, h6, fun _ => h7 (by simp [hm]), fun _ => he.2,
      by simpa [hm] using h9, by simpa [hm] using h10, by simpa [hm] using h11,
      by simpa [hm] using h12, h13, h14, h15, h16, h17, h18, h19, h20⟩
  · -- `close(publicIpChannel)`
    exact ⟨h1, h2, h3, h4, h5, h6, fun _ => h7 (by simp [hm]), fun _ => h8 (by simp [hm]),
      by simp, by simpa [hm] using h10, by simpa [hm] using h11,
      by simpa [hm] using h12, fun _ _ => rfl, h14, h15, h16, h17, h18, h19, h20⟩
  · -- `close(callbackChannel)`
    exact ⟨h1, h2, h3, h4, h5, h6, fun _ => h7 (by simp [hm]), fun _ => h8 (by simp [hm]),
      by simpa [hm] using h9, by simp, by simpa [hm] using h11,
      by simpa [hm] using h12, h13, fun _ => rfl, h15, h16, h17, h18, h19, h20⟩

theorem inv_bridge {p : Bool} {prior : MetricState} {toSpawn : List Task} {s : CycleState}
    (h : Inv p prior toSpawn s) (he : enabled s .bridge = true) :
    Inv p prior toSpawn (fire s .bridge) := by
  obtain ⟨h1, h2, h3, h4, h5, h6, h7, h8, h9, h10, h11, h12, h13, h14, h15, h16, h17, h18,
    h19, h20⟩ := h
  simp only [enabled] at he
  cases hb : s.bridge <;> simp only [fire, hb] <;> simp [hb] at he
  · -- the receive loop ends on the closed channel
    have hX : ¬ (s.main = .spawn ∨ s.main = .goBridge) := fun hx => by
      have := h11.2 hx; simp [hb] at this
    refine ⟨h1, h2, h3, h4, h5, h6, h7, h8, h9, h10, ?_, h12, fun _ _ => he.2, h14, ?_, h16,
      h17, h18, h19, ?_⟩
    · cases hp : s.portscanner <;> simp [hX]
    · cases hp : s.portscanner <;> simpa [bridgeCommands, hb, hp] using h15
    · cases hp : s.portscanner <;> simp
  · -- `portscanner.SetIps(publicIpList)`
    exact ⟨h1, h2, h3, h4, h5, h6, h7, h8, h9, h10, by simpa [hb] using h11, h12,
      fun _ _ => h13 (by simp [hb]) (by simp [hb]), h14,
      by simp [bridgeCommands, hb, h15], h16, h17, h18, h19, fun _ => h20 (by simp [hb])⟩
  · -- `portscanner.Cleanup()`
    exact ⟨h1, h2, h3, h4, h5, h6, h7, h8, h9, h10, by simpa [hb] using h11, h12,
      fun _ _ => h13 (by simp [hb]) (by simp [hb]), h14,
      by simp [bridgeCommands, hb, h15], h16, h17, h18, h19, fun _ => h20 (by simp [hb])⟩
  · -- `portscanner.Enable()`
    have hp : s.portscanner = true := h20 (by simp [hb])
    exact ⟨h1, h2, h3, h4, h5, h6, h7, h8, h9, h10, by simpa [hb] using h11, h12,
      fun _ _ => h13 (by simp [hb]) (by simp [hb]), h14,
      by simp [bridgeCommands, hb, h15, hp], h16, h17, h18, h19, by simp⟩

theorem inv_aggregator {p : Bool} {prior : MetricState} {toSpawn : List Task}
    {s : CycleState} (h : Inv p prior toSpawn s) (he : enabled s .aggregator = true) :
    Inv p prior toSpawn (fire s .aggregator) := by
  obtain ⟨h1, h2, h3, h4, h5, h6, h7, h8, h9, h10, h11, h12, h13, h14, h15, h16, h17, h18,
    h19, h20⟩ := h
  simp only [enabled] at he
  cases ha : s.aggregator <;> simp only [fire, ha] <;> simp [ha] at he
  exact ⟨h1, h2, h3, h4, h5, h6, h7, h8, h9, h10, h11, by simpa [ha] using h12, h13,
    fun _ => he.2, h15, h16, h17, h18, by simp [h19, ha], h20⟩

/-- Once the wait group counter is zero every spawned task has signalled, and has either
nothing left to do or is at its panic. -/
theorem Inv.all_done {p : Bool} {prior : MetricState} {toSpawn : List Task} {s : CycleState}
    (h : Inv p prior toSpawn s) (hw : s.wg = 0) :
    ∀ t ∈ s.tasks, t.signals = 1 ∧ (t.todo = [] ∨ ∃ err, t.todo = [.panic err]) := by
  have hs : (s.tasks.map Task.signals).sum = s.tasks.length := by
    have := h.wg_eq; simp only [signalsObserved] at this; omega
  intro t ht
  have h1 := eq_one_of_sum_eq_length Task.signals s.tasks h.signals_le hs t ht
  exact ⟨h1, h.done_todo t ht h1⟩

theorem pendingSends_set (ts us : List Task) (i : Nat) (t t' : Task) (a : List Mutation)
    (hi : ts[i]? = some t) (ht : t.todo.flatMap Action.sends = a ++ t'.todo.flatMap Action.sends) :
    (pendingSends (ts ++ us)).Perm (a ++ pendingSends (ts.set i t' ++ us)) := by
  simp only [pendingSends, List.flatMap_append]
  have := flatMap_set_perm (fun t : Task => t.todo.flatMap Action.sends) a ts i t t' hi ht
  rw [← List.append_assoc]
  exact this.append_right _

theorem pendingIps_set (ts us : List Task) (i : Nat) (t t' : Task) (a : List String)
    (hi : ts[i]? = some t) (ht : t.todo.flatMap Action.ips = a ++ t'.todo.flatMap Action.ips) :
    (pendingIps (ts ++ us)).Perm (a ++ pendingIps (ts.set i t' ++ us)) := by
  simp only [pendingIps, List.flatMap_append]
  have := flatMap_set_perm (fun t : Task => t.todo.flatMap Action.ips) a ts i t t' hi ht
  rw [← List.append_assoc]
  exact this.append_right _

theorem inv_task {p : Bool} {prior : MetricState} {toSpawn : List Task} {s : CycleState}
    (h : Inv p prior toSpawn s) (i : Nat) (he : enabled s (.task i) = true) :
    Inv p prior toSpawn (fire s (.task i)) := by
  have hall := h.all_done
  obtain ⟨h1, h2, h3, h4, h5, h6, h7, h8, h9, h10, h11, h12, h13, h14, h15, h16, h17, h18,
    h19, h20⟩ := h
  simp only [enabled] at he
  cases hi : s.tasks[i]? with
  | none => simp [hi] at he
  | some t =>
    simp only [hi, Bool.and_eq_true, Bool.not_eq_true'] at he
    obtain ⟨hc, het⟩ := he
    have htm : t ∈ s.tasks := List.getElem?_mem hi
    have hpl : panicLast t.todo = true := h16 t (by simp [htm])
    by_cases hsig : t.signals = 0
    · -- the task has not signalled: the barrier has not been passed
      have hw : s.wg ≠ 0 := fun hw => by
        have := (hall hw t htm).1
        omega
      have hearly : s.main = .spawn ∨ s.main = .goBridge ∨ s.main = .goAggregator ∨
          s.main = .wait := by
        cases hm : s.main <;> simp <;> exact hw (h8 (by simp [hm]))
      have hipc : s.publicIpClosed = false := by
        cases hx : s.publicIpClosed
        · rfl
        · rcases h9.1 hx with h' | h' <;> rcases hearly with e | e | e | e <;> simp [h'] at e
      have hcbc : s.callbackClosed = false := by
        cases hx : s.callbackClosed
        · rfl
        · have h' := h10.1 hx
          rcases hearly with e | e | e | e <;> simp [h'] at e
      have hlate :
          ¬ (s.main = .closePublicIp ∨ s.main = .closeCallback ∨ s.main = .returned) := by
        rintro (h' | h' | h') <;> rcases hearly with e | e | e | e <;> simp [h'] at e
      have hsum := sum_map_set Task.signals s.tasks i t
      have hps := pendingSends_set s.tasks s.unspawned i t
      have hpi := pendingIps_set s.tasks s.unspawned i t
      have hlast : ∀ t' : Task, panicLast t'.todo = true →
          ∀ x ∈ s.tasks.set i t' ++ s.unspawned, panicLast x.todo = true := by
        intro t' ht' x hx
        rcases List.mem_append.1 hx with hx | hx
        · rcases List.mem_or_eq_of_mem_set hx with h' | rfl
          · exact h16 x (by simp [h'])
          · exact ht'
        · exact h16 x (by simp [hx])
      have hkeep : ∀ t' : Task, t'.signals = t.signals →
          (∀ x ∈ s.tasks.set i t', x.signals ≤ 1) ∧
          (∀ x ∈ s.tasks.set i t', x.signals = 1 →
            x.todo = [] ∨ ∃ err, x.todo = [.panic err]) ∧
          s.wg + ((s.tasks.set i t').map Task.signals).sum = (s.tasks.set i t').length := by
        intro t' hsig'
        refine ⟨?_, ?_, ?_⟩
        · intro x hx
          rcases List.mem_or_eq_of_mem_set hx with h' | rfl
          · exact h4 x h'
          · rw [hsig']; exact h4 t htm
        · intro x hx hx1
          rcases List.mem_or_eq_of_mem_set hx with h' | rfl
          · exact h6 x h' hx1
          · omega
        · have := hsum t' hi
          simp only [signalsObserved] at h3
          simp only [List.length_set]; omega
      have hdone : ∀ t' : Task, t'.signals = 1 →
          (t'.todo = [] ∨ ∃ err, t'.todo = [.panic err]) →
          (∀ x ∈ s.tasks.set i t', x.signals ≤ 1) ∧
          (∀ x ∈ s.tasks.set i t', x.signals = 1 →
            x.todo = [] ∨ ∃ err, x.todo = [.panic err]) ∧
          s.wg - 1 + ((s.tasks.set i t').map Task.signals).sum = (s.tasks.set i t').length := by
        intro t' hsig' htodo
        have hle : ∀ x ∈ s.tasks.set i t', x.signals ≤ 1 := by
          intro x hx
          rcases List.mem_or_eq_of_mem_set hx with h' | rfl
          · exact h4 x h'
          · omega
        have hbound := sum_le_length Task.signals _ hle
        have := hsum t' hi
        simp only [signalsObserved] at h3
        simp only [List.length_set] at hbound ⊢
        refine ⟨hle, ?_, by omega⟩
        intro x hx hx1
        rcases List.mem_or_eq_of_mem_set hx with h' | rfl
        · exact h6 x h' hx1
        · exact htodo
      rcases t with ⟨sub, kind, todo, sig⟩
      simp only at hsig
      subst hsig
      cases todo with
      | nil =>
        simp only [fire, hi, fireTask]
        obtain ⟨hle, hdt, hwg⟩ := hdone ⟨sub, kind, [], 0 + 1⟩ rfl (Or.inl rfl)
        refine ⟨h1, by simpa using h2, hwg, hle, h5, hdt, h7, fun hl => absurd hl hlate, h9,
          h10, h11, h12, h13, h14, h15, hlast _ rfl, ?_, ?_, h19, h20⟩
        · exact (List.Perm.append_left _ (hps ⟨sub, kind, [], 0 + 1⟩ [] hi rfl).symm).trans h17
        · exact (List.Perm.append_left _ (hpi ⟨sub, kind, [], 0 + 1⟩ [] hi rfl).symm).trans h18
      | cons a rest =>
        cases a with
        | send m =>
          have hagg : s.aggregator = .receiving := by simpa [Task.enabled, hcbc] using het
          obtain ⟨hle, hdt, hwg⟩ := hkeep ⟨sub, kind, rest, 0⟩ rfl
          simp only [fire, hi, fireTask]
          rw [if_neg (by simp [hcbc])]
          refine ⟨h1, by simpa using h2, hwg, hle, h5, hdt, h7, fun hl => absurd hl hlate, h9,
            h10, h11, h12, h13, h14, h15, hlast _ (by simpa [panicLast] using hpl), ?_, ?_,
            by simpa [hagg] using h19, h20⟩
          · have := hps ⟨sub, kind, rest, 0⟩ [m] hi rfl
            refine List.Perm.trans ?_ h17
            simp only [List.append_assoc]
            exact List.Perm.append_left _ this.symm
          · exact (List.Perm.append_left _ (hpi ⟨sub, kind, rest, 0⟩ [] hi rfl).symm).trans h18
        | sendIps ipAddressList =>
          have hbr : s.bridge = .receiving := by simpa [Task.enabled, hipc] using het
          obtain ⟨hle, hdt, hwg⟩ := hkeep ⟨sub, kind, rest, 0⟩ rfl
          simp only [fire, hi, fireTask]
          rw [if_neg (by simp [hipc])]
          refine ⟨h1, by simpa using h2, hwg, hle, h5, hdt, h7, fun hl => absurd hl hlate, h9,
            h10, h11, h12, h13, h14, by simpa [bridgeCommands, hbr] using h15,
            hlast _ (by simpa [panicLast] using hpl), ?_, ?_, h19, h20⟩
          · exact (List.Perm.append_left _ (hps ⟨sub, kind, rest, 0⟩ [] hi rfl).symm).trans h17
          · have := hpi ⟨sub, kind, rest, 0⟩ ipAddressList hi (by simp [Action.ips])
            refine List.Perm.trans ?_ h18
            simp only [List.append_assoc]
            exact List.Perm.append_left _ this.symm
        | panic err =>
          -- the deferred `wg.Done()` of the panicking task
          have hrest : rest = [] := by simpa [panicLast] using hpl
          subst hrest
          obtain ⟨hle, hdt, hwg⟩ :=
            hdone ⟨sub, kind, [.panic err], 0 + 1⟩ rfl (Or.inr ⟨err, rfl⟩)
          simp only [fire, hi, fireTask, firePanic, beq_self_eq_true, if_true]
          refine ⟨h1, by simpa using h2, hwg, hle, h5, hdt, h7, fun hl => absurd hl hlate,
            h9, h10, h11, h12, h13, h14, h15, hlast _ rfl, ?_, ?_, h19, h20⟩
          · exact (List.Perm.append_left _
              (hps ⟨sub, kind, [.panic err], 0 + 1⟩ [] hi rfl).symm).trans h17
          · exact (List.Perm.append_left _
              (hpi ⟨sub, kind, [.panic err], 0 + 1⟩ [] hi rfl).symm).trans h18
    · -- the task has signalled: it is at its panic, and the runtime ends the process
      have hs1 : t.signals = 1 := by
        have := h4 t htm
        omega
      have hfire : fire s (.task i) = { s with crashed := true } := by
        rcases h6 t htm hs1 with h0 | ⟨err, h0⟩
        · simp [Task.enabled, h0, hs1] at het
        · simp [fire, hi, fireTask, h0, firePanic, hs1]
      rw [hfire]
      exact ⟨h1, h2, h3, h4, h5, h6, h7, h8, h9, h10, h11, h12, h13, h14, h15, h16, h17, h18,
        h19, h20⟩

/-- Every scheduling decision preserves the invariant. -/
theorem inv_step {p : Bool} {prior : MetricState} {toSpawn : List Task} {s : CycleState}
    (h : Inv p prior toSpawn s) (g : Goroutine) : Inv p prior toSpawn (step s g) := by
  unfold step
  split
  · rename_i he
    cases g with
    | main => exact inv_main h he
    | task i => exact inv_task h i he
    | bridge => exact inv_bridge h he
    | aggregator => exact inv_aggregator h he
  · exact h

/-- Every state a schedule leads to satisfies the invariant. -/
theorem inv_exec {p : Bool} {prior : MetricState} {toSpawn : List Task} :
    ∀ (schedule : List Goroutine) (s : CycleState), Inv p prior toSpawn s →
      Inv p prior toSpawn (exec s schedule)
  | [], _, h => h
  | g :: gs, s, h => inv_exec gs (step s g) (inv_step h g)

/-! ## Cycles at rest -/

theorem atRest_iff (s : CycleState) :
    atRest s = true ↔
      enabled s .main = false ∧ enabled s .bridge = false ∧ enabled s .aggregator = false ∧
        ∀ i, i < s.tasks.length → enabled s (.task i) = false := by
  simp [atRest, goroutines]

/-- A state at rest in which the process has not crashed is a finished cycle. -/
theorem rest_finished {p : Bool} {prior : MetricState} {toSpawn : List Task} {s : CycleState}
    (h : Inv p prior toSpawn s) (hr : atRest s = true) (hc : s.crashed = false) :
    s.main = .returned ∧ s.bridge = .finished ∧ s.aggregator = .finished := by
  obtain ⟨hm, hb, ha, ht⟩ := (atRest_iff s).1 hr
  simp only [enabled, hc, Bool.not_false, Bool.true_and] at hm hb ha ht
  have hmain : s.main = .returned := by
    cases hmm : s.main <;> simp [hmm] at hm
    · -- waiting at the barrier: some task must be able to move
      exfalso
      have hagg : s.aggregator = .receiving := by
        cases haa : s.aggregator
        · have := h.agg_started.1 haa; simp [hmm] at this
        · rfl
        · have := h.cb_closed.1 (h.agg_after haa); simp [hmm] at this
      have hbr : s.bridge = .receiving := by
        cases hbb : s.bridge
        · have := h.bridge_started.1 hbb; simp [hmm] at this
        · rfl
        all_goals
          have := h.ip_closed.1 (h.bridge_after (by simp [hbb]) (by simp [hbb]))
          simp [hmm] at this
      have hone : ∀ t ∈ s.tasks, t.signals = 1 := by
        intro t htm
        obtain ⟨i, hi⟩ := List.mem_iff_getElem?.1 htm
        have hlt : i < s.tasks.length := by
          rcases List.getElem?_eq_some.1 hi with ⟨hlt, _⟩; exact hlt
        have hdis := ht i hlt
        simp only [hi] at hdis
        have hle := h.signals_le t htm
        rcases t with ⟨sub, kind, todo, sig⟩
        cases todo with
        | nil => simp [Task.enabled] at hdis; simp at hle ⊢; omega
        | cons a rest =>
          cases a <;> simp [Task.enabled, hagg, hbr] at hdis
      have := sum_eq_length_of_eq_one Task.signals s.tasks hone
      have hw := h.wg_eq
      simp only [signalsObserved] at hw
      omega
    · rfl
  refine ⟨hmain, ?_, ?_⟩
  · have hip : s.publicIpClosed = true := h.ip_closed.2 (Or.inr hmain)
    cases hbb : s.bridge <;> simp [hbb, hip] at hb
    · have := h.bridge_started.1 hbb; simp [hmain] at this
    · rfl
  · have hcb : s.callbackClosed = true := h.cb_closed.2 hmain
    cases haa : s.aggregator <;> simp [haa, hcb] at ha
    · have := h.agg_started.1 haa; simp [hmain] at this
    · rfl

theorem sum_rank_set (ts us : List Task) (i : Nat) (t t' : Task) (hi : ts[i]? = some t) :
    (((ts.set i t') ++ us).map Task.rank).sum + t.rank =
      ((ts ++ us).map Task.rank).sum + t'.rank := by
  have := sum_map_set Task.rank ts i t t' hi
  simp only [List.map_append, List.sum_append]; omega

/-- Both moves of a panicking task use up fuel. -/
theorem fuel_firePanic {s : CycleState} {i : Nat} {t : Task} (hc : s.crashed = false)
    (hi : s.tasks[i]? = some t) : fuel (firePanic s i t) < fuel s := by
  have hset := sum_rank_set s.tasks s.unspawned i t
  rcases t with ⟨sub, kind, todo, sig⟩
  simp only [firePanic]
  split
  · rename_i h0
    have hsig : sig = 0 := by simpa using h0
    have := hset ⟨sub, kind, todo, sig + 1⟩ hi
    simp only [fuel, hc]
    simp [Task.rank, hsig] at this ⊢
    omega
  · simp [fuel, hc]

/-- Every move uses up fuel. -/
theorem fuel_fire {s : CycleState} {g : Goroutine} (he : enabled s g = true) :
    fuel (fire s g) < fuel s := by
  have hc : s.crashed = false := by
    simp only [enabled, Bool.and_eq_true, Bool.not_eq_true'] at he; exact he.1
  simp only [enabled, hc, Bool.not_false, Bool.true_and] at he
  cases g with
  | main =>
    cases hm : s.main <;> simp [hm] at he
    · cases hu : s.unspawned <;> simp [fire, hm, hu, fuel, hc, MainPc.rank]
    all_goals simp [fire, hm, fuel, hc, MainPc.rank, BridgePc.rank, AggregatorPc.rank]
    · cases s.bridge <;> simp
    · cases s.aggregator <;> simp
      omega
  | bridge =>
    cases hb : s.bridge <;> simp [hb] at he <;>
      simp [fire, hb, fuel, hc, BridgePc.rank]
    cases s.portscanner <;> simp
  | aggregator =>
    cases ha : s.aggregator <;> simp [ha] at he
    simp [fire, ha, fuel, hc, AggregatorPc.rank]
  | task i =>
    cases hi : s.tasks[i]? with
    | none => simp [hi] at he
    | some t =>
      simp only [hi] at he
      have hset := sum_rank_set s.tasks s.unspawned i t
      rcases t with ⟨sub, kind, todo, sig⟩
      cases todo with
      | nil =>
        have hsig : sig = 0 := by simpa [Task.enabled] using he
        have := hset ⟨sub, kind, [], sig + 1⟩ hi
        simp only [fire, hi, fireTask, fuel, hc]
        simp [Task.rank, hsig] at this ⊢
        omega
      | cons a rest =>
        cases a with
        | send m =>
          have := hset ⟨sub, kind, rest, sig⟩ hi
          simp only [fire, hi, fireTask]
          split
          · exact fuel_firePanic hc hi
          · simp only [fuel, hc]
            simp [Task.rank, hc] at this ⊢
            omega
        | sendIps l =>
          have := hset ⟨sub, kind, rest, sig⟩ hi
          simp only [fire, hi, fireTask]
          split
          · exact fuel_firePanic hc hi
          · simp only [fuel, hc]
            simp [Task.rank, hc] at this ⊢
            omega
        | panic err =>
          simp only [fire, hi, fireTask]
          exact fuel_firePanic hc hi

theorem atRest_of_crashed {s : CycleState} (hc : s.crashed = true) : atRest s = true := by
  simp [atRest, enabled, hc]

/-- Letting the first goroutine that can move do so, for as many moves as there is fuel,
brings a cycle to rest. -/
theorem firstEnabledSchedule_rest :
    ∀ (n : Nat) (s : CycleState), fuel s ≤ n →
      atRest (exec s (firstEnabledSchedule n s)) = true
  | 0, s, h => by
    have hc : s.crashed = true := by
      cases hcc : s.crashed
      · simp [fuel, hcc] at h
      · rfl
    simpa [firstEnabledSchedule, exec] using atRest_of_crashed hc
  | n + 1, s, h => by
    simp only [firstEnabledSchedule]
    cases hg : nextEnabled s with
    | none =>
      simp only [nextEnabled, List.find?_eq_none] at hg
      simp only [exec, List.foldl_nil, atRest, List.all_eq_true]
      intro g hgm
      simpa using hg g hgm
    | some g =>
      have he : enabled s g = true := by
        simp only [nextEnabled] at hg
        exact List.find?_some hg
      have hlt := fuel_fire he
      have hs : step s g = fire s g := by simp [step, he]
      simp only [exec, List.foldl_cons]
      have := firstEnabledSchedule_rest n (step s g) (by rw [hs]; omega)
      simpa [exec] using this

/-- A task that has not signalled finds both channels open. -/
theorem channels_open_of_unsignalled {p : Bool} {prior : MetricState} {toSpawn : List Task}
    {s : CycleState} (h : Inv p prior toSpawn s) {i : Nat} {t : Task}
    (hi : s.tasks[i]? = some t) (hs : t.signals = 0) :
    s.callbackClosed = false ∧ s.publicIpClosed = false := by
  have htm : t ∈ s.tasks := List.getElem?_mem hi
  have hw : s.wg ≠ 0 := by
    intro hw
    have := (h.all_done hw t htm).1
    omega
  have hlate : ¬ (s.main = .closePublicIp ∨ s.main = .closeCallback ∨ s.main = .returned) :=
    fun hl => hw (h.joined hl)
  constructor
  · cases hx : s.callbackClosed
    · rfl
    · exact absurd (Or.inr (Or.inr (h.cb_closed.1 hx))) hlate
  · cases hx : s.publicIpClosed
    · rfl
    · rcases h.ip_closed.1 hx with h' | h'
      · exact absurd (Or.inr (Or.inl h')) hlate
      · exact absurd (Or.inr (Or.inr h')) hlate

/-- No task has a panic ahead of it and the process has not ended. -/
theorem noPanic_step {p : Bool} {prior : MetricState} {toSpawn : List Task} {s : CycleState}
    (h : Inv p prior toSpawn s) (hn : NoPanic s) (g : Goroutine) : NoPanic (step s g) := by
  unfold step
  split
  · rename_i he
    obtain ⟨hc, hp⟩ := hn
    cases g with
    | main =>
      cases hm : s.main <;> simp only [fire, hm] <;> try exact ⟨hc, hp⟩
      split
      · rename_i t rest hu
        refine ⟨hc, ?_⟩
        intro t' ht'
        exact hp t' (by simpa [hu] using ht')
      · exact ⟨hc, hp⟩
    | bridge =>
      cases hb : s.bridge <;> simp only [fire, hb] <;> exact ⟨hc, hp⟩
    | aggregator =>
      cases ha : s.aggregator <;> simp only [fire, ha] <;> exact ⟨hc, hp⟩
    | task i =>
      cases hi : s.tasks[i]? with
      | none => simpa [fire, hi] using ⟨hc, hp⟩
      | some t =>
        have htm : t ∈ s.tasks := List.getElem?_mem hi
        have ht := hp t (by simp [htm])
        have het : t.enabled s = true := by
          simpa [enabled, hc, hi] using he
        have hsig : t.signals = 0 := by
          have hle := h.signals_le t htm
          by_contra hne
          rcases h.done_todo t htm (by omega) with h0 | ⟨err, h0⟩
          · have : t.signals = 1 := by omega
            simp [Task.enabled, h0, this] at het
          · exact ht err (by simp [h0])
        obtain ⟨hcb, hip⟩ := channels_open_of_unsignalled h hi hsig
        have hsub : ∀ t' : Task, (∀ a ∈ t'.todo, a ∈ t.todo) →
            ∀ x ∈ s.tasks.set i t' ++ s.unspawned, ∀ err, Action.panic err ∉ x.todo := by
          intro t' hsub x hx err hmem
          rcases List.mem_append.1 hx with hx | hx
          · rcases List.mem_or_eq_of_mem_set hx with h' | rfl
            · exact hp x (by simp [h']) err hmem
            · exact ht err (hsub _ hmem)
          · exact hp x (by simp [hx]) err hmem
        rcases t with ⟨sub, kind, todo, sig⟩
        cases todo with
        | nil =>
          simp only [fire, hi, fireTask]
          exact ⟨hc, hsub _ (fun a ha => ha)⟩
        | cons a rest =>
          cases a with
          | send m =>
            simp only [fire, hi, fireTask]
            rw [if_neg (by simp [hcb])]
            exact ⟨hc, hsub ⟨sub, kind, rest, sig⟩ (fun a ha => List.mem_cons_of_mem _ ha)⟩
          | sendIps l =>
            simp only [fire, hi, fireTask]
            rw [if_neg (by simp [hip])]
            exact ⟨hc, hsub ⟨sub, kind, rest, sig⟩ (fun a ha => List.mem_cons_of_mem _ ha)⟩
          | panic err => exact absurd (List.mem_cons_self _ _) (ht err)
  · exact hn

/-- A panic ahead of a task stays ahead of it: no move takes it away. -/
theorem hasPanic_step {s : CycleState} (hp : HasPanic s) (g : Goroutine) :
    HasPanic (step s g) := by
  unfold step
  split
  · cases g with
    | main =>
      cases hm : s.main <;> simp only [fire, hm] <;> try exact hp
      split
      · rename_i t rest hu
        obtain ⟨x, hx, err, he⟩ := hp
        exact ⟨x, by simpa [hu] using hx, err, he⟩
      · exact hp
    | bridge =>
      cases hb : s.bridge <;> simp only [fire, hb] <;> exact hp
    | aggregator =>
      cases ha : s.aggregator <;> simp only [fire, ha] <;> exact hp
    | task i =>
      cases hi : s.tasks[i]? with
      | none => simpa [fire, hi] using hp
      | some t =>
        have hlen : i < s.tasks.length := (List.getElem?_eq_some.1 hi).1
        have hsub : ∀ t' : Task, (∀ err, Action.panic err ∈ t.todo → Action.panic err ∈ t'.todo) →
            ∃ x ∈ s.tasks.set i t' ++ s.unspawned, ∃ err, Action.panic err ∈ x.todo := by
          intro t' ht'
          obtain ⟨x, hx, err, he⟩ := hp
          rcases List.mem_append.1 hx with hx | hx
          · obtain ⟨j, hj⟩ := List.mem_iff_getElem?.1 hx
            by_cases hij : i = j
            · subst hij
              rw [hi] at hj
              cases hj
              exact ⟨t', List.mem_append_left _
                (List.mem_iff_getElem?.2 ⟨i, by simp [List.getElem?_set, hlen]⟩), err,
                ht' err he⟩
            · exact ⟨x, List.mem_append_left _
                (List.mem_iff_getElem?.2 ⟨j, by simp [List.getElem?_set, hij, hj]⟩), err, he⟩
          · exact ⟨x, List.mem_append_right _ hx, err, he⟩
        have hpanic : HasPanic (firePanic s i t) := by
          simp only [firePanic]
          split
          · exact hsub _ (fun _ h => h)
          · exact hp
        rcases t with ⟨sub, kind, todo, sig⟩
        cases todo with
        | nil =>
          simp only [fire, hi, fireTask]
          exact hsub _ (fun _ h => h)
        | cons a rest =>
          cases a with
          | send m =>
            simp only [fire, hi, fireTask]
            split
            · exact hpanic
            · exact hsub ⟨sub, kind, rest, sig⟩ (fun err h => by simpa using h)
          | sendIps l =>
            simp only [fire, hi, fireTask]
            split
            · exact hpanic
            · exact hsub ⟨sub, kind, rest, sig⟩ (fun err h => by simpa using h)
          | panic err =>
            simp only [fire, hi, fireTask]
            exact hpanic
  · exact hp

theorem hasPanic_exec : ∀ (schedule : List Goroutine) (s : CycleState), HasPanic s →
    HasPanic (exec s schedule)
  | [], _, hp => hp
  | g :: gs, s, hp => hasPanic_exec gs (step s g) (hasPanic_step hp g)

/-- A cycle in which a task has a panic ahead of it comes to rest only by the end of the
process. -/
theorem crashed_of_rest {p : Bool} {prior : MetricState} {toSpawn : List Task}
    {s : CycleState} (h : Inv p prior toSpawn s) (hp : HasPanic s) (hr : atRest s = true) :
    s.crashed = true := by
  cases hc : s.crashed with
  | true => rfl
  | false =>
    exfalso
    obtain ⟨hm, _, _⟩ := rest_finished h hr hc
    have hu : s.unspawned = [] := h.spawned_all (by simp [hm])
    obtain ⟨t, ht, err, he⟩ := hp
    rw [hu, List.append_nil] at ht
    obtain ⟨i, hi⟩ := List.mem_iff_getElem?.1 ht
    have hlt : i < s.tasks.length := (List.getElem?_eq_some.1 hi).1
    have hdis := ((atRest_iff s).1 hr).2.2.2 i hlt
    rcases t with ⟨sub, kind, todo, sig⟩
    have hw := h.joined (Or.inr (Or.inr hm))
    rcases (h.all_done hw _ ht).2 with h0 | ⟨err', h0⟩
    · simp only at h0
      subst h0
      simp at he
    · simp only at h0
      subst h0
      simp [enabled, hc, hi, Task.enabled] at hdis

/-- In a cycle at rest in which the process has not ended every task has signalled and has
nothing left to do. -/
theorem rest_done {p : Bool} {prior : MetricState} {toSpawn : List Task}
    {s : CycleState} (h : Inv p prior toSpawn s) (hr : atRest s = true)
    (hc : s.crashed = false) : ∀ t ∈ s.tasks, t.signals = 1 ∧ t.todo = [] := by
  obtain ⟨hm, _, _⟩ := rest_finished h hr hc
  have hw := h.joined (Or.inr (Or.inr hm))
  intro t ht
  obtain ⟨h1, h2⟩ := h.all_done hw t ht
  refine ⟨h1, ?_⟩
  rcases h2 with h0 | ⟨err, h0⟩
  · exact h0
  · exfalso
    obtain ⟨i, hi⟩ := List.mem_iff_getElem?.1 ht
    have hlt : i < s.tasks.length := (List.getElem?_eq_some.1 hi).1
    have hdis := ((atRest_iff s).1 hr).2.2.2 i hlt
    simp [enabled, hc, hi, Task.enabled, h0] at hdis

theorem noPanic_exec {p : Bool} {prior : MetricState} {toSpawn : List Task} :
    ∀ (schedule : List Goroutine) (s : CycleState), Inv p prior toSpawn s → NoPanic s →
      NoPanic (exec s schedule)
  | [], _, _, hn => hn
  | g :: gs, s, h, hn => noPanic_exec gs (step s g) (inv_step h g) (noPanic_step h hn g)

/-! ## The tasks of `runMetricsCollectionAzureRm` -/

theorem spawnList_signals (d : Deps) (opts : Opts) (api : Api) (subs : List String) :
    ∀ t ∈ spawnList d opts api subs, t.signals = 0 := by
  intro t ht
  simp only [spawnList, List.mem_flatMap, List.mem_map] at ht
  obtain ⟨_, _, _, _, rfl⟩ := ht
  rfl

theorem spawnList_length (d : Deps) (opts : Opts) (api : Api) (subs : List String) :
    (spawnList d opts api subs).length = spawnCount opts subs := by
  induction subs with
  | nil => simp [spawnList, spawnCount]
  | cons x xs ih =>
    simp only [spawnList, List.flatMap_cons, List.length_append, List.length_map] at ih ⊢
    rw [ih]
    simp [spawnedKinds, spawnCount]
    ring

theorem panicLast_map_send (l : List Mutation) (tl : List Action) :
    panicLast (l.map Action.send ++ tl) = panicLast tl := by
  induction l with
  | nil => rfl
  | cons x xs ih => simpa [panicLast] using ih

theorem actions_panicLast (c : Collected) : panicLast c.actions = true := by
  rcases c with ⟨sent, logged, outcome⟩
  cases outcome
  · have := panicLast_map_send sent []
    simpa [Collected.actions, panicLast] using this
  · simp [Collected.actions, panicLast_map_send, panicLast]

/-- A collector that panics does nothing after its panic. -/
theorem taskBody_panicLast (d : Deps) (opts : Opts) (api : Api) (sub : String)
    (kind : TaskKind) : panicLast (taskBody d opts api sub kind) = true := by
  cases kind <;> simp only [taskBody, actions_panicLast] <;> try rfl
  generalize collectAzurePublicIp d opts api sub = r
  rcases r with ⟨⟨sent, logged, outcome⟩, ips⟩
  cases outcome <;>
    simp [Collected.actions, panicLast_map_send, panicLast, List.append_assoc]

theorem spawnList_panicLast (d : Deps) (opts : Opts) (api : Api) (subs : List String) :
    ∀ t ∈ spawnList d opts api subs, panicLast t.todo = true := by
  intro t ht
  simp only [spawnList, List.mem_flatMap, List.mem_map] at ht
  obtain ⟨_, _, _, _, rfl⟩ := ht
  exact taskBody_panicLast _ _ _ _ _

/-- Every state a run of a cycle leads to satisfies the invariant. -/
theorem inv_run (d : Deps) (opts : Opts) (api : Api) (subs : List String) (p : Bool)
    (prior : MetricState) (schedule : List Goroutine) :
    Inv p prior (spawnList d opts api subs)
      (exec (runMetricsCollectionAzureRm d opts api subs p prior) schedule) :=
  inv_exec schedule _
    (inv_init p prior _ (spawnList_signals d opts api subs) (spawnList_panicLast d opts api subs))

/-- A cycle none of whose tasks panics never ends the process. -/
theorem run_noPanic (d : Deps) (opts : Opts) (api : Api) (subs : List String) (p : Bool)
    (prior : MetricState) (schedule : List Goroutine)
    (hno : ∀ t ∈ spawnList d opts api subs, ∀ err, Action.panic err ∉ t.todo) :
    NoPanic (exec (runMetricsCollectionAzureRm d opts api subs p prior) schedule) :=
  noPanic_exec schedule _
    (inv_init p prior _ (spawnList_signals d opts api subs) (spawnList_panicLast d opts api subs))
    ⟨rfl, by simpa [runMetricsCollectionAzureRm, CycleState.init] using hno⟩

/-- A cycle in which a task panics comes to rest only by the end of the process. -/
theorem run_crashed_of_rest (d : Deps) (opts : Opts) (api : Api) (subs : List String)
    (p : Bool) (prior : MetricState) (schedule : List Goroutine)
    (hp : ∃ t ∈ spawnList d opts api subs, ∃ err, Action.panic err ∈ t.todo)
    (hr : atRest (exec (runMetricsCollectionAzureRm d opts api subs p prior) schedule) = true) :
    (exec (runMetricsCollectionAzureRm d opts api subs p prior) schedule).crashed = true :=
  crashed_of_rest (inv_run d opts api subs p prior schedule)
    (hasPanic_exec schedule _
      (by simpa [HasPanic, runMetricsCollectionAzureRm, CycleState.init] using hp)) hr

/-- In a state with a closed channel every task has been spawned and has signalled once,
with nothing left to do or at its panic. -/
theorem joined_of_closed {p : Bool} {prior : MetricState} {toSpawn : List Task}
    {s : CycleState} (h : Inv p prior toSpawn s)
    (hcl : s.publicIpClosed = true ∨ s.callbackClosed = true) :
    s.wg = 0 ∧ s.unspawned = [] ∧ s.tasks.length = toSpawn.length ∧
      signalsObserved s = toSpawn.length ∧
      ∀ t ∈ s.tasks, t.signals = 1 ∧ (t.todo = [] ∨ ∃ err, t.todo = [.panic err]) := by
  have hlate : s.main = .closePublicIp ∨ s.main = .closeCallback ∨ s.main = .returned := by
    rcases hcl with hx | hx
    · rcases h.ip_closed.1 hx with h' | h'
      · exact Or.inr (Or.inl h')
      · exact Or.inr (Or.inr h')
    · exact Or.inr (Or.inr (h.cb_closed.1 hx))
  have hw := h.joined hlate
  have hu : s.unspawned = [] := h.spawned_all (by rcases hlate with l | l | l <;> simp [l])
  have ht := h.total
  have hwg := h.wg_eq
  rw [hu] at ht
  simp only [List.length_nil, Nat.add_zero] at ht
  exact ⟨hw, hu, ht, by omega, h.all_done hw⟩

theorem actions_sends (c : Collected) : c.actions.flatMap Action.sends = c.sent := by
  rcases c with ⟨sent, logged, outcome⟩
  have h1 : ∀ l : List Mutation, (l.map Action.send).flatMap Action.sends = l := by
    intro l
    induction l with
    | nil => rfl
    | cons x xs ih => simp [Action.sends, List.flatMap_cons, ih]
  cases outcome <;> simp [Collected.actions, h1, Action.sends, List.flatMap_append]

theorem actions_ips (c : Collected) : c.actions.flatMap Action.ips = [] := by
  rcases c with ⟨sent, logged, outcome⟩
  have h1 : ∀ l : List Mutation, (l.map Action.send).flatMap Action.ips = [] := by
    intro l
    induction l with
    | nil => rfl
    | cons x xs ih => simp [Action.ips, List.flatMap_cons, ih]
  cases outcome <;> simp [Collected.actions, h1, Action.ips, List.flatMap_append]

theorem taskBody_sends (d : Deps) (opts : Opts) (api : Api) (sub : String) (kind : TaskKind) :
    (taskBody d opts api sub kind).flatMap Action.sends = sentBy d opts api sub kind := by
  cases kind <;> simp only [taskBody, sentBy, actions_sends, List.flatMap_nil]
  simp only [List.flatMap_append, actions_sends]
  cases (collectAzurePublicIp d opts api sub).1.outcome <;> simp [Action.sends]

theorem pendingSends_spawnList (d : Deps) (opts : Opts) (api : Api) (subs : List String) :
    pendingSends (spawnList d opts api subs) = emittedMutations d opts api subs := by
  simp only [pendingSends, spawnList, emittedMutations, List.flatMap_assoc, List.flatMap_map,
    taskBody_sends]

theorem andThen_send_outcome (c : Collected) (m : Mutation) (h : c.outcome = .returned) :
    (c.andThen (Collected.send m)).outcome = .returned ∧
      (c.andThen (Collected.send m)).sent = c.sent ++ [m] := by
  simp [Collected.andThen, h, Collected.send]

/-- On a listing that succeeds `collectAzurePublicIp` returns, and returns the allocated
addresses in API order. -/
theorem collectAzurePublicIp_ok (d : Deps) (opts : Opts) (api : Api) (sub : String)
    (list : List PublicIPAddress) (hok : api.publicIPAddressesListAll sub = .ok list) :
    (collectAzurePublicIp d opts api sub).1.outcome = .returned ∧
      (collectAzurePublicIp d opts api sub).2 = list.filterMap PublicIPAddress.IPAddress := by
  simp only [collectAzurePublicIp, hok]
  clear hok
  induction list using List.reverseRecOn with
  | nil => simp [Collected.skip]
  | append_singleton l a ih =>
    rw [List.foldl_append]
    simp only [List.foldl_cons, List.foldl_nil]
    obtain ⟨ih1, ih2⟩ := ih
    cases hA : a.IPAddress with
    | none =>
      simp only [List.filterMap_append, List.filterMap_cons, hA, List.filterMap_nil,
        List.append_nil]
      exact ⟨(andThen_send_outcome _ _ ih1).1, ih2⟩
    | some ip =>
      simp only [List.filterMap_append, List.filterMap_cons, hA, List.filterMap_nil]
      exact ⟨(andThen_send_outcome _ _ ih1).1, by rw [ih2]⟩

theorem collectAzurePublicIp_error (d : Deps) (opts : Opts) (api : Api) (sub err : String)
    (herr : api.publicIPAddressesListAll sub = .error err) :
    collectAzurePublicIp d opts api sub = (Collected.panic err, []) := by
  simp only [collectAzurePublicIp, herr]

theorem taskBody_ips (d : Deps) (opts : Opts) (api : Api) (sub : String) (kind : TaskKind) :
    (taskBody d opts api sub kind).flatMap Action.ips =
      if kind = .publicIp then reportedAddresses api sub else [] := by
  cases kind <;> simp only [taskBody, actions_ips, List.flatMap_nil] <;> try rfl
  simp only [List.flatMap_append, actions_ips, List.nil_append, if_true, reportedAddresses]
  cases hr : api.publicIPAddressesListAll sub with
  | error err => simp [collectAzurePublicIp_error d opts api sub err hr, Collected.panic]
  | ok list =>
    obtain ⟨h1, h2⟩ := collectAzurePublicIp_ok d opts api sub list hr
    simp [h1, h2, Action.ips]

theorem spawnedKinds_ips (d : Deps) (opts : Opts) (api : Api) (sub : String) :
    (spawnedKinds opts).flatMap (fun kind => (taskBody d opts api sub kind).flatMap Action.ips) =
      reportedAddresses api sub := by
  simp only [taskBody_ips]
  have h : ∀ locs : List String,
      (locs.map TaskKind.securityCompliance).flatMap
        (fun kind => if kind = .publicIp then reportedAddresses api sub else []) = [] := by
    intro locs
    induction locs with
    | nil => rfl
    | cons x xs ih => simp [List.flatMap_cons, ih]
  simp [spawnedKinds, List.flatMap_append, List.flatMap_cons, h]

theorem pendingIps_spawnList (d : Deps) (opts : Opts) (api : Api) (subs : List String) :
    pendingIps (spawnList d opts api subs) = subs.flatMap (reportedAddresses api) := by
  simp only [pendingIps, spawnList, List.flatMap_assoc, List.flatMap_map, spawnedKinds_ips]

theorem pendingSends_done (ts : List Task)
    (h : ∀ t ∈ ts, t.todo = [] ∨ ∃ err, t.todo = [.panic err]) :
    pendingSends ts = [] := by
  induction ts with
  | nil => rfl
  | cons x xs ih =>
    simp only [pendingSends, List.flatMap_cons] at ih ⊢
    rw [ih (fun t ht => h t (by simp [ht]))]
    rcases h x (by simp) with h0 | ⟨err, h0⟩ <;> rw [h0] <;> rfl

theorem pendingIps_done (ts : List Task)
    (h : ∀ t ∈ ts, t.todo = [] ∨ ∃ err, t.todo = [.panic err]) :
    pendingIps ts = [] := by
  induction ts with
  | nil => rfl
  | cons x xs ih =>
    simp only [pendingIps, List.flatMap_cons] at ih ⊢
    rw [ih (fun t ht => h t (by simp [ht]))]
    rcases h x (by simp) with h0 | ⟨err, h0⟩ <;> rw [h0] <;> rfl

/-- Once a channel is closed the two consumers hold everything the tasks had to send. -/
theorem collected_of_closed {p : Bool} {prior : MetricState} {toSpawn : List Task}
    {s : CycleState} (h : Inv p prior toSpawn s)
    (hcl : s.publicIpClosed = true ∨ s.callbackClosed = true) :
    s.callbackList.Perm (pendingSends toSpawn) ∧ s.publicIpList.Perm (pendingIps toSpawn) := by
  obtain ⟨_, hu, _, _, hall⟩ := joined_of_closed h hcl
  have h1 := h.sends
  have h2 := h.ips
  have hd : ∀ t ∈ s.tasks ++ s.unspawned, t.todo = [] ∨ ∃ err, t.todo = [.panic err] := by
    intro t ht
    rw [hu, List.append_nil] at ht
    exact (hall t ht).2
  rw [pendingSends_done _ hd, List.append_nil] at h1
  rw [pendingIps_done _ hd, List.append_nil] at h2
  exact ⟨h1, h2⟩

/-! ## Aggregation -/

theorem reset_all (prior : MetricState) :
    aggregatorResets.foldl MetricState.reset prior = MetricState.empty := by
  funext f l
  cases f <;> simp [aggregatorResets, MetricState.reset, MetricState.empty]

theorem aggregate_eq (prior : MetricState) (callbackList : List Mutation) :
    aggregate prior callbackList = MetricState.empty.replay callbackList := by
  simp only [aggregate, reset_all]

theorem run_some (f : Family) (l : Labels) (v : GaugeValue) :
    ∀ (m : Mutation) (st : MetricState), st.run m f l = some v →
      st f l = some v ∨ (⟨f, l, v⟩ : SetOp) ∈ m
  | [], st, h => Or.inl h
  | op :: m, st, h => by
    have h' : (st.set op).run m f l = some v := h
    rcases run_some f l v m (st.set op) h' with h1 | h1
    · simp only [MetricState.set] at h1
      split at h1
      · rename_i hk
        right
        rcases op with ⟨of, ol, ov⟩
        simp only [Option.some.injEq] at h1
        simp only at hk
        simp [hk.1, hk.2, h1]
      · exact Or.inl h1
    · exact Or.inr (List.mem_cons_of_mem _ h1)

theorem replay_some (f : Family) (l : Labels) (v : GaugeValue) :
    ∀ (cb : List Mutation) (st : MetricState), st.replay cb f l = some v →
      st f l = some v ∨ ∃ m ∈ cb, (⟨f, l, v⟩ : SetOp) ∈ m
  | [], st, h => Or.inl h
  | m :: cb, st, h => by
    have h' : (st.run m).replay cb f l = some v := h
    rcases replay_some f l v cb (st.run m) h' with h1 | ⟨m', hm', hop⟩
    · rcases run_some f l v m st h1 with h2 | h2
      · exact Or.inl h2
      · exact Or.inr ⟨m, by simp, h2⟩
    · exact Or.inr ⟨m', List.mem_cons_of_mem _ hm', hop⟩

theorem replay_eq_foldl (st : MetricState) (l : List Mutation) :
    st.replay l = l.flatten.foldl MetricState.set st := by
  rw [List.foldl_flatten]
  rfl

theorem set_comm (st : MetricState) (x y : SetOp)
    (h : x.family = y.family → x.labels = y.labels → x.value = y.value) :
    (st.set x).set y = (st.set y).set x := by
  funext f l
  simp only [MetricState.set]
  by_cases hx : f = x.family ∧ l = x.labels
  · by_cases hy : f = y.family ∧ l = y.labels
    · simp only [if_pos hy, if_pos hx, h (hx.1.symm.trans hy.1) (hx.2.symm.trans hy.2)]
    · simp only [if_neg hy, if_pos hx]
  · by_cases hy : f = y.family ∧ l = y.labels
    · simp only [if_pos hy, if_neg hx]
    · simp only [if_neg hy, if_neg hx]

/-- Replaying in another order gives the same state when `Set` statements that address the
same family and label set carry the same value. -/
theorem replay_perm (st : MetricState) (l₁ l₂ : List Mutation) (hp : l₁.Perm l₂)
    (hc : ∀ x ∈ l₁.flatten, ∀ y ∈ l₁.flatten,
      x.family = y.family → x.labels = y.labels → x.value = y.value) :
    st.replay l₁ = st.replay l₂ := by
  rw [replay_eq_foldl, replay_eq_foldl]
  exact List.Perm.foldl_eq' hp.flatten (fun x hx y hy z => set_comm z x y (hc x hx y hy)) st

theorem consistent_of_distinct (l : List Mutation) (hd : DistinctKeys l) :
    ∀ x ∈ l.flatten, ∀ y ∈ l.flatten,
      x.family = y.family → x.labels = y.labels → x.value = y.value := by
  intro x hx y hy hf hl
  have : x = y := List.inj_on_of_nodup_map hd hx hy (by simp [SetOp.key, hf, hl])
  rw [this]

theorem foldl_set_mem (st : MetricState) :
    ∀ (ops : List SetOp),
      (∀ x ∈ ops, ∀ y ∈ ops, x.family = y.family → x.labels = y.labels → x.value = y.value) →
      ∀ op ∈ ops, ops.foldl MetricState.set st op.family op.labels = some op.value := by
  intro ops
  induction ops using List.reverseRecOn with
  | nil => intro _ op hop; simp at hop
  | append_singleton l a ih =>
    intro hc op hop
    rw [List.foldl_append]
    simp only [List.foldl_cons, List.foldl_nil, MetricState.set]
    by_cases hk : op.family = a.family ∧ op.labels = a.labels
    · rw [if_pos hk, hc op hop a (by simp) hk.1 hk.2]
    · rw [if_neg hk]
      have hne : op ≠ a := fun h => hk (by simp [h])
      have hl : op ∈ l := by
        rcases List.mem_append.1 hop with h | h
        · exact h
        · simp at h; exact absurd h hne
      exact ih (fun x hx y hy => hc x (by simp [hx]) y (by simp [hy])) op hl

/-! ## Loops of collectors -/

theorem forEach_send {α : Type} (g : α → Mutation) :
    ∀ l : List α, Collected.forEach l (fun x => Collected.send (g x)) = ⟨l.map g, [], .returned⟩
  | [] => rfl
  | x :: xs => by
    rw [Collected.forEach, forEach_send g xs]
    rfl

theorem forEach_panics {α : Type} (body : α → Collected)
    (hlog : ∀ x, (body x).logged = []) :
    ∀ (l : List α), (∃ x ∈ l, ∃ err, (body x).outcome = .panicked err) →
      (∃ err, (Collected.forEach l body).outcome = .panicked err) ∧
        (Collected.forEach l body).logged = []
  | [], h => by simp at h
  | x :: xs, h => by
    simp only [Collected.forEach, Collected.andThen]
    cases hx : (body x).outcome with
    | panicked err => exact ⟨⟨err, hx⟩, hlog x⟩
    | returned =>
      have hrest : ∃ y ∈ xs, ∃ err, (body y).outcome = .panicked err := by
        obtain ⟨y, hy, err, herr⟩ := h
        rcases List.mem_cons.1 hy with rfl | hy
        · rw [hx] at herr; cases herr
        · exact ⟨y, hy, err, herr⟩
      obtain ⟨h1, h2⟩ := forEach_panics body hlog xs hrest
      exact ⟨h1, by simp [hlog x, h2]⟩

theorem andThen_skip (c : Collected) : c.andThen Collected.skip = c := by
  rcases c with ⟨sent, logged, outcome⟩
  cases outcome <;> simp [Collected.andThen, Collected.skip]

/-- A loop over an iterator does what the loop over the values it visits does; an error
of `Next()` leaves no trace. -/
theorem forIterator_eq_forEach {α : Type} (body : α → Collected) :
    ∀ it : Iterator α, Collected.forIterator it body = Collected.forEach it.visited body
  | .done => rfl
  | .value val next => by
    simp only [Collected.forIterator, Iterator.visited, Collected.forEach,
      forIterator_eq_forEach body next]
  | .failing val err => by
    simp only [Collected.forIterator, Iterator.visited, Collected.forEach, andThen_skip]

theorem visited_ofList {α : Type} : ∀ l : List α, (Iterator.ofList l).visited = l
  | [] => rfl
  | x :: xs => by simp only [Iterator.ofList, Iterator.visited, visited_ofList xs]

theorem collectAzureVm_ok (d : Deps) (opts : Opts) (api : Api) (sub : String)
    (it : Iterator VirtualMachine) (h : api.virtualMachinesListAllComplete sub = .ok it) :
    (collectAzureVm d opts api sub).outcome = .returned ∧
      (collectAzureVm d opts api sub).logged = [] ∧
      (collectAzureVm d opts api sub).sent.length = it.visited.length := by
  simp only [collectAzureVm, h, forIterator_eq_forEach, forEach_send, List.length_map,
    and_self]

theorem collectAzureContainerRegistries_ok (d : Deps) (opts : Opts) (api : Api)
    (sub : String) (it : Iterator Registry) (h : api.registriesListComplete sub = .ok it) :
    collectAzureContainerRegistries d opts api sub =
      ⟨it.visited.map (registryMutation d opts api sub),
        it.visited.flatMap (registryUsageLog d api sub), .returned⟩ := by
  simp only [collectAzureContainerRegistries, h, forIterator_eq_forEach]
  generalize it.visited = l
  induction l with
  | nil => rfl
  | cons x xs ih =>
    rw [Collected.forEach, ih]
    cases hx : (api.registriesListUsages sub (d.extractResourceGroupFromAzureId x.ID)
        x.Name).2 <;>
      simp [Collected.andThen, Collected.log, Collected.send, Collected.skip,
        registryMutation, registryUsageLog, hx]

theorem panic_mem_actions (c : Collected) (err : String) (h : c.outcome = .panicked err) :
    Action.panic err ∈ c.actions := by
  simp [Collected.actions, h]

/-! ## Label maps and single collectors -/

theorem lookup_put (k' : String) :
    ∀ (l : Labels) (k v : String),
      (Labels.put l k v).lookup k' = if k' = k then some v else l.lookup k'
  | [], k, v => by
    rw [Labels.put, lookup_cons]
  | (a, b) :: rest, k, v => by
    simp only [Labels.put]
    by_cases ha : a = k
    · subst ha
      rw [if_pos rfl, lookup_cons, lookup_cons]
      by_cases h : k' = a <;> simp [h]
    · rw [if_neg ha, lookup_cons, lookup_cons, lookup_put k' rest k v]
      by_cases h' : k' = a
      · have : k' ≠ k := fun e => ha (h'.symm.trans e)
        simp [h', this, ha]
      · simp [h']

/-- The value `addAzureResourceTags` leaves at the label of a configured tag. -/
theorem addAzureResourceTags_lookup_tag (d : Deps) (tags : Tags) (labels : Labels) :
    ∀ (configured : List String) (opts : Opts), opts.AzureResourceTags = configured →
      ∀ t ∈ configured,
        (addAzureResourceTags d opts tags labels).lookup (d.AZURE_RESOURCE_TAG_PREFIX ++ t) =
          some ((tags.lookup t).getD "") := by
  intro configured
  induction configured using List.reverseRecOn with
  | nil => intro _ _ t ht; simp at ht
  | append_singleton l a ih =>
    intro opts ho t ht
    have hprev := ih { opts with AzureResourceTags := l } rfl
    simp only [addAzureResourceTags, ho, List.foldl_append, List.foldl_cons, List.foldl_nil]
      at hprev ⊢
    have hput : ∀ R : Labels,
        (match tags.lookup a with
          | some v => Labels.put R (d.AZURE_RESOURCE_TAG_PREFIX ++ a) v
          | none => Labels.put R (d.AZURE_RESOURCE_TAG_PREFIX ++ a) "") =
        Labels.put R (d.AZURE_RESOURCE_TAG_PREFIX ++ a) ((tags.lookup a).getD "") := by
      intro R
      cases tags.lookup a <;> rfl
    rw [hput, lookup_put]
    by_cases h : d.AZURE_RESOURCE_TAG_PREFIX ++ t = d.AZURE_RESOURCE_TAG_PREFIX ++ a
    · rw [if_pos h, string_append_left_cancel _ _ _ h]
    · rw [if_neg h]
      have hne : t ≠ a := fun e => h (by rw [e])
      have hl : t ∈ l := by
        rcases List.mem_append.1 ht with h' | h'
        · exact h'
        · simp at h'; exact absurd h' hne
      exact hprev t hl

/-- A key that is the label of no configured tag keeps its value. -/
theorem addAzureResourceTags_lookup_other (d : Deps) (tags : Tags) (labels : Labels)
    (k : String) :
    ∀ (configured : List String) (opts : Opts), opts.AzureResourceTags = configured →
      (∀ t ∈ configured, k ≠ d.AZURE_RESOURCE_TAG_PREFIX ++ t) →
        (addAzureResourceTags d opts tags labels).lookup k = labels.lookup k := by
  intro configured
  induction configured using List.reverseRecOn with
  | nil => intro opts ho _; simp [addAzureResourceTags, ho]
  | append_singleton l a ih =>
    intro opts ho hk
    have hprev := ih { opts with AzureResourceTags := l } rfl
      (fun t ht => hk t (by simp [ht]))
    simp only [addAzureResourceTags, ho, List.foldl_append, List.foldl_cons, List.foldl_nil]
      at hprev ⊢
    have hne : k ≠ d.AZURE_RESOURCE_TAG_PREFIX ++ a := hk a (by simp)
    cases tags.lookup a <;> simp only [lookup_put, if_neg hne, hprev]

theorem put_keys (k : String) :
    ∀ (l l' : Labels) (v v' : String), l.map Prod.fst = l'.map Prod.fst →
      (Labels.put l k v).map Prod.fst = (Labels.put l' k v').map Prod.fst
  | [], [], _, _, _ => rfl
  | [], _ :: _, _, _, h => by simp at h
  | _ :: _, [], _, _, h => by simp at h
  | (a, b) :: rest, (a', b') :: rest', v, v', h => by
    simp only [List.map_cons, List.cons.injEq] at h
    obtain ⟨ha, hr⟩ := h
    subst ha
    simp only [Labels.put]
    by_cases hk : a = k
    · simp [hk, hr]
    · simp [hk, put_keys k rest rest' v v' hr]

/-- The keys of the result do not depend on the tags the resource carries. -/
theorem addAzureResourceTags_keys (d : Deps) (tags tags' : Tags) (labels : Labels) :
    ∀ (configured : List String) (opts : Opts), opts.AzureResourceTags = configured →
      (addAzureResourceTags d opts tags labels).map Prod.fst =
        (addAzureResourceTags d opts tags' labels).map Prod.fst := by
  intro configured
  induction configured using List.reverseRecOn with
  | nil => intro opts ho; simp [addAzureResourceTags, ho]
  | append_singleton l a ih =>
    intro opts ho
    have hprev := ih { opts with AzureResourceTags := l } rfl
    simp only [addAzureResourceTags, ho, List.foldl_append, List.foldl_cons, List.foldl_nil]
      at hprev ⊢
    cases tags.lookup a <;> cases tags'.lookup a <;> exact put_keys _ _ _ _ _ hprev

theorem collectAzurePublicIp_sent (d : Deps) (opts : Opts) (api : Api) (sub : String)
    (list : List PublicIPAddress) (hok : api.publicIPAddressesListAll sub = .ok list) :
    (collectAzurePublicIp d opts api sub).1 =
      ⟨list.map (publicIpMutation d opts sub), [], .returned⟩ := by
  simp only [collectAzurePublicIp, hok]
  clear hok
  induction list using List.reverseRecOn with
  | nil => rfl
  | append_singleton l a ih =>
    rw [List.foldl_append]
    simp only [List.foldl_cons, List.foldl_nil]
    cases hA : a.IPAddress with
    | none =>
      simp only []
      rw [ih]
      simp [Collected.andThen, Collected.send, publicIpMutation, hA]
    | some ip =>
      simp only []
      rw [ih]
      simp [Collected.andThen, Collected.send, publicIpMutation, hA]

theorem countP_publicIpMutation (d : Deps) (opts : Opts) (sub : String) :
    ∀ list : List PublicIPAddress,
      ((list.map (publicIpMutation d opts sub)).flatten.countP fun op => op.value = 1) =
        (list.filterMap PublicIPAddress.IPAddress).length
  | [] => rfl
  | a :: l => by
    have ih := countP_publicIpMutation d opts sub l
    cases hA : a.IPAddress <;>
      simp [publicIpMutation, hA, List.countP_cons, ih]

theorem probeProcessHeader_outcome (d : Deps) (header : String → String) (name : String)
    (labels : Labels) :
    (probeProcessHeader d header name labels).outcome = .returned ∧
      (probeProcessHeader d header name labels).sent.length ≤ 1 := by
  simp only [probeProcessHeader]
  split
  · split <;> simp [Collected.send, Collected.log]
  · simp [Collected.skip]

theorem andThen_returned (a b : Collected) (h : a.outcome = .returned) :
    a.andThen b = ⟨a.sent ++ b.sent, a.logged ++ b.logged, b.outcome⟩ := by
  simp [Collected.andThen, h]

theorem collectAzureSubscription_sent (d : Deps) (api : Api) (sub : String)
    (s : Subscription) (hok : api.subscriptionsGet sub = .ok s) :
    (collectAzureSubscription d api sub).outcome = .returned ∧
    (collectAzureSubscription d api sub).sent =
      [⟨.prometheusSubscription,
        [("resourceID", s.ID), ("subscriptionID", s.SubscriptionID),
         ("subscriptionName", s.DisplayName), ("spendingLimit", s.SpendingLimit),
         ("quotaID", s.QuotaID), ("locationPlacementID", s.LocationPlacementID)], 1⟩] ::
      rateLimitHeaders.flatMap fun h =>
        (probeProcessHeader d s.Header h.1
          [("subscriptionID", sub), ("scope", h.2.1), ("type", h.2.2)]).sent := by
  have ho := fun name labels => (probeProcessHeader_outcome d s.Header name labels).1
  simp only [collectAzureSubscription, hok]
  simp [andThen_returned, ho, Collected.send, rateLimitHeaders]

/-! ## Cycles with and without a port scanner -/

theorem withoutScanner_receiving (b : BridgePc) :
    (b.withoutScanner == BridgePc.receiving) = (b == BridgePc.receiving) := by
  cases b <;> rfl

theorem withoutScanner_idem (b : BridgePc) :
    b.withoutScanner.withoutScanner = b.withoutScanner := by
  cases b <;> rfl

theorem withoutScanner_task_enabled (s : CycleState) (t : Task) :
    t.enabled s.withoutScanner = t.enabled s := by
  rcases t with ⟨sub, kind, todo, sig⟩
  cases todo with
  | nil => rfl
  | cons a rest =>
    cases a <;>
      simp [Task.enabled, CycleState.withoutScanner, withoutScanner_receiving]

theorem withoutScanner_firePanic (s : CycleState) (i : Nat) (t : Task) :
    firePanic s.withoutScanner i t = (firePanic s i t).withoutScanner := by
  simp only [firePanic]
  split <;> rfl

theorem withoutScanner_fireTask (s : CycleState) (i : Nat) (t : Task) :
    fireTask s.withoutScanner i t = (fireTask s i t).withoutScanner := by
  rcases t with ⟨sub, kind, todo, sig⟩
  cases todo with
  | nil => rfl
  | cons a rest =>
    cases a with
    | send m =>
      simp only [fireTask]
      have hc : s.withoutScanner.callbackClosed = s.callbackClosed := rfl
      rw [hc]
      split
      · exact withoutScanner_firePanic s i _
      · rfl
    | sendIps l =>
      simp only [fireTask]
      have hc : s.withoutScanner.publicIpClosed = s.publicIpClosed := rfl
      rw [hc]
      split
      · exact withoutScanner_firePanic s i _
      · rfl
    | panic err => exact withoutScanner_firePanic s i _

theorem withoutScanner_step (s : CycleState) (g : Goroutine) :
    (step s g).withoutScanner = (step s.withoutScanner g).withoutScanner := by
  cases g with
  | task i =>
    have he : enabled s.withoutScanner (.task i) = enabled s (.task i) := by
      simp only [enabled]
      have h1 : s.withoutScanner.crashed = s.crashed := rfl
      have h2 : s.withoutScanner.tasks = s.tasks := rfl
      rw [h1, h2]
      cases s.tasks[i]? with
      | none => rfl
      | some t => simp only [withoutScanner_task_enabled]
    simp only [step, he]
    split
    · have h2 : s.withoutScanner.tasks = s.tasks := rfl
      simp only [fire, h2]
      cases s.tasks[i]? with
      | none => simp only [CycleState.withoutScanner, withoutScanner_idem]
      | some t =>
        simp only [withoutScanner_fireTask]
        simp only [CycleState.withoutScanner, withoutScanner_idem]
    · simp only [CycleState.withoutScanner, withoutScanner_idem]
  | main =>
    rcases s with ⟨p, unspawned, tasks, wg, mainPc, ipClosed, cbClosed, bridge, ipList,
      commands, agg, cbList, metrics, crashed⟩
    cases crashed <;> cases mainPc <;> cases unspawned <;> cases bridge <;>
      simp [step, enabled, fire, CycleState.withoutScanner, BridgePc.withoutScanner] <;>
      split <;> simp
  | bridge =>
    rcases s with ⟨p, unspawned, tasks, wg, mainPc, ipClosed, cbClosed, bridge, ipList,
      commands, agg, cbList, metrics, crashed⟩
    cases crashed <;> cases bridge <;> cases ipClosed <;> cases p <;>
      simp [step, enabled, fire, CycleState.withoutScanner, BridgePc.withoutScanner]
  | aggregator =>
    rcases s with ⟨p, unspawned, tasks, wg, mainPc, ipClosed, cbClosed, bridge, ipList,
      commands, agg, cbList, metrics, crashed⟩
    cases crashed <;> cases agg <;> cases cbClosed <;> cases bridge <;>
      simp [step, enabled, fire, CycleState.withoutScanner, BridgePc.withoutScanner]

theorem withoutScanner_exec :
    ∀ (schedule : List Goroutine) (s : CycleState),
      (exec s schedule).withoutScanner = (exec s.withoutScanner schedule).withoutScanner
  | [], s => by
    simp only [exec, List.foldl_nil, CycleState.withoutScanner, withoutScanner_idem]
  | g :: gs, s => by
    have h1 := withoutScanner_exec gs (step s g)
    have h2 := withoutScanner_exec gs (step s.withoutScanner g)
    simp only [exec, List.foldl_cons] at h1 h2 ⊢
    rw [h1, h2, withoutScanner_step s g]

theorem spawnList_portscan (d : Deps) (opts : Opts) (api : Api) (subs : List String)
    (b : Bool) :
    spawnList d { opts with Portscan := b } api subs = spawnList d opts api subs := rfl

theorem withoutScanner_of_absent {prior : MetricState} {toSpawn : List Task} {s : CycleState}
    (h : Inv false prior toSpawn s) : s.withoutScanner = s := by
  have hp := h.portscanner_eq
  have hb : s.bridge.withoutScanner = s.bridge := by
    have := h.scanner_on
    cases hbb : s.bridge <;> simp [hbb, hp] at this <;> rfl
  have hc : s.commands = [] := by
    have := h.commands_eq
    rw [this]
    have := h.scanner_on
    cases hbb : s.bridge <;> simp [hbb, hp, bridgeCommands] at this ⊢
  rcases s with ⟨p, unspawned, tasks, wg, mainPc, ipClosed, cbClosed, bridge, ipList,
    commands, agg, cbList, metrics, crashed⟩
  simp only [CycleState.withoutScanner] at hp hb hc ⊢
  rw [hb]
  subst hp hc
  rfl

/-- A run without a port scanner is the run with one, under the same schedule, with the
scanner left out of account. -/
theorem run_withoutScanner (d : Deps) (opts : Opts) (api : Api) (subs : List String)
    (prior : MetricState) (schedule : List Goroutine) :
    exec (runMetricsCollectionAzureRm d opts api subs false prior) schedule =
      (exec (runMetricsCollectionAzureRm d opts api subs true prior) schedule).withoutScanner := by
  rw [withoutScanner_exec schedule (runMetricsCollectionAzureRm d opts api subs true prior)]
  exact (withoutScanner_of_absent (inv_run d opts api subs false prior schedule)).symm

/-! ## The scrape loop on its clock -/

/-- After `n` iterations the loop has slept `n` times and has started the cycles `0` to
`n - 1`, each at the time its iteration began. -/
theorem scrapeLoop_state (ScrapeTime : Int) (duration : Nat → Int) (t₀ : Int) :
    ∀ n : Nat,
      (startMetricsCollectionAzureRm ScrapeTime duration t₀ n).now =
        t₀ + n * max ScrapeTime 0 ∧
      (startMetricsCollectionAzureRm ScrapeTime duration t₀ n).cycles =
        (List.range n).map fun k =>
          ⟨k, t₀ + k * max ScrapeTime 0, t₀ + k * max ScrapeTime 0 + duration k⟩
  | 0 => by simp [startMetricsCollectionAzureRm]
  | n + 1 => by
    obtain ⟨h1, h2⟩ := scrapeLoop_state ScrapeTime duration t₀ n
    simp only [startMetricsCollectionAzureRm, scrapeIteration, h1, h2, List.length_map,
      List.length_range, List.range_succ, List.map_append, List.map_cons, List.map_nil]
    refine ⟨?_, trivial⟩
    push_cast
    ring

/-! ## Matching the port range pattern -/

theorem range_digit_iff (x : Char) : ('0' ≤ x ∧ x ≤ '9') ↔ x.isDigit = true := by
  simp only [Char.isDigit, Bool.and_eq_true, decide_eq_true_eq, ge_iff_le]
  exact Iff.rfl

theorem digit_run_digit (text : List Char) (c : Char) (t : List Char)
    (caps : List (Nat × List Char)) (k : MatchState → Option MatchState)
    (hc : c.isDigit = true) :
    (Regex.range '0' '9').run text ⟨c :: t, caps⟩ k = k ⟨t, caps⟩ := by
  simp only [Regex.run]
  rw [if_pos ((range_digit_iff c).2 hc)]

theorem digit_run_none (text : List Char) (rest : List Char)
    (caps : List (Nat × List Char)) (k : MatchState → Option MatchState)
    (hr : NoDigitAhead rest) :
    (Regex.range '0' '9').run text ⟨rest, caps⟩ k = none := by
  cases rest with
  | nil => simp only [Regex.run]
  | cons c t =>
    simp only [Regex.run]
    rw [if_neg]
    intro h
    have := hr c t rfl
    rw [(range_digit_iff c).1 h] at this
    cases this

/-- Greedy repetition of `[0-9]` over a run of digits ends after the whole run when the
continuation fails on every shorter split. -/
theorem iterate_digits (text : List Char) (rest : List Char) (caps : List (Nat × List Char))
    (k : MatchState → Option MatchState) (hr : NoDigitAhead rest) (hk : FailsOnDigit k) :
    ∀ (ds : List Char) (n : Nat), ds.length ≤ n → (∀ c ∈ ds, c.isDigit = true) →
      Regex.iterate ((Regex.range '0' '9').run text) n ⟨ds ++ rest, caps⟩ k = k ⟨rest, caps⟩
  | [], 0, _, _ => rfl
  | [], n + 1, _, _ => by
    simp only [Regex.iterate, List.nil_append]
    rw [digit_run_none text rest caps _ hr]
    rfl
  | c :: ds, 0, h, _ => by simp at h
  | c :: ds, n + 1, h, hd => by
    simp only [Regex.iterate, List.cons_append]
    rw [digit_run_digit text c _ caps _ (hd c (by simp))]
    rw [iterate_digits text rest caps k hr hk ds n (by simpa using h)
      (fun x hx => hd x (by simp [hx]))]
    rw [hk c _ caps (hd c (by simp))]
    exact orElse_none _

theorem plus_digits (text : List Char) (rest : List Char) (caps : List (Nat × List Char))
    (k : MatchState → Option MatchState) (hr : NoDigitAhead rest) (hk : FailsOnDigit k)
    (ds : List Char) (hne : ds ≠ []) (hd : ∀ c ∈ ds, c.isDigit = true) :
    (Regex.plus (.range '0' '9')).run text ⟨ds ++ rest, caps⟩ k = k ⟨rest, caps⟩ := by
  cases ds with
  | nil => exact absurd rfl hne
  | cons c ds =>
    simp only [Regex.run.eq_5, List.cons_append]
    rw [digit_run_digit text c _ caps _ (hd c (by simp))]
    exact iterate_digits text rest caps k hr hk ds _ (by simp)
      (fun x hx => hd x (by simp [hx]))

theorem plus_none (text : List Char) (rest : List Char) (caps : List (Nat × List Char))
    (k : MatchState → Option MatchState) (hr : NoDigitAhead rest) :
    (Regex.plus (.range '0' '9')).run text ⟨rest, caps⟩ k = none := by
  simp only [Regex.run.eq_5]
  exact digit_run_none text rest caps _ hr

theorem tail_run_digit (text : List Char) (c : Char) (t : List Char)
    (caps : List (Nat × List Char)) (hc : c.isDigit = true) :
    (Regex.cat (.opt (.group 2 "" (.cat (.literal '-')
        (.group 3 "last" (.plus (.range '0' '9')))))) .endText).run text ⟨c :: t, caps⟩ some =
      none := by
  have hne : c ≠ '-' := by
    rintro rfl
    revert hc
    decide
  simp [Regex.run, hne]

theorem tail_run_nil (text : List Char) (caps : List (Nat × List Char)) :
    (Regex.cat (.opt (.group 2 "" (.cat (.literal '-')
        (.group 3 "last" (.plus (.range '0' '9')))))) .endText).run text ⟨[], caps⟩ some =
      some ⟨[], caps⟩ := by
  simp [Regex.run]

theorem tail_run_other (text : List Char) (x : Char) (xs : List Char)
    (caps : List (Nat × List Char)) (hx : x ≠ '-') :
    (Regex.cat (.opt (.group 2 "" (.cat (.literal '-')
        (.group 3 "last" (.plus (.range '0' '9')))))) .endText).run text ⟨x :: xs, caps⟩ some =
      none := by
  simp [Regex.run, hx]

theorem tail_run_dash (text : List Char) (ds₂ rest₂ : List Char)
    (caps : List (Nat × List Char)) (hd : ∀ c ∈ ds₂, c.isDigit = true)
    (hr : NoDigitAhead rest₂) :
    (Regex.cat (.opt (.group 2 "" (.cat (.literal '-')
        (.group 3 "last" (.plus (.range '0' '9')))))) .endText).run text
        ⟨'-' :: (ds₂ ++ rest₂), caps⟩ some =
      if ds₂ ≠ [] ∧ rest₂ = [] then some ⟨[], (2, '-' :: ds₂) :: (3, ds₂) :: caps⟩
      else none := by
  simp only [Regex.run.eq_8, Regex.run.eq_6, Regex.run.eq_7, Regex.run.eq_3, Regex.run.eq_2]
  rw [if_pos trivial]
  by_cases hne : ds₂ = []
  · subst hne
    rw [List.nil_append, plus_none text rest₂ caps _ hr]
    simp
  · have hk : FailsOnDigit fun p' : MatchState =>
        if p'.rest = [] then
          some
            { rest := p'.rest,
              caps :=
                (2, List.take (('-' :: (ds₂ ++ rest₂)).length - p'.rest.length)
                    ('-' :: (ds₂ ++ rest₂))) ::
                  (3, List.take ((ds₂ ++ rest₂).length - p'.rest.length) (ds₂ ++ rest₂)) ::
                    p'.caps }
        else none := by
      intro c t caps' _
      simp
    rw [plus_digits text rest₂ caps _ hr hk ds₂ hne hd]
    by_cases hr₂ : rest₂ = []
    · subst hr₂
      simp [hne]
    · simp [hne, hr₂]

/-- The pattern at offset zero: a leading run of digits, then what follows the first group. -/
theorem portrange_run (ds rest : List Char) (hd : ∀ c ∈ ds, c.isDigit = true)
    (hr : NoDigitAhead rest) :
    portrangeRegexp.run (ds ++ rest) ⟨ds ++ rest, []⟩ some =
      if ds = [] then none
      else
        (Regex.cat (.opt (.group 2 "" (.cat (.literal '-')
          (.group 3 "last" (.plus (.range '0' '9')))))) .endText).run (ds ++ rest)
          ⟨rest, [(1, ds)]⟩ some := by
  rw [portrangeRegexp, Regex.run.eq_8, Regex.run.eq_1, if_pos rfl, Regex.run.eq_8,
    Regex.run.eq_7]
  by_cases hne : ds = []
  · subst hne
    rw [if_pos rfl, List.nil_append, plus_none _ rest [] _ hr]
  · rw [if_neg hne]
    have hk : FailsOnDigit fun p' : MatchState =>
        (Regex.cat (.opt (.group 2 "" (.cat (.literal '-')
          (.group 3 "last" (.plus (.range '0' '9')))))) .endText).run (ds ++ rest)
          { p' with caps := (1, (ds ++ rest).take ((ds ++ rest).length - p'.rest.length)) ::
            p'.caps } some := by
      intro c t caps hc
      exact tail_run_digit _ c t _ hc
    rw [plus_digits _ rest [] _ hr hk ds hne hd]
    simp

theorem findFrom_suffix (text : List Char) :
    ∀ t : List Char, t.length < text.length → portrangeRegexp.findFrom text t = none
  | [], h => by
    have : ¬ (0 = text.length) := by simp at h; omega
    simp [Regex.findFrom, portrangeRegexp, Regex.run.eq_8, Regex.run.eq_1, this]
  | x :: xs, h => by
    have h1 : ¬ (xs.length + 1 = text.length) := by simp at h; omega
    have h2 := findFrom_suffix text xs (by simp at h ⊢; omega)
    simp [Regex.findFrom, portrangeRegexp, Regex.run.eq_8, Regex.run.eq_1, h1] at h2 ⊢
    exact h2

/-- The search finds a match at offset zero or nowhere, because the pattern starts with `^`. -/
theorem findFrom_eq_run (text : List Char) :
    portrangeRegexp.findFrom text text = portrangeRegexp.run text ⟨text, []⟩ some := by
  cases text with
  | nil => rfl
  | cons x xs =>
    rw [Regex.findFrom, findFrom_suffix (x :: xs) xs (by simp)]
    exact orElse_none _

theorem noDigitAhead_dropWhile (l : List Char) : NoDigitAhead (l.dropWhile Char.isDigit) := by
  intro c t h
  have := List.head?_dropWhile_not Char.isDigit l
  rw [h] at this
  simpa using this

theorem noDigitAhead_dash (l : List Char) : NoDigitAhead ('-' :: l) := by
  intro c t h
  simp only [List.cons.injEq] at h
  rw [← h.1]
  decide

theorem noDigitAhead_nil : NoDigitAhead [] := by
  intro c t h
  cases h

/-! ## The claims -/

/-- C1 refuted on the example cycle with a failing virtual machine listing and a port
scanner present. The VM task panics. When the runtime ends the process right after the
task's deferred `wg.Done()`, the cycle is at rest and the bridge has called nothing; when
it ends the process after the barrier has been passed and the bridge has made its first
call, the cycle is at rest with `SetIps` as the only call. -/
theorem panic_cuts_scanner_calls_short :
    vmFailingCycleEnd.portscanner = true ∧ atRest vmFailingCycleEnd = true ∧
      vmFailingCycleEnd.crashed = true ∧ vmFailingCycleEnd.commands = [] ∧
      vmFailingLateEnd.portscanner = true ∧ atRest vmFailingLateEnd = true ∧
      vmFailingLateEnd.crashed = true ∧ vmFailingLateEnd.publicIpClosed = true ∧
      vmFailingLateEnd.commands = [.SetIps ["1.2.3.4"]] := by
  refine ⟨by decide, by decide, by decide, by decide, by decide, by decide, by decide,
    by decide, by decide⟩

/-- C1 as amended. With a port scanner present, in every state a cycle can reach the calls
made on the scanner are an initial part of `SetIps(collected list)`, `Cleanup()`,
`Enable()`, and a call has been made only when the public IP channel is closed, the wait
group counter is zero and every one of the cycle's tasks has been spawned and has signalled,
with nothing left to do or at its panic. A cycle at rest in which the process has not ended
has made exactly the three calls. A cycle none of whose tasks panics never ends the
process; a cycle in which a task panics comes to rest only by the end of the process.
Letting the first goroutine that can move do so brings the cycle to rest. -/
theorem bridge_issues_setIps_cleanup_enable (d : Deps) (opts : Opts) (api : Api)
    (AzureSubscriptions : List String) (prior : MetricState) :
    (∀ schedule : List Goroutine,
      let s := exec (runMetricsCollectionAzureRm d opts api AzureSubscriptions true prior) schedule
      s.commands <+: [.SetIps s.publicIpList, .Cleanup, .Enable] ∧
      (s.commands ≠ [] →
        s.publicIpClosed = true ∧ s.wg = 0 ∧
          s.tasks.length = spawnCount opts AzureSubscriptions ∧
          ∀ t ∈ s.tasks, t.signals = 1 ∧ (t.todo = [] ∨ ∃ err, t.todo = [.panic err])) ∧
      (atRest s = true → s.crashed = false →
        s.commands = [.SetIps s.publicIpList, .Cleanup, .Enable] ∧
          ∀ t ∈ s.tasks, t.signals = 1 ∧ t.todo = []) ∧
      ((∀ t ∈ spawnList d opts api AzureSubscriptions, ∀ err, Action.panic err ∉ t.todo) →
        s.crashed = false) ∧
      ((∃ t ∈ spawnList d opts api AzureSubscriptions, ∃ err, Action.panic err ∈ t.todo) →
        atRest s = true → s.crashed = true)) ∧
    (let s₀ := runMetricsCollectionAzureRm d opts api AzureSubscriptions true prior
     atRest (exec s₀ (firstEnabledSchedule (fuel s₀) s₀)) = true) := by
  refine ⟨fun schedule => ?_, firstEnabledSchedule_rest _ _ (Nat.le_refl _)⟩
  have hno := run_noPanic d opts api AzureSubscriptions true prior schedule
  have hpanic := run_crashed_of_rest d opts api AzureSubscriptions true prior schedule
  have h := inv_run d opts api AzureSubscriptions true prior schedule
  generalize exec _ schedule = s at h hno hpanic
  have hcmd := h.commands_eq
  have hp := h.portscanner_eq
  refine ⟨?_, ?_, ?_, fun hn => (hno hn).1, hpanic⟩
  · rw [hcmd]
    cases hb : s.bridge <;> simp [bridgeCommands, hb, hp, List.prefix_iff_eq_take]
  · intro hne
    have hcl : s.publicIpClosed = true := by
      apply h.bridge_after <;> intro hb <;> simp [hcmd, bridgeCommands, hb] at hne
    obtain ⟨hw, _, hlen, _, hall⟩ := joined_of_closed h (Or.inl hcl)
    exact ⟨hcl, hw, by rw [hlen, spawnList_length], hall⟩
  · intro hr hc
    obtain ⟨_, hb, _⟩ := rest_finished h hr hc
    exact ⟨by simp [hcmd, bridgeCommands, hb, hp], rest_done h hr hc⟩

/-- C1 as amended, on the example cycle: its run to rest ends with the three calls. -/
theorem bridge_issues_setIps_cleanup_enable_witness :
    (exec (exampleCycle MetricState.empty) exampleSchedule).commands =
      [.SetIps ["1.2.3.4"], .Cleanup, .Enable] :=
  (((bridge_issues_setIps_cleanup_enable exampleDeps exampleOpts exampleApi ["sub"]
    MetricState.empty).1 exampleSchedule).2.2.1 (by decide) (by decide)).1

/-- C2. The aggregator resets each of the fourteen registered families before the replay:
whatever the state before, the state after aggregation is the replay of the cycle's
mutations on the empty state, and a pair it holds was set by a mutation of this cycle. -/
theorem aggregate_resets_then_replays (prior : MetricState) (callbackList : List Mutation) :
    registeredFamilies.length = 14 ∧
    (∀ f : Family, f ∈ registeredFamilies ∧ f ∈ aggregatorResets) ∧
    aggregatorResets.foldl MetricState.reset prior = MetricState.empty ∧
    aggregate prior callbackList = MetricState.empty.replay callbackList ∧
    ∀ (f : Family) (l : Labels) (v : GaugeValue),
      aggregate prior callbackList f l = some v →
        ∃ m ∈ callbackList, (⟨f, l, v⟩ : SetOp) ∈ m := by
  refine ⟨rfl, ?_, reset_all prior, aggregate_eq prior callbackList, ?_⟩
  · intro f
    cases f <;> simp [registeredFamilies, aggregatorResets]
  · intro f l v h
    rw [aggregate_eq] at h
    rcases replay_some f l v callbackList MetricState.empty h with h1 | h1
    · simp [MetricState.empty] at h1
    · exact h1

/-- C3. When the aggregator of a cycle has run, the callbacks it replayed are, up to
order, exactly the mutations emitted by the tasks of that cycle, each once, and the metric
state is the result of aggregating them on the state before the cycle. Every task has then
signalled; when none of the cycle's tasks panics the process has not ended and every task
has completed. -/
theorem aggregator_replays_emitted (d : Deps) (opts : Opts) (api : Api)
    (AzureSubscriptions : List String) (portscanner : Bool) (prior : MetricState)
    (schedule : List Goroutine)
    (hfin : (exec (runMetricsCollectionAzureRm d opts api AzureSubscriptions portscanner prior)
      schedule).aggregator = .finished) :
    let s := exec (runMetricsCollectionAzureRm d opts api AzureSubscriptions portscanner prior)
      schedule
    s.callbackList.Perm (emittedMutations d opts api AzureSubscriptions) ∧
      s.metrics = aggregate prior s.callbackList ∧
      (∀ t ∈ s.tasks, t.signals = 1 ∧ (t.todo = [] ∨ ∃ err, t.todo = [.panic err])) ∧
      ((∀ t ∈ spawnList d opts api AzureSubscriptions, ∀ err, Action.panic err ∉ t.todo) →
        s.crashed = false ∧ ∀ t ∈ s.tasks, t.todo = []) := by
  intro s
  have h := inv_run d opts api AzureSubscriptions portscanner prior schedule
  have hcl := h.agg_after hfin
  obtain ⟨_, _, _, _, hall⟩ := joined_of_closed h (Or.inr hcl)
  refine ⟨?_, ?_, hall, fun hno => ?_⟩
  · rw [← pendingSends_spawnList]
    exact (collected_of_closed h (Or.inr hcl)).1
  · have := h.metrics_eq
    rw [if_pos hfin] at this
    exact this
  · obtain ⟨hc, hnp⟩ := run_noPanic d opts api AzureSubscriptions portscanner prior schedule hno
    refine ⟨hc, fun t ht => ?_⟩
    rcases (hall t ht).2 with h0 | ⟨err, h0⟩
    · exact h0
    · exact absurd (by simp [h0]) (hnp t (List.mem_append_left _ ht) err)

/-- C3 on the example cycle, whose aggregator has run at the end of the example schedule. -/
theorem aggregator_replays_emitted_witness :
    (exec (exampleCycle MetricState.empty) exampleSchedule).callbackList.Perm
      (emittedMutations exampleDeps exampleOpts exampleApi ["sub"]) :=
  (aggregator_replays_emitted exampleDeps exampleOpts exampleApi ["sub"] true
    MetricState.empty exampleSchedule (by decide)).1

/-- C4 refuted on the example cycle: the compliance tasks of the two locations emit a
mutation for the same family and label set with the values 10 and 20; under the two
schedules the aggregator replays permutations of the same mutations and ends with 20 in
one run and 10 in the other. -/
theorem replay_order_matters_for_compliance :
    (exec (exampleCycle MetricState.empty) exampleSchedule).callbackList.Perm
        (emittedMutations exampleDeps exampleOpts exampleApi ["sub"]) ∧
      (exec (exampleCycle MetricState.empty) exampleScheduleSwapped).callbackList.Perm
        (emittedMutations exampleDeps exampleOpts exampleApi ["sub"]) ∧
      (exec (exampleCycle MetricState.empty) exampleSchedule).metrics
        .prometheusSecuritycenterCompliance
        [("subscriptionID", "sub"), ("assessmentType", "x")] = some 20 ∧
      (exec (exampleCycle MetricState.empty) exampleScheduleSwapped).metrics
        .prometheusSecuritycenterCompliance
        [("subscriptionID", "sub"), ("assessmentType", "x")] = some 10 ∧
      ¬ DistinctKeys (emittedMutations exampleDeps exampleOpts exampleApi ["sub"]) := by
  have h₁ := inv_run exampleDeps exampleOpts exampleApi ["sub"] true MetricState.empty
    exampleSchedule
  have h₂ := inv_run exampleDeps exampleOpts exampleApi ["sub"] true MetricState.empty
    exampleScheduleSwapped
  refine ⟨?_, ?_, by decide, by decide, ?_⟩
  · rw [← pendingSends_spawnList]
    exact (collected_of_closed h₁ (Or.inr (by decide))).1
  · rw [← pendingSends_spawnList]
    exact (collected_of_closed h₂ (Or.inr (by decide))).1
  · unfold DistinctKeys
    decide

/-- C4 as amended. If the mutations of a cycle are keyed by distinct label sets within
each family, then for every permutation of the mutation list the aggregator ends in the
same metric state. -/
theorem aggregate_perm_of_distinct_keys (prior : MetricState) (l₁ l₂ : List Mutation)
    (hd : DistinctKeys l₁) (hp : l₁.Perm l₂) :
    aggregate prior l₁ = aggregate prior l₂ := by
  simp only [aggregate]
  exact replay_perm _ l₁ l₂ hp (consistent_of_distinct l₁ hd)

/-- C4 as amended, on the mutations of the single-location example cycle, which have
distinct keys, replayed in spawn order and in the opposite order. -/
theorem aggregate_perm_of_distinct_keys_witness :
    aggregate stalePrior (emittedMutations exampleDeps singleLocationOpts exampleApi ["sub"]) =
      aggregate stalePrior
        (emittedMutations exampleDeps singleLocationOpts exampleApi ["sub"]).reverse :=
  aggregate_perm_of_distinct_keys stalePrior _ _ (by decide) (List.reverse_perm _).symm

/-- C5 refuted on the single-location example: the compliance call fails, its task logs
and returns without a mutation, the others complete; the pair the compliance family held
before the cycle is gone after the aggregation. -/
theorem degraded_family_loses_prior_values :
    collectAzureSecurityCompliance degradedApi "sub" "westeurope" =
        ⟨[], [⟨"subscription[sub]", "unavailable"⟩], .returned⟩ ∧
      atRest degradedCycleEnd = true ∧ degradedCycleEnd.crashed = false ∧
      degradedCycleEnd.aggregator = .finished ∧
      stalePrior .prometheusSecuritycenterCompliance
        [("subscriptionID", "sub"), ("assessmentType", "x")] = some 50 ∧
      degradedCycleEnd.metrics .prometheusSecuritycenterCompliance
        [("subscriptionID", "sub"), ("assessmentType", "x")] = none ∧
      degradedCycleEnd.metrics .prometheusSubscription
        [("resourceID", "id"), ("subscriptionID", "sub"), ("subscriptionName", "name"),
         ("spendingLimit", "On"), ("quotaID", "quota"),
         ("locationPlacementID", "placement")] = some 1 := by
  refine ⟨by decide, by decide, by decide, by decide, by decide, by decide, by decide⟩

/-- C5 as amended. After the aggregation of a cycle every family holds the pairs set by
the mutations of this cycle and no other: a task whose compliance call failed emitted
none, a family no mutation of the cycle addresses is empty whatever it held before, and
with distinct keys every emitted `Set` statement is reflected in the state. -/
theorem degraded_family_is_reset (d : Deps) (opts : Opts) (api : Api)
    (AzureSubscriptions : List String) (portscanner : Bool) (prior : MetricState)
    (schedule : List Goroutine)
    (hfin : (exec (runMetricsCollectionAzureRm d opts api AzureSubscriptions portscanner prior)
      schedule).aggregator = .finished) :
    let s := exec (runMetricsCollectionAzureRm d opts api AzureSubscriptions portscanner prior)
      schedule
    (∀ sub location err, api.compliancesGet sub location = .error err →
      sentBy d opts api sub (.securityCompliance location) = []) ∧
    s.metrics = MetricState.empty.replay s.callbackList ∧
    (∀ f l v, s.metrics f l = some v →
      ∃ m ∈ emittedMutations d opts api AzureSubscriptions, (⟨f, l, v⟩ : SetOp) ∈ m) ∧
    (∀ f, (∀ m ∈ emittedMutations d opts api AzureSubscriptions, ∀ op ∈ m, op.family ≠ f) →
      ∀ l, s.metrics f l = none) ∧
    (DistinctKeys (emittedMutations d opts api AzureSubscriptions) →
      ∀ m ∈ emittedMutations d opts api AzureSubscriptions, ∀ op ∈ m,
        s.metrics op.family op.labels = some op.value) := by
  intro s
  have h := inv_run d opts api AzureSubscriptions portscanner prior schedule
  have hcl := h.agg_after hfin
  have hperm : s.callbackList.Perm (emittedMutations d opts api AzureSubscriptions) := by
    rw [← pendingSends_spawnList]
    exact (collected_of_closed h (Or.inr hcl)).1
  have hmet : s.metrics = MetricState.empty.replay s.callbackList := by
    have := h.metrics_eq
    rw [if_pos hfin, aggregate_eq] at this
    exact this
  have hsome : ∀ f l v, s.metrics f l = some v →
      ∃ m ∈ emittedMutations d opts api AzureSubscriptions, (⟨f, l, v⟩ : SetOp) ∈ m := by
    intro f l v hv
    rw [hmet] at hv
    rcases replay_some f l v _ _ hv with h1 | ⟨m, hm, hop⟩
    · simp [MetricState.empty] at h1
    · exact ⟨m, hperm.mem_iff.1 hm, hop⟩
  refine ⟨?_, hmet, hsome, ?_, ?_⟩
  · intro sub location err herr
    simp [sentBy, collectAzureSecurityCompliance, herr, Collected.log]
  · intro f hf l
    cases hv : s.metrics f l with
    | none => rfl
    | some v =>
      obtain ⟨m, hm, hop⟩ := hsome f l v hv
      exact absurd rfl (hf m hm _ hop)
  · intro hd m hm op hop
    have hd' : DistinctKeys s.callbackList :=
      (List.Perm.nodup_iff ((hperm.flatten).map SetOp.key)).2 hd
    rw [hmet, replay_eq_foldl]
    exact foldl_set_mem _ _ (consistent_of_distinct _ hd') op
      (List.mem_flatten.2 ⟨m, hperm.mem_iff.2 hm, hop⟩)

/-- C5 as amended, on the single-location example: the compliance family ends empty. -/
theorem degraded_family_is_reset_witness :
    degradedCycleEnd.metrics .prometheusSecuritycenterCompliance
      [("subscriptionID", "sub"), ("assessmentType", "x")] = none :=
  (degraded_family_is_reset exampleDeps singleLocationOpts degradedApi ["sub"] true stalePrior
    degradedSchedule (by decide)).2.2.2.1 .prometheusSecuritycenterCompliance (by decide)
    [("subscriptionID", "sub"), ("assessmentType", "x")]

/-- C6 refuted on the example cycle with a failing virtual machine listing: the VM
collector panics without logging, and the cycle comes to rest by the end of the process,
before the aggregator has run. And on a listing whose `Next()` fails the VM collector
returns without logging, having sent the mutation of the machine it visited. -/
theorem vm_listing_error_panics :
    collectAzureVm exampleDeps exampleOpts vmFailingApi "sub" = ⟨[], [], .panicked "boom"⟩ ∧
      vmFailingCycleEnd.crashed = true ∧ atRest vmFailingCycleEnd = true ∧
      vmFailingCycleEnd.aggregator = .receiving ∧
      (collectAzureVm exampleDeps exampleOpts nextFailingApi "sub").outcome = .returned ∧
      (collectAzureVm exampleDeps exampleOpts nextFailingApi "sub").logged = [] ∧
      (collectAzureVm exampleDeps exampleOpts nextFailingApi "sub").sent.length = 1 := by
  refine ⟨by decide, by decide, by decide, by decide, by decide, by decide, by decide⟩

/-- C6 as amended. Only the security compliance collector logs the error of its API call
and returns without a mutation. The subscription, resource group, virtual machine, public
IP, container registry listing and advisor collectors panic with the error of their call,
the compute and storage usage collectors panic when the call for some location fails, all
without logging. The error of a registry's usage call is logged and the collector goes on
to send that registry's mutation, for every registry of the listing. An error of `Next()`
ends the loop of the VM and registry collectors like the end of the listing: they return
without a log entry for it, having sent the mutations of the values visited. A panic is
not recovered: the panicking task's deferred `wg.Done()` runs with the process alive, its
next move ends the process, after which nothing moves, and a cycle with a panicking task
comes to rest only by the end of the process. -/
theorem collectors_on_api_error (d : Deps) (opts : Opts) (api : Api) (sub : String) :
    (∀ location err, api.compliancesGet sub location = .error err →
      collectAzureSecurityCompliance api sub location =
        ⟨[], [⟨"subscription[" ++ sub ++ "]", err⟩], .returned⟩) ∧
    (∀ err, api.subscriptionsGet sub = .error err →
      collectAzureSubscription d api sub = ⟨[], [], .panicked err⟩) ∧
    (∀ err, api.groupsListComplete sub = .error err →
      collectAzureResourceGroup d opts api sub = ⟨[], [], .panicked err⟩) ∧
    (∀ err, api.virtualMachinesListAllComplete sub = .error err →
      collectAzureVm d opts api sub = ⟨[], [], .panicked err⟩) ∧
    (∀ err, api.publicIPAddressesListAll sub = .error err →
      (collectAzurePublicIp d opts api sub).1 = ⟨[], [], .panicked err⟩) ∧
    (∀ err, api.registriesListComplete sub = .error err →
      collectAzureContainerRegistries d opts api sub = ⟨[], [], .panicked err⟩) ∧
    (∀ err, api.recommendationsListComplete sub = .error err →
      collectAzureAdvisorRecommendations d api sub = ⟨[], [], .panicked err⟩) ∧
    ((∃ location ∈ opts.AzureLocation, ∃ err, api.computeUsageList sub location = .error err) →
      (∃ err, (collectAzureComputeUsage opts api sub).outcome = .panicked err) ∧
        (collectAzureComputeUsage opts api sub).logged = []) ∧
    ((∃ location ∈ opts.AzureLocation, ∃ err, api.storageUsageList sub location = .error err) →
      (∃ err, (collectAzureStorageUsage opts api sub).outcome = .panicked err) ∧
        (collectAzureStorageUsage opts api sub).logged = []) ∧
    (∀ it : Iterator Registry, api.registriesListComplete sub = .ok it →
      collectAzureContainerRegistries d opts api sub =
          ⟨it.visited.map (registryMutation d opts api sub),
            it.visited.flatMap (registryUsageLog d api sub), .returned⟩ ∧
        collectAzureContainerRegistries d opts api sub =
          collectAzureContainerRegistries d opts
            { api with registriesListComplete := fun _ => .ok (Iterator.ofList it.visited) }
            sub) ∧
    (∀ (val : Registry) (usages : Option (List RegistryUsage)) (err : String),
      api.registriesListUsages sub (d.extractResourceGroupFromAzureId val.ID) val.Name =
        (usages, some err) →
      registryUsageLog d api sub val =
          [⟨"subscription[" ++ sub ++ "]: unable to fetch ACR usage for " ++ val.Name, err⟩] ∧
        ∃ labels, (registryMutation d opts api sub val).head? =
          some ⟨.prometheusContainerRegistry, labels, 1⟩) ∧
    (∀ it : Iterator VirtualMachine, api.virtualMachinesListAllComplete sub = .ok it →
      (collectAzureVm d opts api sub).outcome = .returned ∧
        (collectAzureVm d opts api sub).logged = [] ∧
        (collectAzureVm d opts api sub).sent.length = it.visited.length ∧
        collectAzureVm d opts api sub =
          collectAzureVm d opts
            { api with
              virtualMachinesListAllComplete := fun _ => .ok (Iterator.ofList it.visited) }
            sub) ∧
    (∀ (s : CycleState) (i : Nat) (t : Task) (err : String) (rest : List Action),
      s.crashed = false → s.tasks[i]? = some t → t.todo = .panic err :: rest →
        enabled s (.task i) = true ∧
        (t.signals = 0 →
          (step s (.task i)).crashed = false ∧ (step s (.task i)).wg = s.wg - 1 ∧
            (step s (.task i)).tasks = s.tasks.set i { t with signals := 1 }) ∧
        (t.signals ≠ 0 →
          (step s (.task i)).crashed = true ∧ ∀ g, enabled (step s (.task i)) g = false)) ∧
    (∀ kind ∈ spawnedKinds opts, ∀ err, Action.panic err ∈ taskBody d opts api sub kind →
      ∀ (AzureSubscriptions : List String) (portscanner : Bool) (prior : MetricState)
        (schedule : List Goroutine), sub ∈ AzureSubscriptions →
        atRest (exec (runMetricsCollectionAzureRm d opts api AzureSubscriptions portscanner
          prior) schedule) = true →
        (exec (runMetricsCollectionAzureRm d opts api AzureSubscriptions portscanner prior)
          schedule).crashed = true) ∧
    (∀ err, api.virtualMachinesListAllComplete sub = .error err →
      ∀ (AzureSubscriptions : List String) (portscanner : Bool) (prior : MetricState)
        (schedule : List Goroutine), sub ∈ AzureSubscriptions →
        atRest (exec (runMetricsCollectionAzureRm d opts api AzureSubscriptions portscanner
          prior) schedule) = true →
        (exec (runMetricsCollectionAzureRm d opts api AzureSubscriptions portscanner prior)
          schedule).crashed = true) := by
  have hcycle : ∀ kind ∈ spawnedKinds opts, ∀ err,
      Action.panic err ∈ taskBody d opts api sub kind →
      ∀ (AzureSubscriptions : List String) (portscanner : Bool) (prior : MetricState)
        (schedule : List Goroutine), sub ∈ AzureSubscriptions →
        atRest (exec (runMetricsCollectionAzureRm d opts api AzureSubscriptions portscanner
          prior) schedule) = true →
        (exec (runMetricsCollectionAzureRm d opts api AzureSubscriptions portscanner prior)
          schedule).crashed = true := by
    intro kind hk err hmem subs p prior schedule hsub hr
    refine run_crashed_of_rest d opts api subs p prior schedule ?_ hr
    refine ⟨⟨sub, kind, taskBody d opts api sub kind, 0⟩, ?_, err, hmem⟩
    simp only [spawnList, List.mem_flatMap, List.mem_map]
    exact ⟨sub, hsub, kind, hk, rfl⟩
  refine ⟨?_, ?_, ?_, ?_, ?_, ?_, ?_, ?_, ?_, ?_, ?_, ?_, ?_, hcycle, ?_⟩
  · intro location err h
    simp [collectAzureSecurityCompliance, h, Collected.log]
  · intro err h
    simp [collectAzureSubscription, h, Collected.panic]
  · intro err h
    simp [collectAzureResourceGroup, h, Collected.panic]
  · intro err h
    simp [collectAzureVm, h, Collected.panic]
  · intro err h
    simp [collectAzurePublicIp, h, Collected.panic]
  · intro err h
    simp [collectAzureContainerRegistries, h, Collected.panic]
  · intro err h
    simp [collectAzureAdvisorRecommendations, h, Collected.panic]
  · rintro ⟨location, hl, err, h⟩
    refine forEach_panics _ ?_ _ ⟨location, hl, err, by simp [h, Collected.panic]⟩
    intro x
    cases hx : api.computeUsageList sub x <;> simp [Collected.panic, forEach_send]
  · rintro ⟨location, hl, err, h⟩
    refine forEach_panics _ ?_ _ ⟨location, hl, err, by simp [h, Collected.panic]⟩
    intro x
    cases hx : api.storageUsageList sub x <;> simp [Collected.panic, forEach_send]
  · intro it h
    refine ⟨collectAzureContainerRegistries_ok d opts api sub it h, ?_⟩
    rw [collectAzureContainerRegistries_ok d opts api sub it h,
      collectAzureContainerRegistries_ok d opts _ sub (Iterator.ofList it.visited) rfl,
      visited_ofList]
    rfl
  · intro val usages err h
    exact ⟨by simp [registryUsageLog, h], ⟨_, rfl⟩⟩
  · intro it h
    obtain ⟨h1, h2, h3⟩ := collectAzureVm_ok d opts api sub it h
    refine ⟨h1, h2, h3, ?_⟩
    simp only [collectAzureVm, h, forIterator_eq_forEach, visited_ofList]
  · intro s i t err rest hc hi ht
    have he : enabled s (.task i) = true := by simp [enabled, hc, hi, Task.enabled, ht]
    refine ⟨he, fun h0 => ?_, fun h1 => ?_⟩
    · simp [step, he, fire, hi, fireTask, ht, firePanic, h0, hc]
    · have hcr : (step s (.task i)).crashed = true := by
        simp [step, he, fire, hi, fireTask, ht, firePanic, h1]
      exact ⟨hcr, fun g => by simp [enabled, hcr]⟩
  · intro err h subs p prior schedule hsub hr
    refine hcycle .vm (by simp [spawnedKinds]) err ?_ subs p prior schedule hsub hr
    simp only [taskBody]
    exact panic_mem_actions _ _ (by simp [collectAzureVm, h, Collected.panic])

/-- C6 as amended, on the example API with a failing compliance call. -/
theorem collectors_on_api_error_witness :
    collectAzureSecurityCompliance degradedApi "sub" "westeurope" =
      ⟨[], [⟨"subscription[" ++ "sub" ++ "]", "unavailable"⟩], .returned⟩ :=
  (collectors_on_api_error exampleDeps exampleOpts degradedApi "sub").1 "westeurope"
    "unavailable" rfl

/-- C7. The list handed to `SetIps` holds, up to order, the allocated addresses of the
public IP resources reported to the public IP tasks of the cycle's subscriptions, one
entry per such resource and none for a resource without an address: an address is in the
list exactly when some reported resource carries it, and the placeholder `not allocated`
is not in it unless the API reports that very string as an address. -/
theorem setIps_receives_allocated_addresses (d : Deps) (opts : Opts) (api : Api)
    (AzureSubscriptions : List String) (prior : MetricState) (schedule : List Goroutine)
    (ips : List String)
    (hset : ScannerCmd.SetIps ips ∈
      (exec (runMetricsCollectionAzureRm d opts api AzureSubscriptions true prior)
        schedule).commands) :
    ips.Perm (AzureSubscriptions.flatMap (reportedAddresses api)) ∧
    (∀ a : String, a ∈ ips ↔
      ∃ sub ∈ AzureSubscriptions, ∃ list, api.publicIPAddressesListAll sub = .ok list ∧
        ∃ r ∈ list, r.IPAddress = some a) ∧
    ((∀ sub ∈ AzureSubscriptions, ∀ list, api.publicIPAddressesListAll sub = .ok list →
        ∀ r ∈ list, r.IPAddress ≠ some "not allocated") →
      "not allocated" ∉ ips) := by
  have h := inv_run d opts api AzureSubscriptions true prior schedule
  generalize exec _ schedule = s at h hset
  have hcmd := h.commands_eq
  have hips : ips = s.publicIpList ∧ s.publicIpClosed = true := by
    rw [hcmd] at hset
    have hcl : s.bridge ≠ .notStarted → s.bridge ≠ .receiving → s.publicIpClosed = true :=
      h.bridge_after
    cases hb : s.bridge <;> simp [bridgeCommands, hb] at hset hcl
    · exact ⟨hset, hcl⟩
    · exact ⟨hset, hcl⟩
    · cases hp : s.portscanner <;> simp [hp] at hset
      exact ⟨hset, hcl⟩
  obtain ⟨rfl, hcl⟩ := hips
  have hperm : s.publicIpList.Perm (AzureSubscriptions.flatMap (reportedAddresses api)) := by
    rw [← pendingIps_spawnList d opts api]
    exact (collected_of_closed h (Or.inl hcl)).2
  have hiff : ∀ a : String, a ∈ s.publicIpList ↔
      ∃ sub ∈ AzureSubscriptions, ∃ list, api.publicIPAddressesListAll sub = .ok list ∧
        ∃ r ∈ list, r.IPAddress = some a := by
    intro a
    rw [hperm.mem_iff]
    simp only [List.mem_flatMap, reportedAddresses]
    constructor
    · rintro ⟨sub, hsub, ha⟩
      cases hr : api.publicIPAddressesListAll sub with
      | error err => simp [hr] at ha
      | ok list =>
        simp only [hr, List.mem_filterMap] at ha
        exact ⟨sub, hsub, list, hr, ha⟩
    · rintro ⟨sub, hsub, list, hr, r, hrm, hra⟩
      exact ⟨sub, hsub, by simpa [hr, List.mem_filterMap] using ⟨r, hrm, hra⟩⟩
  refine ⟨hperm, hiff, fun hno hmem => ?_⟩
  obtain ⟨sub, hsub, list, hr, r, hrm, hra⟩ := (hiff _).1 hmem
  exact hno sub hsub list hr r hrm hra

/-- C7 on the example cycle: the only allocated address is handed over, the resource
without an address contributes nothing. -/
theorem setIps_receives_allocated_addresses_witness :
    ["1.2.3.4"].Perm (["sub"].flatMap (reportedAddresses exampleApi)) :=
  (setIps_receives_allocated_addresses exampleDeps exampleOpts exampleApi ["sub"]
    MetricState.empty exampleSchedule ["1.2.3.4"] (by decide)).1

/-- C8 refuted on the example cycle with a failing virtual machine listing: the panic of
the VM task has ended the process, the cycle is at rest with all eleven tasks spawned, and
eight of them have not signalled and never will. -/
theorem panic_leaves_tasks_unsignalled :
    atRest vmFailingCycleEnd = true ∧ vmFailingCycleEnd.tasks.length = 1 * (9 + 2) ∧
      vmFailingCycleEnd.tasks.map Task.signals = [1, 1, 1, 0, 0, 0, 0, 0, 0, 0, 0] ∧
      signalsObserved vmFailingCycleEnd = 3 ∧ vmFailingCycleEnd.wg = 8 ∧
      vmFailingCycleEnd.publicIpClosed = false ∧
      vmFailingCycleEnd.callbackClosed = false := by
  refine ⟨by decide, by decide, by decide, by decide, by decide, by decide, by decide⟩

/-- C8 as amended. A cycle has `|subscriptions| * (9 + |locations|)` tasks to spawn. In
every state it can reach the wait group counter is the number of spawned tasks less the
completion signals observed, no task has signalled more than once, and while a channel is
closed every task of the cycle has been spawned and has signalled exactly once. In a cycle
at rest in which the process has not ended both channels are closed, so every task has
signalled exactly once; this is the end of every cycle none of whose tasks panics, while a
cycle in which a task panics comes to rest only by the end of the process. -/
theorem join_barrier_counts_every_task (d : Deps) (opts : Opts) (api : Api)
    (AzureSubscriptions : List String) (portscanner : Bool) (prior : MetricState) :
    (spawnList d opts api AzureSubscriptions).length =
      AzureSubscriptions.length * (9 + opts.AzureLocation.length) ∧
    ∀ schedule : List Goroutine,
      let s := exec (runMetricsCollectionAzureRm d opts api AzureSubscriptions portscanner prior)
        schedule
      s.tasks.length + s.unspawned.length =
        AzureSubscriptions.length * (9 + opts.AzureLocation.length) ∧
      s.wg + signalsObserved s = s.tasks.length ∧
      (∀ t ∈ s.tasks, t.signals ≤ 1) ∧
      (s.publicIpClosed = true ∨ s.callbackClosed = true →
        s.tasks.length = AzureSubscriptions.length * (9 + opts.AzureLocation.length) ∧
        signalsObserved s = AzureSubscriptions.length * (9 + opts.AzureLocation.length) ∧
        ∀ t ∈ s.tasks, t.signals = 1) ∧
      (atRest s = true → s.crashed = false →
        s.publicIpClosed = true ∧ s.callbackClosed = true ∧
        s.tasks.length = AzureSubscriptions.length * (9 + opts.AzureLocation.length) ∧
        ∀ t ∈ s.tasks, t.signals = 1 ∧ t.todo = []) ∧
      ((∀ t ∈ spawnList d opts api AzureSubscriptions, ∀ err, Action.panic err ∉ t.todo) →
        s.crashed = false) ∧
      ((∃ t ∈ spawnList d opts api AzureSubscriptions, ∃ err, Action.panic err ∈ t.todo) →
        atRest s = true → s.crashed = true) := by
  have hlen := spawnList_length d opts api AzureSubscriptions
  simp only [spawnCount] at hlen
  refine ⟨hlen, fun schedule => ?_⟩
  have hno := run_noPanic d opts api AzureSubscriptions portscanner prior schedule
  have hpanic := run_crashed_of_rest d opts api AzureSubscriptions portscanner prior schedule
  have h := inv_run d opts api AzureSubscriptions portscanner prior schedule
  generalize exec _ schedule = s at h hno hpanic
  refine ⟨by rw [← hlen]; exact h.total, h.wg_eq, h.signals_le, fun hcl => ?_,
    fun hr hc => ?_, fun hn => (hno hn).1, hpanic⟩
  · obtain ⟨_, _, hl, hsig, hall⟩ := joined_of_closed h hcl
    exact ⟨by rw [hl, hlen], by rw [hsig, hlen], fun t ht => (hall t ht).1⟩
  · obtain ⟨hm, _, _⟩ := rest_finished h hr hc
    have hcb := h.cb_closed.2 hm
    obtain ⟨_, _, hl, _, _⟩ := joined_of_closed h (Or.inr hcb)
    exact ⟨h.ip_closed.2 (Or.inr hm), hcb, by rw [hl, hlen], rest_done h hr hc⟩

/-- C8 as amended, on the example cycle: eleven tasks, all signalled once the channels
are closed. -/
theorem join_barrier_counts_every_task_witness :
    signalsObserved (exec (exampleCycle MetricState.empty) exampleSchedule) = 1 * (9 + 2) :=
  (((join_barrier_counts_every_task exampleDeps exampleOpts exampleApi ["sub"] true
    MetricState.empty).2 exampleSchedule).2.2.2.1 (Or.inl (by decide))).2.1

/-- C9. With port scanning on and `argparserParsePortrange` returning an error, start-up
consists of the error report and `os.Exit(1)` made by `initArgparser`: the Azure
connection is not initialised, no metric family is registered, the port scanner is not
set up and the HTTP server is not started. -/
theorem portrange_error_exits_in_initArgparser (st : Startup) (err : String)
    (hflags : st.flags = .ok) (hscan : st.opts.Portscan = true)
    (herr : st.argparserParsePortrange st.opts.PortscanPortRange = some err) :
    main st =
        [.stderr (st.LoggerLogPrefixError ++ err ++ "\n"), .stdout "", .writeHelp, .exit 1] ∧
      main st = (initArgparser st).1 ∧ (initArgparser st).2 = false ∧
      (main st).getLast? = some (.exit 1) ∧
      StartupEvent.initAzureConnection ∉ main st ∧
      StartupEvent.initMetricsAzureRm ∉ main st ∧
      StartupEvent.initMetricsPortscanner ∉ main st ∧
      StartupEvent.startHttpServer ∉ main st := by
  have h1 : initArgparser st =
      ([.stderr (st.LoggerLogPrefixError ++ err ++ "\n"), .stdout "", .writeHelp, .exit 1],
        false) := by
    simp [initArgparser, hflags, hscan, herr]
  have h2 : main st =
      [.stderr (st.LoggerLogPrefixError ++ err ++ "\n"), .stdout "", .writeHelp, .exit 1] := by
    simp [main, h1]
  refine ⟨h2, by rw [h2, h1], by rw [h1], ?_, ?_, ?_, ?_, ?_⟩ <;> simp [h2]

/-- C9 on the example start. -/
theorem portrange_error_exits_in_initArgparser_witness :
    main exampleStartup =
      [.stderr ("[ERROR] " ++ "invalid portrange" ++ "\n"), .stdout "", .writeHelp, .exit 1] :=
  (portrange_error_exits_in_initArgparser exampleStartup "invalid portrange" rfl rfl rfl).1

/-- C10. `portrangeRegexp` accepts a string exactly when the whole string is a non-empty
run of decimal digits, optionally followed by one `-` and another non-empty run of decimal
digits; for an accepted string the group `first` is the leading run and the group `last`
the trailing run, absent when there is no `-` part. The examples of the claim follow. -/
theorem portrangeRegexp_accepts_first_dash_last (s : String) :
    (∀ first last, PortrangeForm s.data first last →
      portrangeSubmatch s = some ⟨some (String.mk first), last.map String.mk⟩) ∧
    (∀ m, portrangeSubmatch s = some m →
      ∃ first last, PortrangeForm s.data first last ∧
        m = ⟨some (String.mk first), last.map String.mk⟩) ∧
    portrangeSubmatch "80" = some ⟨some "80", none⟩ ∧
    portrangeSubmatch "1-1024" = some ⟨some "1", some "1024"⟩ ∧
    portrangeSubmatch "abc" = none ∧ portrangeSubmatch "" = none ∧
    portrangeSubmatch "80-" = none ∧ portrangeSubmatch "-80" = none ∧
    portrangeSubmatch "1-2-3" = none := by
  refine ⟨?_, ?_, by decide, by decide, by decide, by decide, by decide, by decide,
    by decide⟩
  · rintro first last ⟨hne, hd, hform⟩
    cases last with
    | none =>
      simp only at hform
      have hrun := portrange_run first [] hd noDigitAhead_nil
      rw [if_neg hne, tail_run_nil, List.append_nil] at hrun
      simp [portrangeSubmatch, findFrom_eq_run, hform, hrun, MatchState.submatch,
        List.lookup]
    | some l =>
      simp only at hform
      obtain ⟨hlne, hld, hs⟩ := hform
      have hrun := portrange_run first ('-' :: (l ++ [])) hd (noDigitAhead_dash _)
      rw [if_neg hne, tail_run_dash _ l [] _ hld noDigitAhead_nil, if_pos ⟨hlne, rfl⟩,
        List.append_nil] at hrun
      simp [portrangeSubmatch, findFrom_eq_run, hs, hrun, MatchState.submatch, List.lookup]
  · intro m hm
    have hsplit := List.takeWhile_append_dropWhile Char.isDigit s.data
    have hd : ∀ c ∈ s.data.takeWhile Char.isDigit, c.isDigit = true :=
      fun c hc => List.mem_takeWhile_imp hc
    have hrun := portrange_run _ _ hd (noDigitAhead_dropWhile s.data)
    rw [hsplit] at hrun
    simp only [portrangeSubmatch, findFrom_eq_run, hrun] at hm
    generalize hds : s.data.takeWhile Char.isDigit = ds at hsplit hd hm
    generalize hrest : s.data.dropWhile Char.isDigit = rest at hsplit hm
    by_cases hne : ds = []
    · simp [hne] at hm
    · rw [if_neg hne] at hm
      cases rest with
      | nil =>
        rw [tail_run_nil] at hm
        simp only [Option.map_some', Option.some.injEq] at hm
        refine ⟨ds, none, ⟨hne, hd, by simpa using hsplit.symm⟩, ?_⟩
        rw [← hm]
        simp [MatchState.submatch, List.lookup]
      | cons x xs =>
        by_cases hx : x = '-'
        · subst hx
          have hsplit₂ := List.takeWhile_append_dropWhile Char.isDigit xs
          have hd₂ : ∀ c ∈ xs.takeWhile Char.isDigit, c.isDigit = true :=
            fun c hc => List.mem_takeWhile_imp hc
          rw [← hsplit₂, tail_run_dash _ _ _ _ hd₂ (noDigitAhead_dropWhile xs)] at hm
          by_cases hok : xs.takeWhile Char.isDigit ≠ [] ∧ xs.dropWhile Char.isDigit = []
          · rw [if_pos hok] at hm
            simp only [Option.map_some', Option.some.injEq] at hm
            have hxs : xs = xs.takeWhile Char.isDigit := by
              have := hsplit₂
              rw [hok.2, List.append_nil] at this
              exact this.symm
            refine ⟨ds, some (xs.takeWhile Char.isDigit), ⟨hne, hd, hok.1, hd₂, ?_⟩, ?_⟩
            · rw [← hxs]
              exact hsplit.symm
            · rw [← hm]
              simp [MatchState.submatch, List.lookup]
          · rw [if_neg hok] at hm
            simp at hm
        · rw [tail_run_other _ x xs _ hx] at hm
          simp at hm

/-- C10 on a range with both parts. -/
theorem portrangeRegexp_accepts_first_dash_last_witness :
    portrangeSubmatch "443-8443" = some ⟨some "443", some "8443"⟩ :=
  (portrangeRegexp_accepts_first_dash_last "443-8443").1 ['4', '4', '3']
    (some ['8', '4', '4', '3']) ⟨by decide, by decide, by decide, by decide, rfl⟩

/-- C11. The scrape loop starts a cycle in each of its iterations, whatever has become of
the cycles before, and then sleeps for the scrape time: after `n` iterations `n` cycles
have been started, the first when the loop began, and cycle `k` starts `k` sleeps after
the first, which is `k` scrape times after it for a scrape time that is not negative
(`time.Sleep` takes no time for a negative one). The start times are the same whatever
time the work of the cycles takes, and a cycle whose work takes longer than the scrape
time is still at work when the next one starts. -/
theorem scrape_loop_starts_every_period (ScrapeTime : Int) (duration : Nat → Int) (t₀ : Int)
    (n k : Nat) (hk : k < n) :
    (startMetricsCollectionAzureRm ScrapeTime duration t₀ n).cycles.length = n ∧
    (startMetricsCollectionAzureRm ScrapeTime duration t₀ n).cycles[0]? =
      some ⟨0, t₀, t₀ + duration 0⟩ ∧
    (startMetricsCollectionAzureRm ScrapeTime duration t₀ n).cycles[k]? =
      some ⟨k, t₀ + k * max ScrapeTime 0, t₀ + k * max ScrapeTime 0 + duration k⟩ ∧
    (0 ≤ ScrapeTime →
      (startMetricsCollectionAzureRm ScrapeTime duration t₀ n).cycles[k]? =
        some ⟨k, t₀ + k * ScrapeTime, t₀ + k * ScrapeTime + duration k⟩) ∧
    (∀ duration' : Nat → Int,
      (startMetricsCollectionAzureRm ScrapeTime duration' t₀ n).cycles.map StartedCycle.start =
        (startMetricsCollectionAzureRm ScrapeTime duration t₀ n).cycles.map
          StartedCycle.start) ∧
    (k + 1 < n → 0 ≤ ScrapeTime → ScrapeTime < duration k →
      ∃ c c', (startMetricsCollectionAzureRm ScrapeTime duration t₀ n).cycles[k]? = some c ∧
        (startMetricsCollectionAzureRm ScrapeTime duration t₀ n).cycles[k + 1]? = some c' ∧
        c'.start = c.start + ScrapeTime ∧ c'.start < c.finish) := by
  have hs := (scrapeLoop_state ScrapeTime duration t₀ n).2
  have hget : ∀ j, j < n →
      (startMetricsCollectionAzureRm ScrapeTime duration t₀ n).cycles[j]? =
        some ⟨j, t₀ + j * max ScrapeTime 0, t₀ + j * max ScrapeTime 0 + duration j⟩ := by
    intro j hj
    rw [hs]
    simp [List.getElem?_map, List.getElem?_range hj]
  refine ⟨by rw [hs]; simp, ?_, hget k hk, ?_, ?_, ?_⟩
  · have := hget 0 (by omega)
    simpa using this
  · intro hperiod
    rw [hget k hk, max_eq_left hperiod]
  · intro duration'
    rw [hs, (scrapeLoop_state ScrapeTime duration' t₀ n).2]
    simp [List.map_map, Function.comp_def]
  · intro hk1 hperiod hlong
    refine ⟨_, _, hget k hk, hget (k + 1) hk1, ?_, ?_⟩
    · simp only [max_eq_left hperiod]
      push_cast
      ring
    · simp only [max_eq_left hperiod]
      push_cast
      linarith

/-- C11 with a scrape time of 120 and cycles that take 300: the third cycle starts at 240. -/
theorem scrape_loop_starts_every_period_witness :
    (startMetricsCollectionAzureRm 120 (fun _ => 300) 0 3).cycles[2]? =
      some ⟨2, 0 + (2 : Nat) * 120, 0 + (2 : Nat) * 120 + 300⟩ :=
  (scrape_loop_starts_every_period 120 (fun _ => 300) 0 3 2 (by decide)).2.2.2.1 (by decide)

/-- C12. With the portscan option off, start-up does not call `initMetricsPortscanner`, so
no port scanner exists; in every state a scrape cycle of such a process can reach the
bridge has called neither `SetIps` nor `Cleanup` nor `Enable`; and the collection is what
it is with the option on: the collectors do not read the option, and under every schedule
the run is the run of a process with a port scanner with the scanner left out of account,
with the same tasks, the same collected callbacks and addresses and the same metric
state. -/
theorem portscan_off_leaves_collection_unchanged (st : Startup)
    (hoff : st.opts.Portscan = false) (d : Deps) (api : Api)
    (AzureSubscriptions : List String) (prior : MetricState) (schedule : List Goroutine) :
    StartupEvent.initMetricsPortscanner ∉ main st ∧
    initMetrics st = [.initMetricsAzureRm] ∧
    portscannerPresent st = false ∧
    (exec (runMetricsCollectionAzureRm d st.opts api AzureSubscriptions (portscannerPresent st)
      prior) schedule).commands = [] ∧
    spawnList d { st.opts with Portscan := true } api AzureSubscriptions =
      spawnList d st.opts api AzureSubscriptions ∧
    exec (runMetricsCollectionAzureRm d st.opts api AzureSubscriptions (portscannerPresent st)
        prior) schedule =
      (exec (runMetricsCollectionAzureRm d { st.opts with Portscan := true } api
        AzureSubscriptions true prior) schedule).withoutScanner ∧
    (exec (runMetricsCollectionAzureRm d st.opts api AzureSubscriptions (portscannerPresent st)
        prior) schedule).metrics =
      (exec (runMetricsCollectionAzureRm d { st.opts with Portscan := true } api
        AzureSubscriptions true prior) schedule).metrics ∧
    (exec (runMetricsCollectionAzureRm d st.opts api AzureSubscriptions (portscannerPresent st)
        prior) schedule).callbackList =
      (exec (runMetricsCollectionAzureRm d { st.opts with Portscan := true } api
        AzureSubscriptions true prior) schedule).callbackList := by
  have hmain : StartupEvent.initMetricsPortscanner ∉ main st := by
    simp only [main, initArgparser, initMetrics, hoff]
    cases st.flags <;> cases st.azureConnection <;> simp
  have hpres : portscannerPresent st = false := by
    simp [portscannerPresent, hmain]
  have hrun := run_withoutScanner d st.opts api AzureSubscriptions prior schedule
  have hsame : runMetricsCollectionAzureRm d { st.opts with Portscan := true } api
      AzureSubscriptions true prior =
      runMetricsCollectionAzureRm d st.opts api AzureSubscriptions true prior := rfl
  rw [hpres, hsame]
  refine ⟨hmain, by simp [initMetrics, hoff], rfl, ?_, rfl, hrun, ?_, ?_⟩
  · rw [hrun]
    rfl
  · rw [hrun]
    rfl
  · rw [hrun]
    rfl

/-- C12 on the example start with the option switched off and the example cycle. -/
theorem portscan_off_leaves_collection_unchanged_witness :
    (exec (runMetricsCollectionAzureRm exampleDeps { exampleOpts with Portscan := false }
      exampleApi ["sub"] false MetricState.empty) exampleSchedule).commands = [] :=
  (portscan_off_leaves_collection_unchanged
    { exampleStartup with opts := { exampleOpts with Portscan := false } } rfl exampleDeps
    exampleApi ["sub"] MetricState.empty exampleSchedule).2.2.2.1

/-- C13. When the public IP listing succeeds, `collectAzurePublicIp` returns after sending
exactly one mutation per listed resource, in API order, each a single `Set` on the public
IP family: value 1 and the resource's address as label `ipAddress` when the address is
allocated, value 0 and the label `not allocated` when it is not (the label read back
provided no configured tag label is `ipAddress` itself). The returned list holds the
allocated addresses in API order, and its length is the number of `Set` statements with
value 1. -/
theorem collectAzurePublicIp_emits_one_per_resource (d : Deps) (opts : Opts) (api : Api)
    (sub : String) (list : List PublicIPAddress)
    (hok : api.publicIPAddressesListAll sub = .ok list) :
    (collectAzurePublicIp d opts api sub).1.outcome = .returned ∧
    (collectAzurePublicIp d opts api sub).1.sent = list.map (publicIpMutation d opts sub) ∧
    (collectAzurePublicIp d opts api sub).1.sent.length = list.length ∧
    (∀ val ∈ list, ∃ op : SetOp, publicIpMutation d opts sub val = [op] ∧
      op.family = .prometheusPublicIp ∧
      (∀ a, val.IPAddress = some a → op.value = 1) ∧
      (val.IPAddress = none → op.value = 0) ∧
      ((∀ t ∈ opts.AzureResourceTags, "ipAddress" ≠ d.AZURE_RESOURCE_TAG_PREFIX ++ t) →
        op.labels.lookup "ipAddress" =
          some (match val.IPAddress with
            | some a => a
            | none => "not allocated"))) ∧
    (collectAzurePublicIp d opts api sub).2 = list.filterMap PublicIPAddress.IPAddress ∧
    (collectAzurePublicIp d opts api sub).2.length =
      (collectAzurePublicIp d opts api sub).1.sent.flatten.countP fun op => op.value = 1 := by
  have hs := collectAzurePublicIp_sent d opts api sub list hok
  have hr := (collectAzurePublicIp_ok d opts api sub list hok).2
  refine ⟨by rw [hs], by rw [hs], by rw [hs]; simp, ?_, hr, ?_⟩
  · intro val _
    refine ⟨_, rfl, rfl, ?_, ?_, ?_⟩
    · intro a ha
      simp [ha]
    · intro ha
      simp [ha]
    · intro hno
      rw [addAzureResourceTags_lookup_other d val.Tags _ "ipAddress" _ opts rfl hno]
      simp [lookup_cons]
  · rw [hs, hr]
    exact (countP_publicIpMutation d opts sub list).symm

/-- C13 on the example listing of two resources, one of them without an address. -/
theorem collectAzurePublicIp_emits_one_per_resource_witness :
    (collectAzurePublicIp exampleDeps exampleOpts exampleApi "sub").2 = ["1.2.3.4"] :=
  (collectAzurePublicIp_emits_one_per_resource exampleDeps exampleOpts exampleApi "sub" _
    rfl).2.2.2.2.1

/-- C14. For every tag map, label set and list of configured tag names,
`addAzureResourceTags` returns a label set in which the key `prefix + t` of each configured
tag name `t` carries the resource's value of tag `t`, or the empty string when the
resource has no such tag; every other key has the value it had; a key is present in the
result exactly when it was present before or is `prefix + t` for a configured `t`; and
the keys of the result are the same whatever tags the resource carries. -/
theorem addAzureResourceTags_sets_tag_labels (d : Deps) (opts : Opts) (tags : Tags)
    (labels : Labels) :
    (∀ t ∈ opts.AzureResourceTags,
      (addAzureResourceTags d opts tags labels).lookup (d.AZURE_RESOURCE_TAG_PREFIX ++ t) =
        some (match tags.lookup t with
          | some v => v
          | none => "")) ∧
    (∀ k : String, (∀ t ∈ opts.AzureResourceTags, k ≠ d.AZURE_RESOURCE_TAG_PREFIX ++ t) →
      (addAzureResourceTags d opts tags labels).lookup k = labels.lookup k) ∧
    (∀ k : String, ((addAzureResourceTags d opts tags labels).lookup k).isSome = true ↔
      (labels.lookup k).isSome = true ∨
        ∃ t ∈ opts.AzureResourceTags, k = d.AZURE_RESOURCE_TAG_PREFIX ++ t) ∧
    (∀ tags' : Tags,
      (addAzureResourceTags d opts tags labels).map Prod.fst =
        (addAzureResourceTags d opts tags' labels).map Prod.fst) := by
  have h1 := addAzureResourceTags_lookup_tag d tags labels opts.AzureResourceTags opts rfl
  have h2 := fun k => addAzureResourceTags_lookup_other d tags labels k
    opts.AzureResourceTags opts rfl
  refine ⟨?_, h2, ?_, fun tags' => addAzureResourceTags_keys d tags tags' labels _ opts rfl⟩
  · intro t ht
    rw [h1 t ht]
    cases tags.lookup t <;> rfl
  · intro k
    by_cases hk : ∃ t ∈ opts.AzureResourceTags, k = d.AZURE_RESOURCE_TAG_PREFIX ++ t
    · obtain ⟨t, ht, rfl⟩ := hk
      simp only [h1 t ht, Option.isSome_some, true_iff]
      exact Or.inr ⟨t, ht, rfl⟩
    · have hk' : ∀ t ∈ opts.AzureResourceTags, k ≠ d.AZURE_RESOURCE_TAG_PREFIX ++ t :=
        fun t ht e => hk ⟨t, ht, e⟩
      rw [h2 k hk']
      simp [hk]

/-- C14 on a resource that carries the tag `owner` and lacks the tag `team`. -/
theorem addAzureResourceTags_sets_tag_labels_witness :
    (addAzureResourceTags exampleDeps { exampleOpts with AzureResourceTags := ["owner", "team"] }
        [("owner", "me"), ("env", "prod")] [("resourceID", "id")]).lookup ("tag_" ++ "team") =
      some "" :=
  (addAzureResourceTags_sets_tag_labels exampleDeps
    { exampleOpts with AzureResourceTags := ["owner", "team"] }
    [("owner", "me"), ("env", "prod")] [("resourceID", "id")]).1 "team" (by decide)

/-- C15. `probeProcessHeader` always returns. It sends exactly one mutation, the `Set` of
the rate limit family at the given labels to the parsed number, when the header value is
non-empty and parses; it sends nothing when the header is absent or empty, and nothing
(after logging the failure) when the value does not parse. So a subscription task whose
call succeeds returns after sending the subscription mutation followed by the mutations of
those of the six rate limit headers that are present and numeric, at most six. -/
theorem probeProcessHeader_emits_iff_numeric (d : Deps) (header : String → String)
    (name : String) (labels : Labels) :
    (probeProcessHeader d header name labels).outcome = .returned ∧
    (∀ v, header name ≠ "" → d.parseFloat (header name) = .ok v →
      probeProcessHeader d header name labels =
        ⟨[[⟨.prometheusApiQuota, labels, v⟩]], [], .returned⟩) ∧
    (header name = "" → probeProcessHeader d header name labels = ⟨[], [], .returned⟩) ∧
    (∀ err, header name ≠ "" → d.parseFloat (header name) = .error err →
      probeProcessHeader d header name labels =
        ⟨[], [⟨"Failed to parse value '" ++ header name ++ "':", err⟩], .returned⟩) ∧
    (∀ (api : Api) (sub : String) (s : Subscription), api.subscriptionsGet sub = .ok s →
      (collectAzureSubscription d api sub).outcome = .returned ∧
      (collectAzureSubscription d api sub).sent =
        [⟨.prometheusSubscription,
          [("resourceID", s.ID), ("subscriptionID", s.SubscriptionID),
           ("subscriptionName", s.DisplayName), ("spendingLimit", s.SpendingLimit),
           ("quotaID", s.QuotaID), ("locationPlacementID", s.LocationPlacementID)], 1⟩] ::
        rateLimitHeaders.flatMap (fun h =>
          (probeProcessHeader d s.Header h.1
            [("subscriptionID", sub), ("scope", h.2.1), ("type", h.2.2)]).sent) ∧
      1 ≤ (collectAzureSubscription d api sub).sent.length ∧
      (collectAzureSubscription d api sub).sent.length ≤ 1 + 6) := by
  refine ⟨(probeProcessHeader_outcome d header name labels).1, ?_, ?_, ?_, ?_⟩
  · intro v hne hv
    simp [probeProcessHeader, hne, hv, Collected.send]
  · intro he
    simp [probeProcessHeader, he, Collected.skip]
  · intro err hne he
    simp [probeProcessHeader, hne, he, Collected.log]
  · intro api sub s hok
    obtain ⟨h1, h2⟩ := collectAzureSubscription_sent d api sub s hok
    refine ⟨h1, h2, by rw [h2]; simp, ?_⟩
    rw [h2]
    have hl := fun name labels => (probeProcessHeader_outcome d s.Header name labels).2
    simp only [rateLimitHeaders, List.flatMap_cons, List.flatMap_nil, List.length_cons,
      List.length_append, List.length_nil]
    have a1 := hl "x-ms-ratelimit-remaining-subscription-reads"
      [("subscriptionID", sub), ("scope", "subscription"), ("type", "read")]
    have a2 := hl "x-ms-ratelimit-remaining-subscription-resource-requests"
      [("subscriptionID", sub), ("scope", "subscription"), ("type", "resource-requests")]
    have a3 := hl "x-ms-ratelimit-remaining-subscription-resource-entities-read"
      [("subscriptionID", sub), ("scope", "subscription"), ("type", "resource-entities-read")]
    have a4 := hl "x-ms-ratelimit-remaining-tenant-reads"
      [("subscriptionID", sub), ("scope", "tenant"), ("type", "read")]
    have a5 := hl "x-ms-ratelimit-remaining-tenant-resource-requests"
      [("subscriptionID", sub), ("scope", "tenant"), ("type", "resource-requests")]
    have a6 := hl "x-ms-ratelimit-remaining-tenant-resource-entities-read"
      [("subscriptionID", sub), ("scope", "tenant"), ("type", "resource-entities-read")]
    omega

/-- C15 on a header that is present and numeric. -/
theorem probeProcessHeader_emits_iff_numeric_witness :
    probeProcessHeader integerDeps (fun _ => "11999")
        "x-ms-ratelimit-remaining-subscription-reads"
        [("subscriptionID", "sub"), ("scope", "subscription"), ("type", "read")] =
      ⟨[[⟨.prometheusApiQuota,
          [("subscriptionID", "sub"), ("scope", "subscription"), ("type", "read")], 11999⟩]],
        [], .returned⟩ :=
  (probeProcessHeader_emits_iff_numeric integerDeps (fun _ => "11999")
    "x-ms-ratelimit-remaining-subscription-reads"
    [("subscriptionID", "sub"), ("scope", "subscription"), ("type", "read")]).2.1 11999
    (by decide) rfl

/-- C16. With the flags parsed, `initArgparser` consults `argparserParsePortrange` exactly
when the portscan option is on. With the option off it returns normally without any
output, whatever the port range strings are and whatever their parsing would answer; with
the option on its outcome is the outcome of the parsing: exit status 1 on an error, a
normal return otherwise. -/
theorem portrange_checked_iff_portscan (st : Startup) (hflags : st.flags = .ok) :
    (st.opts.Portscan = false →
      initArgparser st = ([], true) ∧
      (∀ parse : List String → Option String,
        initArgparser { st with argparserParsePortrange := parse } = ([], true)) ∧
      (∀ ranges : List String,
        initArgparser { st with opts := { st.opts with PortscanPortRange := ranges } } =
          ([], true))) ∧
    (st.opts.Portscan = true →
      (∀ err, st.argparserParsePortrange st.opts.PortscanPortRange = some err →
        initArgparser st =
          ([.stderr (st.LoggerLogPrefixError ++ err ++ "\n"), .stdout "", .writeHelp, .exit 1],
            false)) ∧
      (st.argparserParsePortrange st.opts.PortscanPortRange = none →
        initArgparser st = ([], true))) := by
  refine ⟨fun hoff => ⟨?_, ?_, ?_⟩, fun hon => ⟨?_, ?_⟩⟩
  · simp [initArgparser, hflags, hoff]
  · intro parse
    simp [initArgparser, hflags, hoff]
  · intro ranges
    simp [initArgparser, hflags, hoff]
  · intro err herr
    simp [initArgparser, hflags, hon, herr]
  · intro hnone
    simp [initArgparser, hflags, hon, hnone]

/-- C16 on the example start with the portscan option switched off: the string `abc` does
not match the pattern, its parsing would fail, and `initArgparser` returns normally. -/
theorem portrange_checked_iff_portscan_witness :
    portrangeSubmatch "abc" = none ∧
      exampleStartup.argparserParsePortrange ["abc"] = some "invalid portrange" ∧
      initArgparser
        { exampleStartup with opts := { exampleStartup.opts with Portscan := false } } =
        ([], true) :=
  ⟨by decide, rfl,
    ((portrange_checked_iff_portscan
      { exampleStartup with opts := { exampleStartup.opts with Portscan := false } } rfl).1
      rfl).1⟩

end AzureRM
